import Mathlib

/-!
# WireguardManager: a shallow embedding of the peer allocator, the dump parser
and the per-user derivation

Source files embedded here:

* `internal/handlers/wireguard.go`  : `allocatePeerIP`, `AddPeer`, `DeletePeer`,
  `UpdatePeer`, `GetPeerConfig`
* `internal/services/wireguard.go`  : `parseWireguardDump`, `GenerateKeys`,
  `CreateConfig`, `StartWireguardInNamespace`, `StopWireguardInNamespace`, `AddPeer`,
  `RemovePeer`, `GetConfigPath`
* `internal/services/netns.go`      : the namespace, veth, NAT, port forwarding, route
  and forward-rule functions
* `internal/services/user_network.go` : `ProvisionUserNetwork`, `DestroyUserNetwork`,
  `hashUserUID`, `generateNamespaceName`
* `internal/models/wireguard.go`    : the row and statistics records
* `internal/models/user.go`         : `BeforeCreate`, `generateUserUID`
* `internal/database/database.go`   : `createDefaultPlatformAdmin`
* `internal/handlers/auth.go`       : the row built by `Register`

Conventions of the embedding.

* A Go `string` handled bytewise by the code (addresses, names, user ids) is a
  `ByteString`, a list of bytes.  `strings.Split` with a one-byte separator is
  `List.splitOn`, `s[:k]` is `List.take k` guarded by the bounds check, the
  `%s` and `%d` verbs of `fmt.Sprintf` are concatenation and `formatInt`.
* The text printed by `wg show <iface> dump` is a `Text`, a list of Unicode
  code points (the output is taken to be valid UTF-8), because
  `strings.Fields` and `strings.TrimSpace` work rune by rune.
* Go `int` is the 64-bit signed integer of the platforms the service runs on;
  arithmetic that may overflow goes through `wrapInt64`.
* Effects (database, external commands) are explicit: every handler takes the
  outcomes of the effects it triggers as an argument and returns the new
  catalog together with the calls it issued.
* In the second half the services are embedded command by command: every
  `exec.Command`, `os.MkdirAll` and `os.WriteFile` is an `Action`, the host
  answers each action of a run through an `Env`, and the functions of the
  namespace `Run` thread the `Log` of the actions performed.  `filepath.Join`
  is a field of the environment.
-/

namespace WireguardManager

deriving instance DecidableEq for Except

/-! ## Byte strings and integer formatting -/

/-- A Go string seen as its bytes. -/
abbrev ByteString := List UInt8

/-- The bytes (UTF-8) of a string literal of the source. -/
def lit (s : String) : ByteString := s.toUTF8.data.toList

/-- The byte of the decimal digit `d` (`'0' + d`). -/
def digitByte (d : Nat) : UInt8 := UInt8.ofNat (48 + d)

/-- The decimal digits of `n`, least significant first, produced by repeated division
by ten as in `strconv.FormatInt`; one unit of fuel per digit. -/
def decimalDigits : Nat → Nat → List Nat
  | 0, _ => []
  | fuel + 1, n => if n < 10 then [n] else (n % 10) :: decimalDigits fuel (n / 10)

/-- The `%d` verb on a non-negative integer. -/
def formatNat (n : Nat) : ByteString :=
  ((decimalDigits (n + 1) n).reverse).map digitByte

/-- The `%d` verb of `fmt.Sprintf` on a Go `int`. -/
def formatInt (i : Int) : ByteString :=
  if i < 0 then (45 : UInt8) :: formatNat (-i).toNat else formatNat i.toNat

/-- The value of a digit list (least significant first) read back from its digit bytes. -/
def digitsValue (ds : List Nat) : Nat :=
  ds.foldr (fun d acc => ((digitByte d).toNat - 48) + 10 * acc) 0

/-- Reads a printed decimal number back: a left inverse of `formatNat`. -/
def readNat (bs : ByteString) : Nat :=
  bs.reverse.foldr (fun b acc => (b.toNat - 48) + 10 * acc) 0

/-- The byte of `'/'`. -/
def slash : UInt8 := 47

/-- The byte of `'.'`. -/
def dot : UInt8 := 46

/-- Go `strings.Split(s, sep)` for a separator of one byte. -/
def Split (s : ByteString) (sep : UInt8) : List ByteString := s.splitOn sep

/-- Two's-complement wrap-around of a Go `int` (64 bits). -/
def wrapInt64 (x : Int) : Int := (x + 2 ^ 63) % 2 ^ 64 - 2 ^ 63

/-! ## Catalog rows (`internal/models/wireguard.go`) -/

/-- Row `WireguardServer`; time stamps and the embedded user are left out. -/
structure WireguardServer where
  ID : Nat
  UserID : Nat
  Namespace : ByteString
  WgInterface : ByteString
  WgPort : Int
  WgPublicKey : ByteString
  WgPrivateKey : ByteString
  WgAddress : ByteString
  deriving DecidableEq, Repr

/-- Row `WireguardPeer`; time stamps and the embedded server are left out. -/
structure WireguardPeer where
  ID : Nat
  ServerID : Nat
  PublicKey : ByteString
  PrivateKey : ByteString
  PeerAddress : ByteString
  AllowedIPs : ByteString
  PersistentKeepalive : Int
  Comment : ByteString
  EnableForwarding : Bool
  ForwardInterface : ByteString
  deriving DecidableEq, Repr

/-! ## The peer IP allocator (`internal/handlers/wireguard.go`) -/

/-- The errors `allocatePeerIP` returns, one constructor per `return "", ...`. -/
inductive AllocError where
  /-- Message `invalid server address format`. -/
  | invalidServerAddressFormat
  /-- Message `invalid IP address format`. -/
  | invalidIPAddressFormat
  /-- The error of the catalog query, passed on unchanged. -/
  | database (msg : String)
  /-- Message `no available IP addresses in the subnet`. -/
  | noAvailableIP
  deriving DecidableEq, Repr

/-- The candidate address `fmt.Sprintf("%s.%d", baseIP, i)`. -/
def candidateIP (baseIP : ByteString) (i : Nat) : ByteString :=
  baseIP ++ [dot] ++ formatNat i

/-- Function `allocatePeerIP(serverID, serverAddress)`.  The argument `find` stands for the
query `database.DB.Where("server_id = ?", serverID).Find(&peers)`; the map `usedIPs` is the
list of its keys and the loop `for i := 2; i <= 254; i++` with its early return is
`List.find?` over `2, 3, ..., 254`. -/
def allocatePeerIP (find : Nat → Except String (List WireguardPeer)) (serverID : Nat)
    (serverAddress : ByteString) : Except AllocError ByteString :=
  let parts := Split serverAddress slash
  if parts.length ≠ 2 then .error .invalidServerAddressFormat
  else
    let ipParts := Split (parts.getD 0 []) dot
    if ipParts.length ≠ 4 then .error .invalidIPAddressFormat
    else
      match find serverID with
      | .error e => .error (.database e)
      | .ok peers =>
        let usedIPs := parts.getD 0 [] :: peers.map (fun peer => peer.PeerAddress)
        let baseIP := ipParts.getD 0 [] ++ [dot] ++ ipParts.getD 1 [] ++ [dot] ++ ipParts.getD 2 []
        match (List.range' 2 253).find? (fun i => decide (candidateIP baseIP i ∉ usedIPs)) with
        | some i => .ok (candidateIP baseIP i)
        | none => .error .noAvailableIP

/-! ## The catalog and the peer handlers (`internal/handlers/wireguard.go`) -/

/-- The tables the handlers read and write, with the next primary key of the peer table. -/
structure Catalog where
  servers : List WireguardServer
  peers : List WireguardPeer
  nextPeerID : Nat
  deriving DecidableEq, Repr

/-- Query `DB.Where("server_id = ?", serverID).Find(&peers)`; `queryError` is the error the
database reports, if any. -/
def Catalog.findPeers (cat : Catalog) (queryError : Option String) (serverID : Nat) :
    Except String (List WireguardPeer) :=
  match queryError with
  | some e => .error e
  | none => .ok (cat.peers.filter (fun peer => peer.ServerID == serverID))

/-- Query `DB.Where("user_id = ?", u.ID).First(&wgServer)`; no row and a failing query both
end in an error, which the handlers do not tell apart. -/
def Catalog.firstServer (cat : Catalog) (queryFails : Bool) (userID : Nat) :
    Option WireguardServer :=
  if queryFails then none else cat.servers.find? (fun server => server.UserID == userID)

/-- Query `DB.First(&peer, peerID)`. -/
def Catalog.firstPeer (cat : Catalog) (queryFails : Bool) (peerID : Nat) : Option WireguardPeer :=
  if queryFails then none else cat.peers.find? (fun peer => peer.ID == peerID)

/-- Hook `WireguardPeer.BeforeCreate`: a keepalive of zero becomes 25. -/
def WireguardPeer.BeforeCreate (p : WireguardPeer) : WireguardPeer :=
  if p.PersistentKeepalive = 0 then { p with PersistentKeepalive := 25 } else p

/-- Statement `DB.Create(&peer)`: runs the hook, assigns the primary key and inserts the
row; `none` when the insert fails. -/
def Catalog.create (cat : Catalog) (createFails : Bool) (peer : WireguardPeer) :
    Option (Catalog × WireguardPeer) :=
  if createFails then none
  else
    let row := { peer.BeforeCreate with ID := cat.nextPeerID }
    some ({ cat with peers := cat.peers ++ [row], nextPeerID := cat.nextPeerID + 1 }, row)

/-- Statement `DB.Delete(&peer)`, by primary key; the table is unchanged when it fails. -/
def Catalog.delete (cat : Catalog) (deleteFails : Bool) (peer : WireguardPeer) : Catalog :=
  if deleteFails then cat
  else { cat with peers := cat.peers.filter (fun row => row.ID != peer.ID) }

/-- The calls a peer handler makes to the WireGuard and namespace services. -/
inductive ServiceCall where
  | GenerateKeys
  | AddPeer (nsName interfaceName publicKey allowedIPs endpoint : ByteString)
  | RemovePeer (nsName interfaceName publicKey : ByteString)
  | AddRouteForPeer (nsName interfaceName allowedIPs : ByteString)
  | DeleteRouteForPeer (nsName interfaceName allowedIPs : ByteString)
  | AddIptablesRuleForPeer (nsName allowedIPs : ByteString)
  | DeleteIptablesRuleForPeer (nsName allowedIPs : ByteString)
  deriving DecidableEq, Repr

/-- Body `AddPeerRequest`. -/
structure AddPeerRequest where
  AllowedIPs : ByteString
  PersistentKeepalive : Int
  Comment : ByteString
  EnableForwarding : Bool
  ForwardInterface : ByteString
  deriving DecidableEq, Repr

/-- What the environment answers during one `AddPeer`: for every query and service call the
error it returns (`none` or `false` for success). -/
structure AddPeerEffects where
  serverQueryFails : Bool
  generateKeys : Except String (ByteString × ByteString)
  peerQueryError : Option String
  createFails : Bool
  addPeerError : Option String
  addRouteError : Option String
  addIptablesError : Option String
  rollbackDeleteFails : Bool
  deriving DecidableEq, Repr

/-- The responses of `AddPeer`, one constructor per `response.*` call of the handler. -/
inductive AddPeerResponse where
  /-- Validation error of `ShouldBindJSON`. -/
  | validationError
  /-- Bad request `User has no WireGuard server configured`. -/
  | noServer
  /-- Internal error `Failed to generate peer keys: ...`. -/
  | generateKeysFailed (e : String)
  /-- Internal error `Failed to allocate peer IP: ...`. -/
  | allocateFailed (e : AllocError)
  /-- Internal error `Failed to create peer record`. -/
  | createFailed
  /-- Internal error `Failed to add peer to WireGuard: ...`. -/
  | addPeerFailed (e : String)
  /-- Internal error `Failed to add route for peer: ...`. -/
  | addRouteFailed (e : String)
  /-- Internal error `Failed to add iptables rule for peer: ...`. -/
  | addIptablesFailed (e : String)
  /-- Created `Peer added successfully`, with `peer.ToResponse()`. -/
  | created (peer : WireguardPeer)
  deriving DecidableEq, Repr

/-- Handler `AddPeer`.  `body` is the request as `ShouldBindJSON` decoded it (`none` when it
fails).  Returns the catalog after the call, the response and the service calls issued, in
order. -/
def AddPeer (cat : Catalog) (userID : Nat) (body : Option AddPeerRequest) (eff : AddPeerEffects) :
    Catalog × AddPeerResponse × List ServiceCall :=
  match body with
  | none => (cat, .validationError, [])
  | some req =>
  match cat.firstServer eff.serverQueryFails userID with
  | none => (cat, .noServer, [])
  | some wgServer =>
  match eff.generateKeys with
  | .error e => (cat, .generateKeysFailed e, [.GenerateKeys])
  | .ok (privateKey, publicKey) =>
  match allocatePeerIP (cat.findPeers eff.peerQueryError) wgServer.ID wgServer.WgAddress with
  | .error e => (cat, .allocateFailed e, [.GenerateKeys])
  | .ok peerIP =>
  let allowedIPs := if req.AllowedIPs = [] then peerIP ++ lit "/32" else req.AllowedIPs
  let peer : WireguardPeer :=
    { ID := 0, ServerID := wgServer.ID, PublicKey := publicKey, PrivateKey := privateKey,
      PeerAddress := peerIP, AllowedIPs := allowedIPs,
      PersistentKeepalive := req.PersistentKeepalive, Comment := req.Comment,
      EnableForwarding := req.EnableForwarding, ForwardInterface := req.ForwardInterface }
  match cat.create eff.createFails peer with
  | none => (cat, .createFailed, [.GenerateKeys])
  | some (cat1, peer) =>
  let addPeer := ServiceCall.AddPeer wgServer.Namespace wgServer.WgInterface publicKey
    (peerIP ++ lit "/32") []
  match eff.addPeerError with
  | some e => (cat1.delete eff.rollbackDeleteFails peer, .addPeerFailed e, [.GenerateKeys, addPeer])
  | none =>
  if allowedIPs ≠ peerIP ++ lit "/32" ∧ allowedIPs ≠ lit "0.0.0.0/0" then
    let addRoute := ServiceCall.AddRouteForPeer wgServer.Namespace wgServer.WgInterface allowedIPs
    let removePeer := ServiceCall.RemovePeer wgServer.Namespace wgServer.WgInterface publicKey
    match eff.addRouteError with
    | some e =>
      (cat1.delete eff.rollbackDeleteFails peer, .addRouteFailed e,
        [.GenerateKeys, addPeer, addRoute, removePeer])
    | none =>
    let addIptables := ServiceCall.AddIptablesRuleForPeer wgServer.Namespace allowedIPs
    match eff.addIptablesError with
    | some e =>
      (cat1.delete eff.rollbackDeleteFails peer, .addIptablesFailed e,
        [.GenerateKeys, addPeer, addRoute, addIptables,
          .DeleteRouteForPeer wgServer.Namespace wgServer.WgInterface allowedIPs, removePeer])
    | none => (cat1, .created peer, [.GenerateKeys, addPeer, addRoute, addIptables])
  else (cat1, .created peer, [.GenerateKeys, addPeer])

/-- What the environment answers during one `DeletePeer`. -/
structure DeletePeerEffects where
  serverQueryFails : Bool
  peerQueryFails : Bool
  removePeerError : Option String
  deleteFails : Bool
  deriving DecidableEq, Repr

/-- The responses of `DeletePeer`. -/
inductive DeletePeerResponse where
  /-- Bad request `Invalid peer ID`. -/
  | invalidPeerID
  /-- Bad request `User has no WireGuard server configured`. -/
  | noServer
  /-- Not found `Peer not found`. -/
  | notFound
  /-- Forbidden `You don't have permission to delete this peer`. -/
  | forbidden
  /-- Internal error `Failed to remove peer from WireGuard: ...`. -/
  | removePeerFailed (e : String)
  /-- Internal error `Failed to delete peer record`. -/
  | deleteFailed
  /-- Success `Peer deleted successfully`. -/
  | deleted
  deriving DecidableEq, Repr

/-- Handler `DeletePeer`.  `peerID` is the path parameter as `strconv.ParseUint` read it
(`none` when it fails). -/
def DeletePeer (cat : Catalog) (userID : Nat) (peerID : Option Nat) (eff : DeletePeerEffects) :
    Catalog × DeletePeerResponse × List ServiceCall :=
  match peerID with
  | none => (cat, .invalidPeerID, [])
  | some peerID =>
  match cat.firstServer eff.serverQueryFails userID with
  | none => (cat, .noServer, [])
  | some wgServer =>
  match cat.firstPeer eff.peerQueryFails peerID with
  | none => (cat, .notFound, [])
  | some peer =>
  if peer.ServerID ≠ wgServer.ID then (cat, .forbidden, [])
  else
    let calls := [ServiceCall.DeleteIptablesRuleForPeer wgServer.Namespace peer.AllowedIPs,
      .DeleteRouteForPeer wgServer.Namespace wgServer.WgInterface peer.AllowedIPs,
      .RemovePeer wgServer.Namespace wgServer.WgInterface peer.PublicKey]
    match eff.removePeerError with
    | some e => (cat, .removePeerFailed e, calls)
    | none =>
      if eff.deleteFails then (cat, .deleteFailed, calls)
      else (cat.delete false peer, .deleted, calls)

/-- One call of a serialized history of one user. -/
inductive PeerOp where
  | add (body : Option AddPeerRequest) (eff : AddPeerEffects)
  | delete (peerID : Option Nat) (eff : DeletePeerEffects)
  deriving DecidableEq, Repr

/-- The outcome of one call. -/
inductive PeerOpResult where
  | add (r : AddPeerResponse)
  | delete (r : DeletePeerResponse)
  deriving DecidableEq, Repr

/-- Runs one call of the history. -/
def PeerOp.run (userID : Nat) (cat : Catalog) : PeerOp → Catalog × PeerOpResult
  | .add body eff => ((AddPeer cat userID body eff).1, .add (AddPeer cat userID body eff).2.1)
  | .delete peerID eff =>
    ((DeletePeer cat userID peerID eff).1, .delete (DeletePeer cat userID peerID eff).2.1)

/-- Runs a history, one call after the other; returns the last catalog and the responses. -/
def runPeerOps (userID : Nat) (cat : Catalog) : List PeerOp → Catalog × List PeerOpResult
  | [] => (cat, [])
  | op :: ops =>
    let r := op.run userID cat
    let rest := runPeerOps userID r.1 ops
    (rest.1, r.2 :: rest.2)

/-- The addresses of the live peers of a server. -/
def Catalog.peerAddresses (cat : Catalog) (serverID : Nat) : List ByteString :=
  (cat.peers.filter (fun peer => peer.ServerID == serverID)).map (fun peer => peer.PeerAddress)

/-! ## Addresses as the specification writes them -/

/-- The dotted quad `A.B.C.D`, every component printed in decimal. -/
def dottedQuad (A B C D : Nat) : ByteString :=
  formatNat A ++ [dot] ++ formatNat B ++ [dot] ++ formatNat C ++ [dot] ++ formatNat D

/-- The server address `A.B.C.1/24`. -/
def serverCIDR (A B C : Nat) : ByteString :=
  dottedQuad A B C 1 ++ [slash] ++ lit "24"

/-- The addresses of the rows a peer query returned. -/
def peerAddresses (peers : List WireguardPeer) : List ByteString :=
  peers.map (fun peer => peer.PeerAddress)

/-- A non-empty string of decimal digits. -/
def isDecimal (s : ByteString) : Bool :=
  !s.isEmpty && s.all (fun b => decide (48 ≤ b.toNat ∧ b.toNat ≤ 57))

/-- A decimal octet, `0` to `255`. -/
def isOctet (s : ByteString) : Bool :=
  isDecimal s && decide (readNat s ≤ 255)

/-- The well-formed server addresses in the words of the specification: a dotted quad of
four decimal octets, then `/`, then a prefix length (`0` to `32`). -/
def isDottedQuadCIDR (s : ByteString) : Bool :=
  match Split s slash with
  | [ip, len] =>
    (match Split ip dot with
      | [a, b, c, d] => isOctet a && isOctet b && isOctet c && isOctet d
      | _ => false) && isDecimal len && decide (readNat len ≤ 32)
  | _ => false

/-- An `AddPeer` during which no query and no service call fails. -/
def AddPeerEffects.succeeds (eff : AddPeerEffects) : Bool :=
  !eff.serverQueryFails &&
    (match eff.generateKeys with
      | .ok _ => true
      | .error _ => false) &&
    eff.peerQueryError.isNone && !eff.createFails && eff.addPeerError.isNone &&
    eff.addRouteError.isNone && eff.addIptablesError.isNone

/-! ## Parsing `wg show <iface> dump` (`internal/services/wireguard.go`) -/

/-- Text handled rune by rune: a list of Unicode code points. -/
abbrev Text := List Char

/-- Go `unicode.IsSpace`. -/
def isSpace (c : Char) : Bool :=
  let n := c.toNat
  n = 9 || n = 10 || n = 11 || n = 12 || n = 13 || n = 32 || n = 0x85 || n = 0xA0 ||
    n = 0x1680 || (0x2000 ≤ n && n ≤ 0x200A) || n = 0x2028 || n = 0x2029 || n = 0x202F ||
    n = 0x205F || n = 0x3000

/-- Go `strings.TrimSpace`. -/
def TrimSpace (s : Text) : Text :=
  (((s.dropWhile isSpace).reverse).dropWhile isSpace).reverse

/-- Go `strings.Fields`: the maximal runs of non-space runes. -/
def Fields (s : Text) : List Text :=
  (s.splitOnP isSpace).filter (fun field => !field.isEmpty)

/-- Go `strings.Split(s, "\n")`. -/
def splitLines (s : Text) : List Text := s.splitOn '\n'

/-- The value of a non-empty string of decimal digits, as `strconv.ParseUint` reads it in
base ten before any range check. -/
def parseDigits (s : Text) : Option Nat :=
  if s.isEmpty then none
  else if s.all (fun c => decide (48 ≤ c.toNat ∧ c.toNat ≤ 57)) then
    some (s.foldl (fun acc c => acc * 10 + (c.toNat - 48)) 0)
  else none

/-- Go `strconv.ParseInt(s, 10, 64)`, `none` standing for any error (syntax or range);
`strconv.Atoi` on a 64-bit platform accepts the same strings with the same values. -/
def ParseInt (s : Text) : Option Int :=
  match s with
  | [] => none
  | c :: rest =>
    if c = '+' then
      match parseDigits rest with
      | some v => if v < 2 ^ 63 then some (v : Int) else none
      | none => none
    else if c = '-' then
      match parseDigits rest with
      | some v => if v ≤ 2 ^ 63 then some (-(v : Int)) else none
      | none => none
    else
      match parseDigits (c :: rest) with
      | some v => if v < 2 ^ 63 then some (v : Int) else none
      | none => none

/-- Go `strconv.Atoi`. -/
def Atoi (s : Text) : Option Int := ParseInt s

/-- A `time.Time`: the zero value, or `time.Unix(sec, 0)`. -/
inductive Time where
  | zero
  | unix (sec : Int)
  deriving DecidableEq, Repr

/-- Record `WireguardPeerStats`. -/
structure WireguardPeerStats where
  PublicKey : Text
  Endpoint : Text
  AllowedIPs : Text
  LatestHandshake : Time
  TransferRx : Int
  TransferTx : Int
  PersistentKeepalive : Int
  Comment : Text
  deriving DecidableEq, Repr

/-- Record `WireguardServerStats`. -/
structure WireguardServerStats where
  Interface : Text
  PublicKey : Text
  ListenPort : Int
  PeerCount : Int
  TotalRx : Int
  TotalTx : Int
  Peers : List WireguardPeerStats
  deriving DecidableEq, Repr

/-- The interface part of `parseWireguardDump`: the statements on `lines[0]`. -/
def parseInterfaceLine (stats : WireguardServerStats) (line : Text) : WireguardServerStats :=
  let interfaceFields := Fields line
  if interfaceFields.length ≥ 4 then
    let stats := { stats with PublicKey := interfaceFields.getD 2 [] }
    match Atoi (interfaceFields.getD 3 []) with
    | some port => { stats with ListenPort := port }
    | none => stats
  else stats

/-- The body of the loop `for i := 1; i < len(lines); i++` of `parseWireguardDump`. -/
def parsePeerLine (stats : WireguardServerStats) (line : Text) : WireguardServerStats :=
  let fields := Fields line
  if fields.length < 8 then stats
  else
    let peerStats : WireguardPeerStats :=
      { PublicKey := fields.getD 0 [], Endpoint := fields.getD 2 [],
        AllowedIPs := fields.getD 3 [], LatestHandshake := .zero, TransferRx := 0,
        TransferTx := 0, PersistentKeepalive := 0, Comment := [] }
    let peerStats :=
      match ParseInt (fields.getD 4 []) with
      | some handshake =>
        if handshake > 0 then { peerStats with LatestHandshake := .unix handshake } else peerStats
      | none => peerStats
    let (peerStats, stats) :=
      match ParseInt (fields.getD 5 []) with
      | some rx =>
        ({ peerStats with TransferRx := rx },
          { stats with TotalRx := wrapInt64 (stats.TotalRx + rx) })
      | none => (peerStats, stats)
    let (peerStats, stats) :=
      match ParseInt (fields.getD 6 []) with
      | some tx =>
        ({ peerStats with TransferTx := tx },
          { stats with TotalTx := wrapInt64 (stats.TotalTx + tx) })
      | none => (peerStats, stats)
    let peerStats :=
      match Atoi (fields.getD 7 []) with
      | some keepalive => { peerStats with PersistentKeepalive := keepalive }
      | none => peerStats
    { stats with Peers := stats.Peers ++ [peerStats] }

/-- The literal `&models.WireguardServerStats{Interface: interfaceName, Peers: ...}`: every
other field has its zero value. -/
def newStats (interfaceName : Text) : WireguardServerStats :=
  { Interface := interfaceName, PublicKey := [], ListenPort := 0, PeerCount := 0,
    TotalRx := 0, TotalTx := 0, Peers := [] }

/-- Method `parseWireguardDump(output, interfaceName)`. -/
def parseWireguardDump (output interfaceName : Text) : Except String WireguardServerStats :=
  let lines := splitLines (TrimSpace output)
  if lines.length = 0 then .error "empty output"
  else
    let stats := newStats interfaceName
    let stats := parseInterfaceLine stats (lines.getD 0 [])
    let stats := (lines.drop 1).foldl parsePeerLine stats
    .ok { stats with PeerCount := stats.Peers.length }

/-! ## The dump format as the specification writes it -/

/-- A number in decimal, as text. -/
def showInt (i : Int) : Text := (formatInt i).map (fun b => Char.ofNat b.toNat)

/-- The handshake column of a peer: seconds since the epoch, `0` for no handshake. -/
def Time.seconds : Time → Int
  | .zero => 0
  | .unix sec => sec

/-- One peer line of the dump format: `public-key, psk, endpoint, allowed-ips,
latest-handshake, rx-bytes, tx-bytes, persistent-keepalive`, separated by tabs; the
statistics hold no preshared key, printed `(none)`, and a keepalive of `0` is printed
`off`. -/
def encodePeerLine (p : WireguardPeerStats) : Text :=
  p.PublicKey ++ ['\t'] ++ "(none)".toList ++ ['\t'] ++ p.Endpoint ++ ['\t'] ++ p.AllowedIPs ++
    ['\t'] ++ showInt p.LatestHandshake.seconds ++ ['\t'] ++ showInt p.TransferRx ++ ['\t'] ++
    showInt p.TransferTx ++ ['\t'] ++
    (if p.PersistentKeepalive = 0 then "off".toList else showInt p.PersistentKeepalive)

/-- The dump format: the interface line `private-key, public-key, listen-port, fwmark`
(no firewall mark, printed `off`), then one line per peer. -/
def encodeDump (privateKey : Text) (stats : WireguardServerStats) : Text :=
  (privateKey ++ ['\t'] ++ stats.PublicKey ++ ['\t'] ++ showInt stats.ListenPort ++ ['\t'] ++
      "off".toList ++ ['\n']) ++
    (stats.Peers.map (fun p => encodePeerLine p ++ ['\n'])).flatten

/-- The sum of a list of 64-bit counters, wrapping around as Go `int64` addition does. -/
def sumInt64 (xs : List Int) : Int := wrapInt64 xs.sum

/-! ## Per-user derivation and provisioning (`internal/services/user_network.go`) -/

/-- Go `hash/fnv` `New32a`, `Write`, `Sum32`: FNV-1a over the bytes, 32 bits. -/
def fnv1a32 (data : ByteString) : Nat :=
  data.foldl (fun h b => ((h ^^^ b.toNat) * 16777619) % 2 ^ 32) 2166136261

/-- Method `hashUserUID`: `int(h.Sum32())`, never negative with a 64-bit `int`. -/
def hashUserUID (userUID : ByteString) : Int := (fnv1a32 userUID : Int)

/-- Method `generateNamespaceName`. -/
def generateNamespaceName (userUID : ByteString) : ByteString := lit "wg_" ++ userUID

/-- Record `User`, the fields the provisioner reads. -/
structure User where
  ID : Nat
  UserUID : ByteString
  deriving DecidableEq, Repr

/-- Record `UserNetworkService`, the operator configuration it holds. -/
structure UserNetworkService where
  baseSubnet : ByteString
  basePort : Int
  outInterface : ByteString
  deriving DecidableEq, Repr

/-- Record `WireguardConfig`. -/
structure WireguardConfig where
  InterfaceName : ByteString
  ListenPort : Int
  PrivateKey : ByteString
  PublicKey : ByteString
  Address : ByteString
  VethInterface : ByteString
  OutInterface : ByteString
  deriving DecidableEq, Repr

/-- The calls `ProvisionUserNetwork` makes to the namespace and WireGuard services. -/
inductive NetCall where
  | CreateNamespace (name : ByteString)
  | DeleteNamespace (name : ByteString)
  | CreateVethPair (vethHost vethNs nsName nsIP hostIP : ByteString)
  | EnableNAT (subnet outInterface : ByteString)
  | GenerateKeys
  | CreateConfig (username : ByteString) (config : WireguardConfig)
  | StartWireguardInNamespace (nsName configPath : ByteString)
  | StopWireguardInNamespace (nsName configPath : ByteString)
  | SetupPortForwarding (outInterface : ByteString) (externalPort : Int) (nsIP : ByteString)
      (internalPort : Int) (protocol : ByteString)
  deriving DecidableEq, Repr

/-- What the environment answers during one `ProvisionUserNetwork`: the error of every
service call (`none` for success), the generated keys, the path `CreateConfig` returns. -/
structure ProvisionEffects where
  createNamespace : Option String
  createVethPair : Option String
  enableNAT : Option String
  generateKeys : Except String (ByteString × ByteString)
  createConfig : Except String ByteString
  startWireguard : Option String
  setupPortForwarding : Option String
  deriving DecidableEq, Repr

/-- How `ProvisionUserNetwork` ends. -/
inductive ProvisionResult where
  /-- Run-time panic `slice bounds out of range` of `user.UserUID[:6]`. -/
  | panic
  /-- Error `failed to create namespace: ...`. -/
  | createNamespaceFailed (e : String)
  /-- Error `failed to create veth pair: ...`. -/
  | createVethPairFailed (e : String)
  /-- Error `failed to enable NAT: ...`. -/
  | enableNATFailed (e : String)
  /-- Error `failed to generate wireguard keys: ...`. -/
  | generateKeysFailed (e : String)
  /-- Error `failed to create wireguard config: ...`. -/
  | createConfigFailed (e : String)
  /-- Error `failed to start wireguard: ...`. -/
  | startWireguardFailed (e : String)
  /-- Error `failed to setup port forwarding: ...`. -/
  | setupPortForwardingFailed (e : String)
  /-- The server descriptor, with a nil error. -/
  | ok (wgServer : WireguardServer)
  deriving DecidableEq, Repr

/-- Method `ProvisionUserNetwork(user)`: the result and the service calls issued, in order. -/
def ProvisionUserNetwork (s : UserNetworkService) (user : User) (eff : ProvisionEffects) :
    ProvisionResult × List NetCall :=
  let nsName := generateNamespaceName user.UserUID
  let wgInterface := lit "wg0"
  let userHash := hashUserUID user.UserUID
  let wgPort := wrapInt64 (s.basePort + userHash % 10000)
  if user.UserUID.length < 6 then (.panic, [])
  else
  let vethHost := lit "veth-h-" ++ user.UserUID.take 6
  let vethNs := lit "veth-ns-" ++ user.UserUID.take 6
  let userSubnetID := userHash % 254 + 1
  let vethSubnet := s.baseSubnet ++ lit "." ++ formatInt userSubnetID ++ lit ".0/30"
  let hostIP := s.baseSubnet ++ lit "." ++ formatInt userSubnetID ++ lit ".1/30"
  let nsIP := s.baseSubnet ++ lit "." ++ formatInt userSubnetID ++ lit ".2/30"
  let wgIP := lit "10.100." ++ formatInt userSubnetID ++ lit ".1/24"
  let c1 := [NetCall.CreateNamespace nsName]
  match eff.createNamespace with
  | some e => (.createNamespaceFailed e, c1)
  | none =>
  let c2 := c1 ++ [.CreateVethPair vethHost vethNs nsName nsIP hostIP]
  match eff.createVethPair with
  | some e => (.createVethPairFailed e, c2 ++ [.DeleteNamespace nsName])
  | none =>
  let c3 := c2 ++ [.EnableNAT vethSubnet s.outInterface]
  match eff.enableNAT with
  | some e => (.enableNATFailed e, c3 ++ [.DeleteNamespace nsName])
  | none =>
  let c4 := c3 ++ [.GenerateKeys]
  match eff.generateKeys with
  | .error e => (.generateKeysFailed e, c4 ++ [.DeleteNamespace nsName])
  | .ok (privateKey, publicKey) =>
  let wgConfig : WireguardConfig :=
    { InterfaceName := wgInterface, ListenPort := wgPort, PrivateKey := privateKey,
      PublicKey := publicKey, Address := wgIP, VethInterface := vethNs,
      OutInterface := s.outInterface }
  let c5 := c4 ++ [.CreateConfig user.UserUID wgConfig]
  match eff.createConfig with
  | .error e => (.createConfigFailed e, c5 ++ [.DeleteNamespace nsName])
  | .ok configPath =>
  let c6 := c5 ++ [.StartWireguardInNamespace nsName configPath]
  match eff.startWireguard with
  | some e => (.startWireguardFailed e, c6 ++ [.DeleteNamespace nsName])
  | none =>
  let nsIPAddr := (Split nsIP slash).getD 0 []
  let c7 := c6 ++ [.SetupPortForwarding s.outInterface wgPort nsIPAddr wgPort (lit "udp")]
  match eff.setupPortForwarding with
  | some e =>
    (.setupPortForwardingFailed e,
      c7 ++ [.StopWireguardInNamespace nsName configPath, .DeleteNamespace nsName])
  | none =>
    (.ok { ID := 0, UserID := user.ID, Namespace := nsName, WgInterface := wgInterface,
           WgPort := wgPort, WgPublicKey := publicKey, WgPrivateKey := privateKey,
           WgAddress := wgIP }, c7)

/-- The invariant of the peer catalog of one server: the user owns the server, the live
addresses are pairwise distinct and none is the server address `A.B.C.1`. -/
def PeerInvariant (A B C userID : Nat) (srv : WireguardServer) (cat : Catalog) : Prop :=
  cat.firstServer false userID = some srv ∧ (cat.peerAddresses srv.ID).Nodup ∧
    dottedQuad A B C 1 ∉ cat.peerAddresses srv.ID

/-- The totals of the statistics are the wrapped sums over the peers parsed so far. -/
def TotalsInvariant (stats : WireguardServerStats) : Prop :=
  stats.TotalRx = sumInt64 (stats.Peers.map (fun p => p.TransferRx)) ∧
    stats.TotalTx = sumInt64 (stats.Peers.map (fun p => p.TransferTx))

/-! ## Concrete inputs used by the witnesses -/

/-- A peer row that only carries an address. -/
def peerAt (address : ByteString) : WireguardPeer :=
  { ID := 0, ServerID := 1, PublicKey := [], PrivateKey := [], PeerAddress := address,
    AllowedIPs := [], PersistentKeepalive := 0, Comment := [], EnableForwarding := false,
    ForwardInterface := [] }

/-- The peers `.2`, `.3`, `.5` of the server `10.100.5.1/24` (scenario S2). -/
def examplePeers : List WireguardPeer :=
  [peerAt (lit "10.100.5.2"), peerAt (lit "10.100.5.3"), peerAt (lit "10.100.5.5")]

/-- The server `10.100.5.1/24` of user `7`. -/
def exampleServer : WireguardServer :=
  { ID := 1, UserID := 7, Namespace := lit "wg_a1b2c3d4", WgInterface := lit "wg0",
    WgPort := 57401, WgPublicKey := lit "SERVERPUB", WgPrivateKey := lit "SERVERPRIV",
    WgAddress := lit "10.100.5.1/24" }

/-- A catalog with that server and no peer. -/
def exampleCatalog : Catalog :=
  { servers := [exampleServer], peers := [], nextPeerID := 1 }

/-- A request that leaves `allowed_ips` empty. -/
def exampleRequest : AddPeerRequest :=
  { AllowedIPs := [], PersistentKeepalive := 0, Comment := lit "laptop",
    EnableForwarding := false, ForwardInterface := [] }

/-- An environment in which nothing fails. -/
def okEffects : AddPeerEffects :=
  { serverQueryFails := false, generateKeys := .ok (lit "PEERPRIV", lit "PEERPUB"),
    peerQueryError := none, createFails := false, addPeerError := none, addRouteError := none,
    addIptablesError := none, rollbackDeleteFails := false }

/-- A history: two additions, the removal of the first peer, one more addition. -/
def exampleOps : List PeerOp :=
  [.add (some exampleRequest) okEffects, .add (some exampleRequest) okEffects,
   .delete (some 1)
     { serverQueryFails := false, peerQueryFails := false, removePeerError := none,
       deleteFails := false },
   .add (some exampleRequest) okEffects]

/-- The operator configuration of scenario S1. -/
def exampleService : UserNetworkService :=
  { baseSubnet := lit "10.200", basePort := 51820, outInterface := lit "eth0" }

/-- The user of scenario S1. -/
def exampleUser : User := { ID := 7, UserUID := lit "a1b2c3d4" }

/-- A provisioning during which nothing fails. -/
def exampleProvisionEffects : ProvisionEffects :=
  { createNamespace := none, createVethPair := none, enableNAT := none,
    generateKeys := .ok (lit "SERVERPRIV", lit "SERVERPUB"),
    createConfig := .ok (lit "/etc/wireguard/a1b2c3d4/wg0.conf"), startWireguard := none,
    setupPortForwarding := none }

/-- The descriptor that provisioning returns. -/
def exampleDescriptor : WireguardServer :=
  { ID := 0, UserID := 7, Namespace := lit "wg_a1b2c3d4", WgInterface := lit "wg0",
    WgPort := 57401, WgPublicKey := lit "SERVERPUB", WgPrivateKey := lit "SERVERPRIV",
    WgAddress := lit "10.100.2.1/24" }

/-- The statistics of scenario S4. -/
def exampleStats : WireguardServerStats :=
  { Interface := "wg0".toList, PublicKey := "PUB".toList, ListenPort := 51820, PeerCount := 1,
    TotalRx := 1024, TotalTx := 2048,
    Peers := [{ PublicKey := "PK".toList, Endpoint := "1.2.3.4:1000".toList,
                AllowedIPs := "10.100.5.2/32".toList, LatestHandshake := .unix 1700000000,
                TransferRx := 1024, TransferTx := 2048, PersistentKeepalive := 25,
                Comment := [] }] }

/-- The dump text of scenario S4. -/
def exampleDump : Text :=
  "PRIV\tPUB\t51820\toff\nPK\t(none)\t1.2.3.4:1000\t10.100.5.2/32\t1700000000\t1024\t2048\t25".toList

/-- What `parseWireguardDump` returns on the dump text of scenario S4. -/
def exampleParsed : WireguardServerStats :=
  { exampleStats with PublicKey := "51820".toList, ListenPort := 0 }

/-! ## Peer lines of the dump -/

/-- The peer statistics the loop body of `parseWireguardDump` builds from the fields of a
line of at least 8 fields. -/
def peerOfFields (fields : List Text) : WireguardPeerStats :=
  { PublicKey := fields.getD 0 [], Endpoint := fields.getD 2 [], AllowedIPs := fields.getD 3 [],
    LatestHandshake :=
      match ParseInt (fields.getD 4 []) with
      | some handshake => if handshake > 0 then .unix handshake else .zero
      | none => .zero,
    TransferRx := (ParseInt (fields.getD 5 [])).getD 0,
    TransferTx := (ParseInt (fields.getD 6 [])).getD 0,
    PersistentKeepalive := (Atoi (fields.getD 7 [])).getD 0,
    Comment := [] }

/-- A line the peer loop does not skip: at least 8 fields. -/
def isPeerLine (line : Text) : Bool := decide (8 ≤ (Fields line).length)

/-- The lines of a dump as the parser splits them: the output without the white space
around it, cut at every line feed. -/
def dumpLines (output : Text) : List Text := splitLines (TrimSpace output)

/-- The dump text without its malformed peer lines: the first line is kept, every later
line of fewer than 8 fields is deleted. -/
def dropShortPeerLines (output : Text) : Text :=
  List.intercalate ['\n']
    ((dumpLines output).take 1 ++ ((dumpLines output).drop 1).filter isPeerLine)

/-- Trimming on the right: the white space at the end is dropped. -/
def trimRight (s : Text) : Text := ((s.reverse).dropWhile isSpace).reverse

/-- The statistics the parser builds from the lines of a dump. -/
def parseLines (interfaceName : Text) (lines : List Text) : WireguardServerStats :=
  { (lines.drop 1).foldl parsePeerLine
      (parseInterfaceLine (newStats interfaceName) (lines.getD 0 [])) with
    PeerCount := (((lines.drop 1).foldl parsePeerLine
      (parseInterfaceLine (newStats interfaceName) (lines.getD 0 []))).Peers.length : Nat) }

/-! ## Commands run on the host (`os/exec`, `os`) -/

/-- One effect of the services on the host: a command started with `exec.Command` (with its
standard input when the code sets one), or a file operation of package `os`. -/
inductive Action where
  | exec (argv : List ByteString)
  | execStdin (argv : List ByteString) (stdin : ByteString)
  | mkdirAll (path : ByteString) (perm : Nat)
  | writeFile (path content : ByteString) (perm : Nat)
  deriving DecidableEq, Repr

/-- What the host answers to an action: whether the error is not nil, and the output
captured by `CombinedOutput` or `Output`. -/
structure Answer where
  failed : Bool
  output : ByteString
  deriving DecidableEq, Repr

/-- The environment of a run: the answer to the action number `n` (counted from 0 over the
whole run) and the function `filepath.Join`. -/
structure Env where
  answers : Nat → Answer
  pathJoin : List ByteString → ByteString

/-- The actions performed so far, in order, each with its answer. -/
abbrev Log := List (Action × Answer)

/-- Performs one action: the answer comes from the environment, the log grows by one. -/
def perform (env : Env) (log : Log) (a : Action) : Answer × Log :=
  (env.answers log.length, log ++ [(a, env.answers log.length)])

/-- A run of commands each followed by `if err != nil { return fmt.Errorf(...) }`: stops at
the first command that fails, with the message of that step. -/
def runCommands (env : Env) : Log → List (List ByteString × String) → Option String × Log
  | log, [] => (none, log)
  | log, (argv, message) :: rest =>
    if (perform env log (.exec argv)).1.failed then (some message, (perform env log (.exec argv)).2)
    else runCommands env (perform env log (.exec argv)).2 rest

/-- A run of commands whose errors are all ignored. -/
def runCommandsIgnoringErrors (env : Env) (log : Log) (commands : List (List ByteString)) : Log :=
  commands.foldl (fun log argv => (perform env log (.exec argv)).2) log

/-! ## Byte strings: `strings.TrimSpace`, `strings.Contains` -/

/-- The white space of `unicode.IsSpace`, as code points. -/
def spaceCodePoints : List Nat :=
  [9, 10, 11, 12, 13, 32, 0x85, 0xA0, 0x1680, 0x2000, 0x2001, 0x2002, 0x2003, 0x2004, 0x2005,
   0x2006, 0x2007, 0x2008, 0x2009, 0x200A, 0x2028, 0x2029, 0x202F, 0x205F, 0x3000]

/-- The UTF-8 encodings of the white space runes. -/
def spaceRunes : List ByteString :=
  spaceCodePoints.map (fun n => lit (String.singleton (Char.ofNat n)))

/-- Tells whether `s` begins with `p` (`strings.HasPrefix`). -/
def startsWith (s p : ByteString) : Bool := p.isPrefixOf s

/-- Tells whether `s` ends with `p` (`strings.HasSuffix`). -/
def endsWith (s p : ByteString) : Bool := p.isSuffixOf s

/-- Drops the white space runes at the start of `s` (`strings.TrimLeftFunc` with
`unicode.IsSpace`); one unit of fuel per rune. -/
def trimLeftBytes : Nat → ByteString → ByteString
  | 0, s => s
  | fuel + 1, s =>
    match spaceRunes.find? (fun r => startsWith s r) with
    | some r => trimLeftBytes fuel (s.drop r.length)
    | none => s

/-- Drops the white space runes at the end of `s` (`strings.TrimRightFunc` with
`unicode.IsSpace`, which decodes the last rune). -/
def trimRightBytes : Nat → ByteString → ByteString
  | 0, s => s
  | fuel + 1, s =>
    match spaceRunes.find? (fun r => endsWith s r) with
    | some r => trimRightBytes fuel (s.take (s.length - r.length))
    | none => s

/-- Go `strings.TrimSpace` on the bytes of a string. -/
def trimSpaceBytes (s : ByteString) : ByteString :=
  trimRightBytes s.length (trimLeftBytes s.length s)

/-- Go `strings.Contains`. -/
def containsBytes (s sub : ByteString) : Bool :=
  s.tails.any (fun t => startsWith t sub)

/-- The byte of `','`. -/
def comma : UInt8 := 44

/-- The entries of a comma-separated list as the peer route functions read them:
`strings.Split(allowedIPs, ",")`, each entry trimmed, the empty ones skipped. -/
def ipRanges (allowedIPs : ByteString) : List ByteString :=
  ((Split allowedIPs comma).map trimSpaceBytes).filter (fun ipRange => !ipRange.isEmpty)

/-! ## The namespace service, command by command (`internal/services/netns.go`) -/

/-- Method `CreateNamespace`. -/
def NetnsService.CreateNamespace (env : Env) (log : Log) (name : ByteString) :
    Option String × Log :=
  runCommands env log
    [([lit "ip", lit "netns", lit "add", name], "failed to create namespace")]

/-- Method `DeleteNamespace`. -/
def NetnsService.DeleteNamespace (env : Env) (log : Log) (name : ByteString) :
    Option String × Log :=
  runCommands env log
    [([lit "ip", lit "netns", lit "delete", name], "failed to delete namespace")]

/-- Method `CreateVethPair`: eight commands, the first failure is returned. -/
def NetnsService.CreateVethPair (env : Env) (log : Log)
    (vethHost vethNs nsName nsIP hostIP : ByteString) : Option String × Log :=
  let gateway := (Split hostIP slash).getD 0 []
  runCommands env log
    [([lit "ip", lit "link", lit "add", vethHost, lit "type", lit "veth", lit "peer",
        lit "name", vethNs], "failed to create veth pair"),
     ([lit "ip", lit "link", lit "set", vethNs, lit "netns", nsName],
        "failed to move veth to namespace"),
     ([lit "ip", lit "link", lit "set", vethHost, lit "up"], "failed to bring up host veth"),
     ([lit "ip", lit "addr", lit "add", hostIP, lit "dev", vethHost],
        "failed to add IP to host veth"),
     ([lit "ip", lit "netns", lit "exec", nsName, lit "ip", lit "link", lit "set", lit "lo",
        lit "up"], "failed to bring up lo in namespace"),
     ([lit "ip", lit "netns", lit "exec", nsName, lit "ip", lit "link", lit "set", vethNs,
        lit "up"], "failed to bring up veth in namespace"),
     ([lit "ip", lit "netns", lit "exec", nsName, lit "ip", lit "addr", lit "add", nsIP,
        lit "dev", vethNs], "failed to add IP to namespace veth"),
     ([lit "ip", lit "netns", lit "exec", nsName, lit "ip", lit "route", lit "add",
        lit "default", lit "via", gateway], "failed to add default route in namespace")]

/-- Method `EnableNAT`. -/
def NetnsService.EnableNAT (env : Env) (log : Log) (nsSubnet outInterface : ByteString) :
    Option String × Log :=
  runCommands env log
    [([lit "sysctl", lit "-w", lit "net.ipv4.ip_forward=1"], "failed to enable IP forwarding"),
     ([lit "iptables", lit "-t", lit "nat", lit "-A", lit "POSTROUTING", lit "-s", nsSubnet,
        lit "-o", outInterface, lit "-j", lit "MASQUERADE"], "failed to add NAT rule"),
     ([lit "iptables", lit "-A", lit "FORWARD", lit "-i", outInterface, lit "-o", lit "veth+",
        lit "-j", lit "ACCEPT"], "failed to add forward rule"),
     ([lit "iptables", lit "-A", lit "FORWARD", lit "-o", outInterface, lit "-i", lit "veth+",
        lit "-j", lit "ACCEPT"], "failed to add forward rule")]

/-- Method `SetupPortForwarding`: four rules appended, the first failure returned. -/
def NetnsService.SetupPortForwarding (env : Env) (log : Log) (outInterface : ByteString)
    (externalPort : Int) (nsIP : ByteString) (internalPort : Int) (protocol : ByteString) :
    Option String × Log :=
  runCommands env log
    [([lit "iptables", lit "-A", lit "INPUT", lit "-i", outInterface, lit "-p", protocol,
        lit "--dport", formatInt externalPort, lit "-j", lit "ACCEPT"],
        "failed to add INPUT rule"),
     ([lit "iptables", lit "-t", lit "nat", lit "-A", lit "PREROUTING", lit "-i", outInterface,
        lit "-p", protocol, lit "--dport", formatInt externalPort, lit "-j", lit "DNAT",
        lit "--to-destination", nsIP ++ lit ":" ++ formatInt internalPort],
        "failed to add DNAT rule"),
     ([lit "iptables", lit "-A", lit "FORWARD", lit "-i", outInterface, lit "-p", protocol,
        lit "--dport", formatInt internalPort, lit "-d", nsIP, lit "-j", lit "ACCEPT"],
        "failed to add FORWARD rule"),
     ([lit "iptables", lit "-A", lit "FORWARD", lit "-o", outInterface, lit "-p", protocol,
        lit "--sport", formatInt internalPort, lit "-s", nsIP, lit "-j", lit "ACCEPT"],
        "failed to add FORWARD return rule")]

/-- Method `RemovePortForwarding`: four deletions, every error ignored, returns nil. -/
def NetnsService.RemovePortForwarding (env : Env) (log : Log) (outInterface : ByteString)
    (externalPort : Int) (nsIP : ByteString) (internalPort : Int) (protocol : ByteString) :
    Option String × Log :=
  (none, runCommandsIgnoringErrors env log
    [[lit "iptables", lit "-D", lit "INPUT", lit "-i", outInterface, lit "-p", protocol,
        lit "--dport", formatInt externalPort, lit "-j", lit "ACCEPT"],
     [lit "iptables", lit "-t", lit "nat", lit "-D", lit "PREROUTING", lit "-i", outInterface,
        lit "-p", protocol, lit "--dport", formatInt externalPort, lit "-j", lit "DNAT",
        lit "--to-destination", nsIP ++ lit ":" ++ formatInt internalPort],
     [lit "iptables", lit "-D", lit "FORWARD", lit "-i", outInterface, lit "-p", protocol,
        lit "--dport", formatInt internalPort, lit "-d", nsIP, lit "-j", lit "ACCEPT"],
     [lit "iptables", lit "-D", lit "FORWARD", lit "-o", outInterface, lit "-p", protocol,
        lit "--sport", formatInt internalPort, lit "-s", nsIP, lit "-j", lit "ACCEPT"]])

/-- The loop of `AddRouteForPeer` over the entries: a failing `ip route add` ends the loop
with an error unless its output contains `File exists`. -/
def addRoutes (env : Env) (nsName wgInterface : ByteString) :
    Log → List ByteString → Option String × Log
  | log, [] => (none, log)
  | log, ipRange :: rest =>
    let r := perform env log (.exec [lit "ip", lit "netns", lit "exec", nsName, lit "ip",
      lit "route", lit "add", ipRange, lit "dev", wgInterface])
    if r.1.failed && !containsBytes r.1.output (lit "File exists") then
      (some "failed to add route", r.2)
    else addRoutes env nsName wgInterface r.2 rest

/-- Method `AddRouteForPeer`. -/
def NetnsService.AddRouteForPeer (env : Env) (log : Log)
    (nsName wgInterface allowedIPs : ByteString) : Option String × Log :=
  addRoutes env nsName wgInterface log (ipRanges allowedIPs)

/-- The loop of `DeleteRouteForPeer`: a failing `ip route del` ends the loop with an error
unless its output contains `No such process` or `not found`. -/
def deleteRoutes (env : Env) (nsName wgInterface : ByteString) :
    Log → List ByteString → Option String × Log
  | log, [] => (none, log)
  | log, ipRange :: rest =>
    let r := perform env log (.exec [lit "ip", lit "netns", lit "exec", nsName, lit "ip",
      lit "route", lit "del", ipRange, lit "dev", wgInterface])
    if r.1.failed && (!containsBytes r.1.output (lit "No such process") &&
        !containsBytes r.1.output (lit "not found")) then
      (some "failed to delete route", r.2)
    else deleteRoutes env nsName wgInterface r.2 rest

/-- Method `DeleteRouteForPeer`. -/
def NetnsService.DeleteRouteForPeer (env : Env) (log : Log)
    (nsName wgInterface allowedIPs : ByteString) : Option String × Log :=
  deleteRoutes env nsName wgInterface log (ipRanges allowedIPs)

/-- The two commands the peer rule functions run for one entry: the `FORWARD` rule towards
it, then the one from it; `flag` is `-A` or `-D`. -/
def forwardRuleCommands (flag nsName ipRange : ByteString) : List (List ByteString) :=
  [[lit "ip", lit "netns", lit "exec", nsName, lit "iptables", flag, lit "FORWARD", lit "-d",
      ipRange, lit "-j", lit "ACCEPT"],
   [lit "ip", lit "netns", lit "exec", nsName, lit "iptables", flag, lit "FORWARD", lit "-s",
      ipRange, lit "-j", lit "ACCEPT"]]

/-- Method `AddIptablesRuleForPeer`: for every entry both rules; the first failure is
returned. -/
def NetnsService.AddIptablesRuleForPeer (env : Env) (log : Log)
    (nsName allowedIPs : ByteString) : Option String × Log :=
  runCommands env log
    (((ipRanges allowedIPs).map (forwardRuleCommands (lit "-A") nsName)).flatten.map
      (fun argv => (argv, "failed to add iptables forward rule")))

/-- Method `DeleteIptablesRuleForPeer`: both deletions for every entry, errors ignored. -/
def NetnsService.DeleteIptablesRuleForPeer (env : Env) (log : Log)
    (nsName allowedIPs : ByteString) : Option String × Log :=
  (none, runCommandsIgnoringErrors env log
    ((ipRanges allowedIPs).map (forwardRuleCommands (lit "-D") nsName)).flatten)

/-! ## The WireGuard service, command by command (`internal/services/wireguard.go`) -/

/-- Record `WireguardService`. -/
structure WireguardService where
  configDir : ByteString
  deriving DecidableEq, Repr

/-- Method `GenerateKeys`: `wg genkey`, then `wg pubkey` fed with the private key; both
outputs trimmed. -/
def WireguardService.GenerateKeys (env : Env) (log : Log) :
    Except String (ByteString × ByteString) × Log :=
  let r1 := perform env log (.exec [lit "wg", lit "genkey"])
  if r1.1.failed then (.error "failed to generate private key", r1.2)
  else
    let privateKey := trimSpaceBytes r1.1.output
    let r2 := perform env r1.2 (.execStdin [lit "wg", lit "pubkey"] privateKey)
    if r2.1.failed then (.error "failed to generate public key", r2.2)
    else (.ok (privateKey, trimSpaceBytes r2.1.output), r2.2)

/-- The lines of the text `CreateConfig` writes, in order: the template of its
`fmt.Sprintf`, every verb replaced by its argument (`%%i` is the literal `%i`). -/
def configFileLines (config : WireguardConfig) : List ByteString :=
  [lit "[Interface]",
   lit "PrivateKey = " ++ config.PrivateKey,
   lit "Address = " ++ config.Address,
   lit "ListenPort = " ++ formatInt config.ListenPort,
   lit "SaveConfig = false",
   [],
   lit "# PostUp 规则：",
   lit "# 0. 启用 IP 转发（关键：必须在命名空间内启用）",
   lit "PostUp = sysctl -w net.ipv4.ip_forward=1",
   lit "# 1. WireGuard <-> veth 转发",
   lit "PostUp = iptables -A FORWARD -i %i -o " ++ config.VethInterface ++ lit " -j ACCEPT",
   lit "PostUp = iptables -A FORWARD -i " ++ config.VethInterface ++ lit " -o %i -j ACCEPT",
   lit "# 2. veth <-> 外网接口转发（关键：允许访问外网）",
   lit "PostUp = iptables -A FORWARD -i " ++ config.VethInterface ++ lit " -o " ++ config.OutInterface ++ lit " -j ACCEPT",
   lit "PostUp = iptables -A FORWARD -i " ++ config.OutInterface ++ lit " -o " ++ config.VethInterface ++ lit " -j ACCEPT",
   lit "# 3. NAT规则：关键 - 对 WireGuard 网段通过 veth 出去的流量进行 MASQUERADE",
   lit "PostUp = iptables -t nat -A POSTROUTING -s " ++ config.Address ++ lit " -o " ++ config.VethInterface ++ lit " -j MASQUERADE",
   lit "# 4. NAT规则：对通过外网接口出去的流量进行MASQUERADE",
   lit "PostUp = iptables -t nat -A POSTROUTING -o " ++ config.OutInterface ++ lit " -j MASQUERADE",
   [],
   lit "# PostDown 规则：清理上述规则",
   lit "PostDown = iptables -D FORWARD -i %i -o " ++ config.VethInterface ++ lit " -j ACCEPT",
   lit "PostDown = iptables -D FORWARD -i " ++ config.VethInterface ++ lit " -o %i -j ACCEPT",
   lit "PostDown = iptables -D FORWARD -i " ++ config.VethInterface ++ lit " -o " ++ config.OutInterface ++ lit " -j ACCEPT",
   lit "PostDown = iptables -D FORWARD -i " ++ config.OutInterface ++ lit " -o " ++ config.VethInterface ++ lit " -j ACCEPT",
   lit "PostDown = iptables -t nat -D POSTROUTING -s " ++ config.Address ++ lit " -o " ++ config.VethInterface ++ lit " -j MASQUERADE",
   lit "PostDown = iptables -t nat -D POSTROUTING -o " ++ config.OutInterface ++ lit " -j MASQUERADE"]

/-- The text `CreateConfig` writes: every line ends with a line feed. -/
def configContent (config : WireguardConfig) : ByteString :=
  ((configFileLines config).map (fun line => line ++ lit "\n")).flatten

/-- Method `CreateConfig`: makes the directory of the user, writes the file, returns its
path. -/
def WireguardService.CreateConfig (w : WireguardService) (env : Env) (log : Log)
    (username : ByteString) (config : WireguardConfig) : Except String ByteString × Log :=
  let userConfigDir := env.pathJoin [w.configDir, username]
  let r1 := perform env log (.mkdirAll userConfigDir 0o700)
  if r1.1.failed then (.error "failed to create config directory", r1.2)
  else
    let configPath := env.pathJoin [userConfigDir, config.InterfaceName ++ lit ".conf"]
    let r2 := perform env r1.2 (.writeFile configPath (configContent config) 0o600)
    if r2.1.failed then (.error "failed to write config file", r2.2)
    else (.ok configPath, r2.2)

/-- Method `StartWireguardInNamespace`. -/
def WireguardService.StartWireguardInNamespace (env : Env) (log : Log)
    (nsName configPath : ByteString) : Option String × Log :=
  runCommands env log
    [([lit "ip", lit "netns", lit "exec", nsName, lit "wg-quick", lit "up", configPath],
        "failed to start wireguard in namespace")]

/-- Method `StopWireguardInNamespace`. -/
def WireguardService.StopWireguardInNamespace (env : Env) (log : Log)
    (nsName configPath : ByteString) : Option String × Log :=
  runCommands env log
    [([lit "ip", lit "netns", lit "exec", nsName, lit "wg-quick", lit "down", configPath],
        "failed to stop wireguard in namespace")]

/-- The argument vector of the command `WireguardService.AddPeer` runs. -/
def addPeerArgv (nsName interfaceName peerPublicKey allowedIPs endpoint : ByteString) :
    List ByteString :=
  [lit "ip", lit "netns", lit "exec", nsName, lit "wg", lit "set", interfaceName, lit "peer",
    peerPublicKey, lit "allowed-ips", allowedIPs] ++
  (if endpoint ≠ [] then [lit "endpoint", endpoint] else [])

/-- Method `AddPeer` of the service: one `wg set ... peer ... allowed-ips ...`. -/
def WireguardService.AddPeer (env : Env) (log : Log)
    (nsName interfaceName peerPublicKey allowedIPs endpoint : ByteString) : Option String × Log :=
  runCommands env log
    [(addPeerArgv nsName interfaceName peerPublicKey allowedIPs endpoint, "failed to add peer")]

/-- Method `RemovePeer` of the service: one `wg set ... peer ... remove`. -/
def WireguardService.RemovePeer (env : Env) (log : Log)
    (nsName interfaceName peerPublicKey : ByteString) : Option String × Log :=
  runCommands env log
    [([lit "ip", lit "netns", lit "exec", nsName, lit "wg", lit "set", interfaceName,
        lit "peer", peerPublicKey, lit "remove"], "failed to remove peer")]

/-- Method `GetConfigPath`. -/
def WireguardService.GetConfigPath (w : WireguardService) (env : Env)
    (username interfaceName : ByteString) : ByteString :=
  env.pathJoin [w.configDir, username, interfaceName ++ lit ".conf"]

/-! ## The handlers and the provisioner, command by command -/

/-- The statements of one handler call that the database fails (`false`, `none`: none). -/
structure DatabaseFaults where
  serverQueryFails : Bool
  peerQueryFails : Bool
  peerListError : Option String
  createFails : Bool
  updateFails : Bool
  deleteFails : Bool
  deriving DecidableEq, Repr

/-- Handler `AddPeer`, with the services run command by command: returns the catalog after
the call, the response and the log of the host. -/
def Run.AddPeer (env : Env) (db : DatabaseFaults) (cat : Catalog) (log : Log) (userID : Nat)
    (body : Option AddPeerRequest) : Catalog × AddPeerResponse × Log :=
  match body with
  | none => (cat, .validationError, log)
  | some req =>
  match cat.firstServer db.serverQueryFails userID with
  | none => (cat, .noServer, log)
  | some wgServer =>
  let keys := WireguardService.GenerateKeys env log
  match keys.1 with
  | .error e => (cat, .generateKeysFailed e, keys.2)
  | .ok (privateKey, publicKey) =>
  match allocatePeerIP (cat.findPeers db.peerListError) wgServer.ID wgServer.WgAddress with
  | .error e => (cat, .allocateFailed e, keys.2)
  | .ok peerIP =>
  let allowedIPs := if req.AllowedIPs = [] then peerIP ++ lit "/32" else req.AllowedIPs
  let peer : WireguardPeer :=
    { ID := 0, ServerID := wgServer.ID, PublicKey := publicKey, PrivateKey := privateKey,
      PeerAddress := peerIP, AllowedIPs := allowedIPs,
      PersistentKeepalive := req.PersistentKeepalive, Comment := req.Comment,
      EnableForwarding := req.EnableForwarding, ForwardInterface := req.ForwardInterface }
  match cat.create db.createFails peer with
  | none => (cat, .createFailed, keys.2)
  | some (cat1, peer) =>
  let added := WireguardService.AddPeer env keys.2 wgServer.Namespace wgServer.WgInterface
    publicKey (peerIP ++ lit "/32") []
  match added.1 with
  | some e => (cat1.delete db.deleteFails peer, .addPeerFailed e, added.2)
  | none =>
  if allowedIPs ≠ peerIP ++ lit "/32" ∧ allowedIPs ≠ lit "0.0.0.0/0" then
    let routed := NetnsService.AddRouteForPeer env added.2 wgServer.Namespace
      wgServer.WgInterface allowedIPs
    match routed.1 with
    | some e =>
      let removed := WireguardService.RemovePeer env routed.2 wgServer.Namespace
        wgServer.WgInterface publicKey
      (cat1.delete db.deleteFails peer, .addRouteFailed e, removed.2)
    | none =>
    let ruled := NetnsService.AddIptablesRuleForPeer env routed.2 wgServer.Namespace allowedIPs
    match ruled.1 with
    | some e =>
      let unrouted := NetnsService.DeleteRouteForPeer env ruled.2 wgServer.Namespace
        wgServer.WgInterface allowedIPs
      let removed := WireguardService.RemovePeer env unrouted.2 wgServer.Namespace
        wgServer.WgInterface publicKey
      (cat1.delete db.deleteFails peer, .addIptablesFailed e, removed.2)
    | none => (cat1, .created peer, ruled.2)
  else (cat1, .created peer, added.2)

/-- Handler `DeletePeer`, with the services run command by command. -/
def Run.DeletePeer (env : Env) (db : DatabaseFaults) (cat : Catalog) (log : Log) (userID : Nat)
    (peerID : Option Nat) : Catalog × DeletePeerResponse × Log :=
  match peerID with
  | none => (cat, .invalidPeerID, log)
  | some peerID =>
  match cat.firstServer db.serverQueryFails userID with
  | none => (cat, .noServer, log)
  | some wgServer =>
  match cat.firstPeer db.peerQueryFails peerID with
  | none => (cat, .notFound, log)
  | some peer =>
  if peer.ServerID ≠ wgServer.ID then (cat, .forbidden, log)
  else
    let unruled := NetnsService.DeleteIptablesRuleForPeer env log wgServer.Namespace
      peer.AllowedIPs
    let unrouted := NetnsService.DeleteRouteForPeer env unruled.2 wgServer.Namespace
      wgServer.WgInterface peer.AllowedIPs
    let removed := WireguardService.RemovePeer env unrouted.2 wgServer.Namespace
      wgServer.WgInterface peer.PublicKey
    match removed.1 with
    | some e => (cat, .removePeerFailed e, removed.2)
    | none =>
      if db.deleteFails then (cat, .deleteFailed, removed.2)
      else (cat.delete false peer, .deleted, removed.2)

/-- Body `UpdatePeerRequest`; the pointer fields are options. -/
structure UpdatePeerRequest where
  AllowedIPs : ByteString
  PersistentKeepalive : Option Int
  Comment : ByteString
  EnableForwarding : Option Bool
  ForwardInterface : ByteString
  deriving DecidableEq, Repr

/-- One entry of the map `updates` of `UpdatePeer`. -/
inductive FieldUpdate where
  | allowed_ips (value : ByteString)
  | persistent_keepalive (value : Int)
  | comment (value : ByteString)
  | enable_forwarding (value : Bool)
  | forward_interface (value : ByteString)
  deriving DecidableEq, Repr

/-- Writes one entry of the map into a row. -/
def FieldUpdate.apply (row : WireguardPeer) : FieldUpdate → WireguardPeer
  | .allowed_ips value => { row with AllowedIPs := value }
  | .persistent_keepalive value => { row with PersistentKeepalive := value }
  | .comment value => { row with Comment := value }
  | .enable_forwarding value => { row with EnableForwarding := value }
  | .forward_interface value => { row with ForwardInterface := value }

/-- The map `updates` that `UpdatePeer` builds from the request. -/
def UpdatePeerRequest.updates (req : UpdatePeerRequest) (peer : WireguardPeer) :
    List FieldUpdate :=
  (if req.AllowedIPs ≠ [] ∧ req.AllowedIPs ≠ peer.AllowedIPs then [.allowed_ips req.AllowedIPs]
    else []) ++
  (match req.PersistentKeepalive with
    | some value => [.persistent_keepalive value]
    | none => []) ++
  (if req.Comment ≠ [] then [.comment req.Comment] else []) ++
  (match req.EnableForwarding with
    | some value => [.enable_forwarding value]
    | none => []) ++
  (if req.ForwardInterface ≠ [] then [.forward_interface req.ForwardInterface] else [])

/-- Statement `DB.Model(&peer).Updates(updates)`, by primary key; `none` when it fails. -/
def Catalog.update (cat : Catalog) (updateFails : Bool) (peer : WireguardPeer)
    (updates : List FieldUpdate) : Option Catalog :=
  if updateFails then none
  else some { cat with peers := cat.peers.map (fun row =>
    if row.ID == peer.ID then updates.foldl FieldUpdate.apply row else row) }

/-- The responses of `UpdatePeer`. -/
inductive UpdatePeerResponse where
  /-- Bad request `Invalid peer ID`. -/
  | invalidPeerID
  /-- Validation error of `ShouldBindJSON`. -/
  | validationError
  /-- Bad request `User has no WireGuard server configured`. -/
  | noServer
  /-- Not found `Peer not found`. -/
  | notFound
  /-- Forbidden `You don't have permission to update this peer`. -/
  | forbidden
  /-- Bad request `No valid fields to update`. -/
  | noValidFields
  /-- Internal error `Failed to add route for peer: ...`. -/
  | addRouteFailed (e : String)
  /-- Internal error `Failed to add iptables rule for peer: ...`. -/
  | addIptablesFailed (e : String)
  /-- Internal error `Failed to update peer`. -/
  | updateFailed
  /-- Success `Peer updated successfully`, with the row read again. -/
  | updated (peer : WireguardPeer)
  deriving DecidableEq, Repr

/-- The block `if needWgUpdate { ... }` of `UpdatePeer`: the error response it ends the
handler with, if any, and the log. -/
def Run.syncAllowedIPs (env : Env) (log : Log) (wgServer : WireguardServer)
    (peer : WireguardPeer) (req : UpdatePeerRequest) : Option UpdatePeerResponse × Log :=
  let oldMaterialized : Bool := peer.AllowedIPs ≠ [] ∧ peer.AllowedIPs ≠ lit "0.0.0.0/0"
  let log1 :=
    if oldMaterialized then
      (NetnsService.DeleteRouteForPeer env
        (NetnsService.DeleteIptablesRuleForPeer env log wgServer.Namespace peer.AllowedIPs).2
        wgServer.Namespace wgServer.WgInterface peer.AllowedIPs).2
    else log
  let restore (log : Log) : Log :=
    if oldMaterialized then
      (NetnsService.AddIptablesRuleForPeer env
        (NetnsService.AddRouteForPeer env log wgServer.Namespace wgServer.WgInterface
          peer.AllowedIPs).2
        wgServer.Namespace peer.AllowedIPs).2
    else log
  if req.AllowedIPs ≠ [] ∧ req.AllowedIPs ≠ lit "0.0.0.0/0" then
    let routed := NetnsService.AddRouteForPeer env log1 wgServer.Namespace wgServer.WgInterface
      req.AllowedIPs
    match routed.1 with
    | some e => (some (.addRouteFailed e), restore routed.2)
    | none =>
    let ruled := NetnsService.AddIptablesRuleForPeer env routed.2 wgServer.Namespace
      req.AllowedIPs
    match ruled.1 with
    | some e =>
      (some (.addIptablesFailed e),
        restore (NetnsService.DeleteRouteForPeer env ruled.2 wgServer.Namespace
          wgServer.WgInterface req.AllowedIPs).2)
    | none => (none, ruled.2)
  else (none, log1)

/-- Handler `UpdatePeer`, with the services run command by command. -/
def Run.UpdatePeer (env : Env) (db : DatabaseFaults) (cat : Catalog) (log : Log) (userID : Nat)
    (peerID : Option Nat) (body : Option UpdatePeerRequest) :
    Catalog × UpdatePeerResponse × Log :=
  match peerID with
  | none => (cat, .invalidPeerID, log)
  | some peerID =>
  match body with
  | none => (cat, .validationError, log)
  | some req =>
  match cat.firstServer db.serverQueryFails userID with
  | none => (cat, .noServer, log)
  | some wgServer =>
  match cat.firstPeer db.peerQueryFails peerID with
  | none => (cat, .notFound, log)
  | some peer =>
  if peer.ServerID ≠ wgServer.ID then (cat, .forbidden, log)
  else
  let needWgUpdate : Bool := req.AllowedIPs ≠ [] ∧ req.AllowedIPs ≠ peer.AllowedIPs
  if (req.updates peer).length = 0 then (cat, .noValidFields, log)
  else
  let synced := if needWgUpdate then Run.syncAllowedIPs env log wgServer peer req else (none, log)
  match synced.1 with
  | some r => (cat, r, synced.2)
  | none =>
  match cat.update db.updateFails peer (req.updates peer) with
  | none => (cat, .updateFailed, synced.2)
  | some cat1 => (cat1, .updated ((req.updates peer).foldl FieldUpdate.apply peer), synced.2)

/-- Method `ProvisionUserNetwork(user)`, with the services run command by command: the
result and the log of the host. -/
def Run.ProvisionUserNetwork (s : UserNetworkService) (w : WireguardService) (env : Env)
    (log : Log) (user : User) : ProvisionResult × Log :=
  let nsName := generateNamespaceName user.UserUID
  let wgInterface := lit "wg0"
  let userHash := hashUserUID user.UserUID
  let wgPort := wrapInt64 (s.basePort + userHash % 10000)
  if user.UserUID.length < 6 then (.panic, log)
  else
  let vethHost := lit "veth-h-" ++ user.UserUID.take 6
  let vethNs := lit "veth-ns-" ++ user.UserUID.take 6
  let userSubnetID := userHash % 254 + 1
  let vethSubnet := s.baseSubnet ++ lit "." ++ formatInt userSubnetID ++ lit ".0/30"
  let hostIP := s.baseSubnet ++ lit "." ++ formatInt userSubnetID ++ lit ".1/30"
  let nsIP := s.baseSubnet ++ lit "." ++ formatInt userSubnetID ++ lit ".2/30"
  let wgIP := lit "10.100." ++ formatInt userSubnetID ++ lit ".1/24"
  let r1 := NetnsService.CreateNamespace env log nsName
  match r1.1 with
  | some e => (.createNamespaceFailed e, r1.2)
  | none =>
  let r2 := NetnsService.CreateVethPair env r1.2 vethHost vethNs nsName nsIP hostIP
  match r2.1 with
  | some e => (.createVethPairFailed e, (NetnsService.DeleteNamespace env r2.2 nsName).2)
  | none =>
  let r3 := NetnsService.EnableNAT env r2.2 vethSubnet s.outInterface
  match r3.1 with
  | some e => (.enableNATFailed e, (NetnsService.DeleteNamespace env r3.2 nsName).2)
  | none =>
  let r4 := WireguardService.GenerateKeys env r3.2
  match r4.1 with
  | .error e => (.generateKeysFailed e, (NetnsService.DeleteNamespace env r4.2 nsName).2)
  | .ok (privateKey, publicKey) =>
  let wgConfig : WireguardConfig :=
    { InterfaceName := wgInterface, ListenPort := wgPort, PrivateKey := privateKey,
      PublicKey := publicKey, Address := wgIP, VethInterface := vethNs,
      OutInterface := s.outInterface }
  let r5 := w.CreateConfig env r4.2 user.UserUID wgConfig
  match r5.1 with
  | .error e => (.createConfigFailed e, (NetnsService.DeleteNamespace env r5.2 nsName).2)
  | .ok configPath =>
  let r6 := WireguardService.StartWireguardInNamespace env r5.2 nsName configPath
  match r6.1 with
  | some e => (.startWireguardFailed e, (NetnsService.DeleteNamespace env r6.2 nsName).2)
  | none =>
  let nsIPAddr := (Split nsIP slash).getD 0 []
  let r7 := NetnsService.SetupPortForwarding env r6.2 s.outInterface wgPort nsIPAddr wgPort
    (lit "udp")
  match r7.1 with
  | some e =>
    (.setupPortForwardingFailed e,
      (NetnsService.DeleteNamespace env
        (WireguardService.StopWireguardInNamespace env r7.2 nsName configPath).2 nsName).2)
  | none =>
    (.ok { ID := 0, UserID := user.ID, Namespace := nsName, WgInterface := wgInterface,
           WgPort := wgPort, WgPublicKey := publicKey, WgPrivateKey := privateKey,
           WgAddress := wgIP }, r7.2)

/-- Method `DestroyUserNetwork(server, userUID)`, command by command: the error returned
(`none` for nil) and the log of the host. -/
def Run.DestroyUserNetwork (s : UserNetworkService) (w : WireguardService) (env : Env)
    (log : Log) (server : WireguardServer) (userUID : ByteString) : Option String × Log :=
  if server.Namespace = [] then (none, log)
  else
    let userHash := hashUserUID userUID
    let userSubnetID := userHash % 254 + 1
    let nsIPAddr := s.baseSubnet ++ lit "." ++ formatInt userSubnetID ++ lit ".2"
    let r1 := NetnsService.RemovePortForwarding env log s.outInterface server.WgPort nsIPAddr
      server.WgPort (lit "udp")
    let configPath := w.GetConfigPath env userUID server.WgInterface
    let r2 := WireguardService.StopWireguardInNamespace env r1.2 server.Namespace configPath
    let r3 := NetnsService.DeleteNamespace env r2.2 server.Namespace
    match r3.1 with
    | some _ => (some "failed to delete namespace", r3.2)
    | none => (none, r3.2)

/-! ## Reading a run of the host -/

/-- The actions of a run, without the answers. -/
def Log.actions (log : Log) : List Action := log.map Prod.fst

/-- The entries a run adds when it performs the given actions from position `n` on. -/
def answered (env : Env) : Nat → List Action → Log
  | _, [] => []
  | n, a :: rest => (a, env.answers n) :: answered env (n + 1) rest

/-- The four rules of port publishing in the order of the specification (`INPUT`,
`PREROUTING` with `DNAT`, `FORWARD` to the target, `FORWARD` back from it), as `iptables`
argument vectors; `flag` is the operation, `-A` or `-D`. -/
def portForwardingRules (flag outInterface : ByteString) (externalPort : Int)
    (nsIP : ByteString) (internalPort : Int) (protocol : ByteString) : List (List ByteString) :=
  [[lit "iptables", flag, lit "INPUT", lit "-i", outInterface, lit "-p", protocol,
      lit "--dport", formatInt externalPort, lit "-j", lit "ACCEPT"],
   [lit "iptables", lit "-t", lit "nat", flag, lit "PREROUTING", lit "-i", outInterface,
      lit "-p", protocol, lit "--dport", formatInt externalPort, lit "-j", lit "DNAT",
      lit "--to-destination", nsIP ++ lit ":" ++ formatInt internalPort],
   [lit "iptables", flag, lit "FORWARD", lit "-i", outInterface, lit "-p", protocol,
      lit "--dport", formatInt internalPort, lit "-d", nsIP, lit "-j", lit "ACCEPT"],
   [lit "iptables", flag, lit "FORWARD", lit "-o", outInterface, lit "-p", protocol,
      lit "--sport", formatInt internalPort, lit "-s", nsIP, lit "-j", lit "ACCEPT"]]

/-- An environment in which exactly the action number `k` fails, with the given output;
paths are joined with `/`. -/
def failingAt (k : Nat) : Env :=
  { answers := fun n => { failed := n == k, output := lit "OUT\n" },
    pathJoin := fun parts => List.intercalate (lit "/") parts }

/-- An environment in which no action fails. -/
def neverFailing : Env :=
  { answers := fun _ => { failed := false, output := lit "OUT\n" },
    pathJoin := fun parts => List.intercalate (lit "/") parts }

/-- No database statement fails. -/
def noFaults : DatabaseFaults :=
  { serverQueryFails := false, peerQueryFails := false, peerListError := none,
    createFails := false, updateFails := false, deleteFails := false }

/-- The database fails the delete statement and nothing else. -/
def deleteFault : DatabaseFaults := { noFaults with deleteFails := true }

/-- The configuration directory of the examples. -/
def exampleWireguardService : WireguardService := { configDir := lit "/etc/wireguard" }

/-! ## The configuration text as the specification reads it -/

/-- The byte of the line feed. -/
def newline : UInt8 := 10

/-- The commands of the lines `<key> = <command>` of a configuration text, in the order of
the text. -/
def commandsOf (key content : ByteString) : List ByteString :=
  (Split content newline).filterMap (fun line =>
    if startsWith line (key ++ lit " = ") then some (line.drop (key ++ lit " = ").length)
    else none)

/-- The six `iptables` commands of the configuration as the specification lists them: the
four `FORWARD` rules (`%i` and the veth both ways, the veth and the outer interface both
ways) and the two `POSTROUTING` rules; `flag` is the operation, `-A` or `-D`. -/
def mirroredRules (flag : ByteString) (config : WireguardConfig) : List ByteString :=
  [lit "iptables " ++ flag ++ lit " FORWARD -i " ++ lit "%i" ++ lit " -o " ++
      config.VethInterface ++ lit " -j ACCEPT",
   lit "iptables " ++ flag ++ lit " FORWARD -i " ++ config.VethInterface ++ lit " -o " ++
      lit "%i" ++ lit " -j ACCEPT",
   lit "iptables " ++ flag ++ lit " FORWARD -i " ++ config.VethInterface ++ lit " -o " ++
      config.OutInterface ++ lit " -j ACCEPT",
   lit "iptables " ++ flag ++ lit " FORWARD -i " ++ config.OutInterface ++ lit " -o " ++
      config.VethInterface ++ lit " -j ACCEPT",
   lit "iptables -t nat " ++ flag ++ lit " POSTROUTING -s " ++ config.Address ++ lit " -o " ++
      config.VethInterface ++ lit " -j MASQUERADE",
   lit "iptables -t nat " ++ flag ++ lit " POSTROUTING -o " ++ config.OutInterface ++
      lit " -j MASQUERADE"]

/-! ## Concrete inputs of the command runs -/

/-- A request for the routed network `10.0.0.0/24`. -/
def routedRequest : AddPeerRequest :=
  { AllowedIPs := lit "10.0.0.0/24", PersistentKeepalive := 0, Comment := lit "laptop",
    EnableForwarding := false, ForwardInterface := [] }

/-- A peer `10.100.5.2` of the example server with the routed network `10.0.0.0/24`. -/
def routedPeer : WireguardPeer :=
  { ID := 1, ServerID := 1, PublicKey := lit "PEERPUB", PrivateKey := lit "PEERPRIV",
    PeerAddress := lit "10.100.5.2", AllowedIPs := lit "10.0.0.0/24", PersistentKeepalive := 25,
    Comment := lit "laptop", EnableForwarding := false, ForwardInterface := [] }

/-- The example catalog with that peer. -/
def routedCatalog : Catalog :=
  { servers := [exampleServer], peers := [routedPeer], nextPeerID := 2 }

/-- An update that sets `allowed_ips` to the address of the peer itself. -/
def ownAddressUpdate : UpdatePeerRequest :=
  { AllowedIPs := lit "10.100.5.2/32", PersistentKeepalive := none, Comment := [],
    EnableForwarding := none, ForwardInterface := [] }

/-- The descriptor provisioning returns for the example user when every command prints
`OUT`. -/
def provisionedDescriptor : WireguardServer :=
  { ID := 0, UserID := 7, Namespace := lit "wg_a1b2c3d4", WgInterface := lit "wg0",
    WgPort := 57401, WgPublicKey := lit "OUT", WgPrivateKey := lit "OUT",
    WgAddress := lit "10.100.2.1/24" }

/-- The configuration provisioning writes for the example user. -/
def exampleConfig : WireguardConfig :=
  { InterfaceName := lit "wg0", ListenPort := 57401, PrivateKey := lit "OUT",
    PublicKey := lit "OUT", Address := lit "10.100.2.1/24",
    VethInterface := lit "veth-ns-a1b2c3", OutInterface := lit "eth0" }

/-- The first seventeen actions of a provisioning of the example user: namespace, veth
pair, NAT, keys, directory and configuration file. -/
def exampleSetupActions : List Action :=
  [.exec [lit "ip", lit "netns", lit "add", lit "wg_a1b2c3d4"],
   .exec [lit "ip", lit "link", lit "add", lit "veth-h-a1b2c3", lit "type", lit "veth",
     lit "peer", lit "name", lit "veth-ns-a1b2c3"],
   .exec [lit "ip", lit "link", lit "set", lit "veth-ns-a1b2c3", lit "netns", lit "wg_a1b2c3d4"],
   .exec [lit "ip", lit "link", lit "set", lit "veth-h-a1b2c3", lit "up"],
   .exec [lit "ip", lit "addr", lit "add", lit "10.200.2.1/30", lit "dev", lit "veth-h-a1b2c3"],
   .exec [lit "ip", lit "netns", lit "exec", lit "wg_a1b2c3d4", lit "ip", lit "link", lit "set",
     lit "lo", lit "up"],
   .exec [lit "ip", lit "netns", lit "exec", lit "wg_a1b2c3d4", lit "ip", lit "link", lit "set",
     lit "veth-ns-a1b2c3", lit "up"],
   .exec [lit "ip", lit "netns", lit "exec", lit "wg_a1b2c3d4", lit "ip", lit "addr", lit "add",
     lit "10.200.2.2/30", lit "dev", lit "veth-ns-a1b2c3"],
   .exec [lit "ip", lit "netns", lit "exec", lit "wg_a1b2c3d4", lit "ip", lit "route", lit "add",
     lit "default", lit "via", lit "10.200.2.1"],
   .exec [lit "sysctl", lit "-w", lit "net.ipv4.ip_forward=1"],
   .exec [lit "iptables", lit "-t", lit "nat", lit "-A", lit "POSTROUTING", lit "-s",
     lit "10.200.2.0/30", lit "-o", lit "eth0", lit "-j", lit "MASQUERADE"],
   .exec [lit "iptables", lit "-A", lit "FORWARD", lit "-i", lit "eth0", lit "-o", lit "veth+",
     lit "-j", lit "ACCEPT"],
   .exec [lit "iptables", lit "-A", lit "FORWARD", lit "-o", lit "eth0", lit "-i", lit "veth+",
     lit "-j", lit "ACCEPT"],
   .exec [lit "wg", lit "genkey"],
   .execStdin [lit "wg", lit "pubkey"] (lit "OUT"),
   .mkdirAll (lit "/etc/wireguard/a1b2c3d4") 0o700,
   .writeFile (lit "/etc/wireguard/a1b2c3d4/wg0.conf") (configContent exampleConfig) 0o600]

/-- The run of a provisioning of the example user with no failure. -/
def provisionedRun : Log :=
  answered neverFailing 0
    (exampleSetupActions ++
      [.exec [lit "ip", lit "netns", lit "exec", lit "wg_a1b2c3d4", lit "wg-quick", lit "up",
         lit "/etc/wireguard/a1b2c3d4/wg0.conf"]] ++
      (portForwardingRules (lit "-A") (lit "eth0") 57401 (lit "10.200.2.2") 57401
        (lit "udp")).map Action.exec)

/-- The run of a provisioning of the example user during which the third rule of the port
publishing (action 20) fails. -/
def publishFailureRun : Log :=
  answered (failingAt 20) 0
    (exampleSetupActions ++
      [.exec [lit "ip", lit "netns", lit "exec", lit "wg_a1b2c3d4", lit "wg-quick", lit "up",
         lit "/etc/wireguard/a1b2c3d4/wg0.conf"]] ++
      ((portForwardingRules (lit "-A") (lit "eth0") 57401 (lit "10.200.2.2") 57401
        (lit "udp")).take 3).map Action.exec ++
      [.exec [lit "ip", lit "netns", lit "exec", lit "wg_a1b2c3d4", lit "wg-quick", lit "down",
         lit "/etc/wireguard/a1b2c3d4/wg0.conf"],
       .exec [lit "ip", lit "netns", lit "delete", lit "wg_a1b2c3d4"]])

/-! ## The client configuration (`GetPeerConfig`, `internal/handlers/wireguard.go`) -/

/-- The text `configContent` that `GetPeerConfig` builds with its three `fmt.Sprintf`;
`serverIP` is `config.AppConfig.Network.ServerIP`; `%%i` is the literal `%i`. -/
def GetPeerConfig.configContent (serverIP : ByteString) (wgServer : WireguardServer)
    (peer : WireguardPeer) : ByteString :=
  let serverEndpoint := serverIP ++ lit ":" ++ formatInt wgServer.WgPort
  let allowedIPs := lit "0.0.0.0/0, ::/0"
  let configContent :=
    lit "[Interface]\nPrivateKey = " ++ peer.PrivateKey ++
    lit "\nAddress = " ++ (peer.PeerAddress ++ lit "/32") ++
    lit "\nDNS = 1.1.1.1, 8.8.8.8\n"
  let configContent :=
    if peer.EnableForwarding = true ∧ peer.ForwardInterface ≠ [] then
      configContent ++
        (lit "PostUp = iptables -t nat -A POSTROUTING -o " ++ peer.ForwardInterface ++
          lit " -j MASQUERADE; iptables -A FORWARD -i %i -j ACCEPT; iptables -A FORWARD -o %i -j ACCEPT\nPreDown = iptables -t nat -D POSTROUTING -o " ++
          peer.ForwardInterface ++
          lit " -j MASQUERADE; iptables -D FORWARD -i %i -j ACCEPT; iptables -D FORWARD -o %i -j ACCEPT\n")
    else configContent
  configContent ++
    (lit "\n[Peer]\nPublicKey = " ++ wgServer.WgPublicKey ++
      lit "\nEndpoint = " ++ serverEndpoint ++
      lit "\nAllowedIPs = " ++ allowedIPs ++
      lit "\nPersistentKeepalive = " ++ formatInt peer.PersistentKeepalive ++ lit "\n")

/-- The responses of `GetPeerConfig`. -/
inductive GetPeerConfigResponse where
  /-- Bad request `Invalid peer ID`. -/
  | invalidPeerID
  /-- Bad request `User has no WireGuard server configured`. -/
  | noServer
  /-- Not found `Peer not found`. -/
  | notFound
  /-- Forbidden `You don't have permission to access this peer`. -/
  | forbidden
  /-- Success `Config retrieved successfully`, with the map `config: <text>`. -/
  | success (config : ByteString)
  deriving DecidableEq, Repr

/-- Handler `GetPeerConfig`.  `peerID` is the path parameter as `strconv.ParseUint` read
it (`none` when it fails). -/
def GetPeerConfig (serverIP : ByteString) (db : DatabaseFaults) (cat : Catalog) (userID : Nat)
    (peerID : Option Nat) : GetPeerConfigResponse :=
  match peerID with
  | none => .invalidPeerID
  | some peerID =>
  match cat.firstServer db.serverQueryFails userID with
  | none => .noServer
  | some wgServer =>
  match cat.firstPeer db.peerQueryFails peerID with
  | none => .notFound
  | some peer =>
  if peer.ServerID ≠ wgServer.ID then .forbidden
  else .success (GetPeerConfig.configContent serverIP wgServer peer)

/-! ## User identifiers (`internal/models/user.go`, `internal/database/database.go`) -/

/-- The table `hextable` of package `encoding/hex`. -/
def hextable : ByteString := lit "0123456789abcdef"

/-- Go `hex.EncodeToString`: two digits of `hextable` per byte, the high half first. -/
def EncodeToString (src : ByteString) : ByteString :=
  (src.map (fun v => [hextable.getD (v.toNat >>> 4) 0, hextable.getD (v.toNat &&& 0x0f) 0])).flatten

/-- Function `generateUserUID`; `random` is what `rand.Read` wrote into the four bytes. -/
def generateUserUID (random : Fin 4 → UInt8) : ByteString :=
  EncodeToString (List.ofFn random)

/-- Row `User` of the user table; time stamps are left out. -/
structure UserRow where
  ID : Nat
  UserUID : ByteString
  Email : ByteString
  PasswordHash : ByteString
  Name : ByteString
  Role : ByteString
  deriving DecidableEq, Repr

/-- Constant `RoleAdmin`. -/
def RoleAdmin : ByteString := lit "admin"

/-- Constant `RoleNormalUser`. -/
def RoleNormalUser : ByteString := lit "normal_user"

/-- Hook `User.BeforeCreate`: an empty role becomes `normal_user`, an empty `UserUID` is
generated. -/
def UserRow.BeforeCreate (u : UserRow) (random : Fin 4 → UInt8) : UserRow :=
  let u := if u.Role = [] then { u with Role := RoleNormalUser } else u
  if u.UserUID = [] then { u with UserUID := generateUserUID random } else u

/-- The literal `defaultAdmin` of `createDefaultPlatformAdmin`. -/
def defaultAdmin : UserRow :=
  { ID := 0, Email := lit "admin@platform.com",
    PasswordHash := lit "$2a$10$92IXUNpkjO0rOQ5byMi.Ye4oKoEa3Ro9llC/.og/at2.uheWG/igi",
    Name := lit "admin", Role := RoleAdmin, UserUID := lit "admin001" }

/-- The row `createDefaultPlatformAdmin` inserts, as `DB.Create` stores it after the hook:
none when an admin exists already (`count` is the number of admins found).  The
provisioning that follows is `ProvisionUserNetwork` on this row. -/
def createDefaultPlatformAdmin (count : Int) (random : Fin 4 → UInt8) : Option UserRow :=
  if count = 0 then some (defaultAdmin.BeforeCreate random) else none

/-- The row `Register` inserts for a request, as `DB.Create` stores it after the hook. -/
def registeredUser (email passwordHash name : ByteString) (random : Fin 4 → UInt8) : UserRow :=
  UserRow.BeforeCreate
    { ID := 0, UserUID := [], Email := email, PasswordHash := passwordHash, Name := name,
      Role := RoleNormalUser } random

/-- A lowercase hexadecimal digit, `0` to `9` or `a` to `f`. -/
def isLowerHex (b : UInt8) : Bool :=
  (48 ≤ b.toNat && b.toNat ≤ 57) || (97 ≤ b.toNat && b.toNat ≤ 102)

/-- An identifier as the specification describes it: 8 lowercase hexadecimal digits. -/
def isUserUID (uid : ByteString) : Bool := uid.length == 8 && uid.all isLowerHex

/-! ## The existence check of a namespace (`internal/services/netns.go`) -/

/-- The byte of the space. -/
def space : UInt8 := 32

/-- The byte of the horizontal tab. -/
def tab : UInt8 := 9

/-- The loop of `NamespaceExists` over the lines of the output of `ip netns list`. -/
def namespaceListed (output name : ByteString) : Bool :=
  (Split output newline).any (fun ns => trimSpaceBytes ((Split ns space).getD 0 []) == name)

/-- Method `NamespaceExists`: runs `ip netns list`; an error when the command fails. -/
def NetnsService.NamespaceExists (env : Env) (log : Log) (name : ByteString) :
    Except String Bool × Log :=
  let r := perform env log (.exec [lit "ip", lit "netns", lit "list"])
  if r.1.failed then (.error "failed to list namespaces", r.2)
  else (.ok (namespaceListed r.1.output name), r.2)

/-- The first token of a line delimited by spaces and tabs, if the line has one. -/
def firstToken (line : ByteString) : Option ByteString :=
  ((line.splitOnP (fun b => b == space || b == tab)).filter (fun t => !t.isEmpty)).head?

/-! ## The secret fields of a dump -/

/-- The fields of the lines of a dump with the first field of the first line (the private
key) and the second field of every later line (the preshared key) blanked out. -/
def blankSecrets : List Text → List (List Text)
  | [] => []
  | first :: rest => (Fields first).set 0 [] :: rest.map (fun line => (Fields line).set 1 [])

/-! ## Further concrete inputs -/

/-- A user whose identifier has the subnet id of the example user. -/
def collidingUser : User := { ID := 8, UserUID := lit "00000057" }

/-- A user whose identifier shares its first six bytes with the example user. -/
def neighbourUser : User := { ID := 9, UserUID := lit "a1b2c3d5" }

/-- A peer that forwards through `eth0`. -/
def forwardingPeer : WireguardPeer :=
  { routedPeer with EnableForwarding := true, ForwardInterface := lit "eth0" }

/-- The dump text of scenario S4 with another private key and another preshared key. -/
def exampleDumpOtherSecrets : Text :=
  "OTHER\tPUB\t51820\toff\nPK\tPSK\t1.2.3.4:1000\t10.100.5.2/32\t1700000000\t1024\t2048\t25".toList

/-! ## The provisioning saga as the specification lists it -/

/-- The seven steps of the saga as service calls, in order, with the parameters derived
from the identifier; the keys and the configuration path are those the environment
answers (empty when it answers none). -/
def sagaSteps (s : UserNetworkService) (user : User) (eff : ProvisionEffects) : List NetCall :=
  let sid := formatInt (hashUserUID user.UserUID % 254 + 1)
  let port := wrapInt64 (s.basePort + hashUserUID user.UserUID % 10000)
  let nsName := lit "wg_" ++ user.UserUID
  let keys := match eff.generateKeys with
    | .ok keys => keys
    | .error _ => ([], [])
  let configPath := match eff.createConfig with
    | .ok path => path
    | .error _ => []
  [.CreateNamespace nsName,
   .CreateVethPair (lit "veth-h-" ++ user.UserUID.take 6) (lit "veth-ns-" ++ user.UserUID.take 6)
     nsName (s.baseSubnet ++ lit "." ++ sid ++ lit ".2/30")
     (s.baseSubnet ++ lit "." ++ sid ++ lit ".1/30"),
   .EnableNAT (s.baseSubnet ++ lit "." ++ sid ++ lit ".0/30") s.outInterface,
   .GenerateKeys,
   .CreateConfig user.UserUID
     { InterfaceName := lit "wg0", ListenPort := port, PrivateKey := keys.1,
       PublicKey := keys.2, Address := lit "10.100." ++ sid ++ lit ".1/24",
       VethInterface := lit "veth-ns-" ++ user.UserUID.take 6, OutInterface := s.outInterface },
   .StartWireguardInNamespace nsName configPath,
   .SetupPortForwarding s.outInterface port
     ((Split (s.baseSubnet ++ lit "." ++ sid ++ lit ".2/30") slash).getD 0 []) port (lit "udp")]

/-- The position of the first step that fails, from 0; 7 when none fails. -/
def firstFailure (eff : ProvisionEffects) : Nat :=
  if eff.createNamespace.isSome then 0
  else if eff.createVethPair.isSome then 1
  else if eff.enableNAT.isSome then 2
  else if !eff.generateKeys.toBool then 3
  else if !eff.createConfig.toBool then 4
  else if eff.startWireguard.isSome then 5
  else if eff.setupPortForwarding.isSome then 6
  else 7

/-- The calls that follow a failure of step `k`: none after the creation of the namespace
(and none after a success), the deletion of the namespace after the other steps, preceded
by the stop of WireGuard after the port publishing. -/
def compensation (user : User) (eff : ProvisionEffects) (k : Nat) : List NetCall :=
  let nsName := lit "wg_" ++ user.UserUID
  let configPath := match eff.createConfig with
    | .ok path => path
    | .error _ => []
  if k = 0 ∨ 7 ≤ k then []
  else if k = 6 then [.StopWireguardInNamespace nsName configPath, .DeleteNamespace nsName]
  else [.DeleteNamespace nsName]

/-- Tells whether a result of the provisioning is an error returned with a nil descriptor. -/
def ProvisionResult.isError : ProvisionResult → Bool
  | .panic => false
  | .ok _ => false
  | _ => true

/-- A provisioning whose port publishing fails. -/
def publishFailureEffects : ProvisionEffects :=
  { exampleProvisionEffects with setupPortForwarding := some "failed to add DNAT rule" }

/-- The descriptor provisioning returns for the colliding user when every command prints
`OUT`. -/
def collidingDescriptor : WireguardServer :=
  { ID := 0, UserID := 8, Namespace := lit "wg_00000057", WgInterface := lit "wg0",
    WgPort := 57465, WgPublicKey := lit "OUT", WgPrivateKey := lit "OUT",
    WgAddress := lit "10.100.2.1/24" }

/-- The example catalog with the forwarding peer. -/
def forwardingCatalog : Catalog :=
  { servers := [exampleServer], peers := [forwardingPeer], nextPeerID := 2 }

/-- A host on which no action fails and every command prints the given text. -/
def printingHost (output : ByteString) : Env :=
  { answers := fun _ => { failed := false, output := output },
    pathJoin := fun parts => List.intercalate (lit "/") parts }

/-! ## Decimal formatting and splitting -/

theorem digitByte_toNat (d : Nat) (h : d < 10) : (digitByte d).toNat = 48 + d := by
  interval_cases d <;> rfl

theorem decimalDigits_lt (fuel n : Nat) : ∀ d ∈ decimalDigits fuel n, d < 10 := by
  induction fuel generalizing n with
  | zero => simp [decimalDigits]
  | succ fuel ih =>
    intro d hd
    unfold decimalDigits at hd
    split at hd
    · simp at hd; omega
    · rcases List.mem_cons.mp hd with h | h
      · omega
      · exact ih _ d h

theorem digitsValue_decimalDigits (fuel n : Nat) (h : n < fuel) :
    digitsValue (decimalDigits fuel n) = n := by
  induction fuel generalizing n with
  | zero => omega
  | succ fuel ih =>
    unfold decimalDigits
    split
    · rename_i h10
      simp [digitsValue, digitByte_toNat n h10]
    · rename_i h10
      have hrec := ih (n / 10) (by omega)
      have hd := digitByte_toNat (n % 10) (Nat.mod_lt _ (by decide))
      simp only [digitsValue, List.foldr_cons] at hrec ⊢
      rw [hrec, hd]
      omega

theorem readNat_formatNat (n : Nat) : readNat (formatNat n) = n := by
  have h := digitsValue_decimalDigits (n + 1) n (by omega)
  unfold readNat formatNat
  rw [← List.map_reverse, List.reverse_reverse, List.foldr_map]
  exact h

theorem formatNat_injective : Function.Injective formatNat := by
  intro a b h
  have := congrArg readNat h
  simpa [readNat_formatNat] using this

theorem formatNat_digits (n : Nat) : ∀ b ∈ formatNat n, b ≠ dot ∧ b ≠ slash := by
  intro b hb
  unfold formatNat at hb
  rw [List.mem_map] at hb
  obtain ⟨d, hd, rfl⟩ := hb
  have hlt := decimalDigits_lt (n + 1) n d (List.mem_reverse.mp hd)
  interval_cases d <;> decide

theorem split_serverCIDR (A B C : Nat) :
    Split (serverCIDR A B C) slash = [dottedQuad A B C 1, lit "24"] := by
  have h := List.splitOn_intercalate [dottedQuad A B C 1, lit "24"] slash
    (by
      intro l hl
      simp only [List.mem_cons, List.mem_singleton, List.not_mem_nil, or_false] at hl
      rcases hl with rfl | rfl
      · intro hmem
        simp only [dottedQuad, List.mem_append, List.mem_singleton] at hmem
        have hA := formatNat_digits A
        have hB := formatNat_digits B
        have hC := formatNat_digits C
        have h1 := formatNat_digits 1
        have hne : slash ≠ dot := by decide
        rcases hmem with ((((((h | h) | h) | h) | h) | h) | h)
        · exact (hA _ h).2 rfl
        · exact hne h
        · exact (hB _ h).2 rfl
        · exact hne h
        · exact (hC _ h).2 rfl
        · exact hne h
        · exact (h1 _ h).2 rfl
      · decide)
    (by simp)
  simpa [Split, serverCIDR, List.intercalate] using h

theorem split_dottedQuad (A B C D : Nat) :
    Split (dottedQuad A B C D) dot = [formatNat A, formatNat B, formatNat C, formatNat D] := by
  have h := List.splitOn_intercalate [formatNat A, formatNat B, formatNat C, formatNat D] dot
    (by
      intro l hl
      simp only [List.mem_cons, List.mem_singleton, List.not_mem_nil, or_false] at hl
      rcases hl with rfl | rfl | rfl | rfl <;> exact fun hmem => (formatNat_digits _ _ hmem).1 rfl)
    (by simp)
  simpa [Split, dottedQuad, List.intercalate] using h

theorem candidateIP_dottedQuad (A B C i : Nat) :
    candidateIP (formatNat A ++ [dot] ++ formatNat B ++ [dot] ++ formatNat C) i = dottedQuad A B C i := by
  simp [candidateIP, dottedQuad]

theorem dottedQuad_inj (A B C i j : Nat) : dottedQuad A B C i = dottedQuad A B C j ↔ i = j := by
  constructor
  · intro h
    unfold dottedQuad at h
    exact formatNat_injective (List.append_cancel_left h)
  · rintro rfl; rfl

/-- The allocator once both format checks pass. -/
theorem allocatePeerIP_of_split (find : Nat → Except String (List WireguardPeer)) (serverID : Nat)
    (addr host rest a b c d : ByteString)
    (h1 : Split addr slash = [host, rest]) (h2 : Split host dot = [a, b, c, d]) :
    allocatePeerIP find serverID addr =
      match find serverID with
      | .error e => .error (.database e)
      | .ok peers =>
        match (List.range' 2 253).find? (fun i =>
          decide (candidateIP (a ++ [dot] ++ b ++ [dot] ++ c) i ∉
            host :: peers.map (fun peer => peer.PeerAddress))) with
        | some i => .ok (candidateIP (a ++ [dot] ++ b ++ [dot] ++ c) i)
        | none => .error .noAvailableIP := by
  unfold allocatePeerIP
  simp only [h1, List.getD_cons_zero, h2]
  simp

/-- The allocator on a server address `A.B.C.1/24`, with both format checks discharged. -/
theorem allocatePeerIP_serverCIDR (find : Nat → Except String (List WireguardPeer)) (serverID : Nat)
    (A B C : Nat) :
    allocatePeerIP find serverID (serverCIDR A B C) =
      match find serverID with
      | .error e => .error (.database e)
      | .ok peers =>
        match (List.range' 2 253).find? (fun i =>
          decide (dottedQuad A B C i ∉ dottedQuad A B C 1 :: peers.map (fun peer => peer.PeerAddress))) with
        | some i => .ok (dottedQuad A B C i)
        | none => .error .noAvailableIP := by
  rw [allocatePeerIP_of_split find serverID _ _ _ _ _ _ _ (split_serverCIDR A B C)
    (split_dottedQuad A B C 1)]
  simp only [candidateIP_dottedQuad]

theorem dottedQuad_ne_server (A B C i : Nat) (hi : 2 ≤ i) : dottedQuad A B C i ≠ dottedQuad A B C 1 := by
  intro h
  have := (dottedQuad_inj A B C i 1).mp h
  omega

/-- The least unused candidate, when the allocator looks for it on `A.B.C.1/24`. -/
theorem find_candidate_some (A B C : Nat) (peers : List WireguardPeer) (n : Nat) :
    (List.range' 2 253).find? (fun i => decide (dottedQuad A B C i ∉
        dottedQuad A B C 1 :: peers.map (fun peer => peer.PeerAddress))) = some n ↔
      2 ≤ n ∧ n ≤ 254 ∧ dottedQuad A B C n ∉ peerAddresses peers ∧
        ∀ m, 2 ≤ m → m < n → dottedQuad A B C m ∈ peerAddresses peers := by
  rw [List.find?_range'_eq_some, List.mem_range']
  simp only [decide_eq_true_eq, List.mem_cons, not_or, Bool.not_eq_true', decide_eq_false_iff_not,
    not_and, not_not, peerAddresses]
  constructor
  · rintro ⟨⟨-, hfree⟩, ⟨j, hj, rfl⟩, hmin⟩
    refine ⟨by omega, by omega, hfree, fun m hm2 hmn => ?_⟩
    exact hmin m hm2 hmn (dottedQuad_ne_server A B C m hm2)
  · rintro ⟨h2, h254, hfree, hmin⟩
    refine ⟨⟨dottedQuad_ne_server A B C n h2, hfree⟩, ⟨n - 2, by omega, by omega⟩, ?_⟩
    intro m hm2 hmn _
    exact hmin m hm2 hmn

theorem find_candidate_none (A B C : Nat) (peers : List WireguardPeer) :
    (List.range' 2 253).find? (fun i => decide (dottedQuad A B C i ∉
        dottedQuad A B C 1 :: peers.map (fun peer => peer.PeerAddress))) = none ↔
      ∀ k, 2 ≤ k → k ≤ 254 → dottedQuad A B C k ∈ peerAddresses peers := by
  rw [List.find?_eq_none]
  simp only [List.mem_range', decide_eq_true_eq, not_not, List.mem_cons, peerAddresses]
  constructor
  · intro h k hk2 hk254
    rcases h k ⟨k - 2, by omega, by omega⟩ with h | h
    · exact absurd h (dottedQuad_ne_server A B C k hk2)
    · exact h
  · rintro h k ⟨j, hj, rfl⟩
    exact Or.inr (h _ (by omega) (by omega))

/-- When the peer query succeeds, the allocator on `A.B.C.1/24` returns exactly the least
unused address of `A.B.C.2 .. A.B.C.254`. -/
theorem allocatePeerIP_ok_iff (find : Nat → Except String (List WireguardPeer)) (serverID : Nat)
    (A B C : Nat) (peers : List WireguardPeer) (hfind : find serverID = .ok peers)
    (ip : ByteString) :
    allocatePeerIP find serverID (serverCIDR A B C) = .ok ip ↔
      ∃ n, 2 ≤ n ∧ n ≤ 254 ∧ ip = dottedQuad A B C n ∧ dottedQuad A B C n ∉ peerAddresses peers ∧
        ∀ m, 2 ≤ m → m < n → dottedQuad A B C m ∈ peerAddresses peers := by
  rw [allocatePeerIP_serverCIDR, hfind]
  simp only
  cases hf : (List.range' 2 253).find? (fun i => decide (dottedQuad A B C i ∉
      dottedQuad A B C 1 :: peers.map (fun peer => peer.PeerAddress))) with
  | none =>
    simp only [reduceCtorEq, false_iff]
    rintro ⟨n, h2, h254, -, hfree, -⟩
    exact hfree ((find_candidate_none A B C peers).mp hf n h2 h254)
  | some n =>
    have hn := (find_candidate_some A B C peers n).mp hf
    simp only [Except.ok.injEq]
    constructor
    · rintro rfl
      exact ⟨n, hn.1, hn.2.1, rfl, hn.2.2.1, hn.2.2.2⟩
    · rintro ⟨m, hm2, hm254, rfl, hfree, hmin⟩
      rcases Nat.lt_trichotomy m n with h | h | h
      · exact absurd (hn.2.2.2 m hm2 h) hfree
      · rw [h]
      · exact absurd (hmin n hn.1 h) hn.2.2.1

/-- When the peer query succeeds, the allocator on `A.B.C.1/24` reports exhaustion exactly
when every address of `A.B.C.2 .. A.B.C.254` is taken. -/
theorem allocatePeerIP_error_iff (find : Nat → Except String (List WireguardPeer)) (serverID : Nat)
    (A B C : Nat) (peers : List WireguardPeer) (hfind : find serverID = .ok peers)
    (e : AllocError) :
    allocatePeerIP find serverID (serverCIDR A B C) = .error e ↔
      e = .noAvailableIP ∧ ∀ k, 2 ≤ k → k ≤ 254 → dottedQuad A B C k ∈ peerAddresses peers := by
  rw [allocatePeerIP_serverCIDR, hfind]
  simp only
  cases hf : (List.range' 2 253).find? (fun i => decide (dottedQuad A B C i ∉
      dottedQuad A B C 1 :: peers.map (fun peer => peer.PeerAddress))) with
  | none =>
    have hall := (find_candidate_none A B C peers).mp hf
    simp only [Except.error.injEq]
    constructor
    · rintro rfl
      exact ⟨rfl, hall⟩
    · rintro ⟨rfl, -⟩
      rfl
  | some n =>
    have hn := (find_candidate_some A B C peers n).mp hf
    simp only [reduceCtorEq, false_iff, not_and]
    intro _ hall
    exact hn.2.2.1 (hall n hn.1 hn.2.1)

/-- Claim C1.  On a server address `A.B.C.1/24`, whenever the peers the catalog returns leave
one of `A.B.C.2 .. A.B.C.254` unused, `allocatePeerIP` returns `A.B.C.n` for the smallest `n`
in `2 .. 254` whose address is not taken. -/
theorem allocatePeerIP_first_unused (A B C serverID : Nat) (peers : List WireguardPeer)
    (hfree : ∃ k, 2 ≤ k ∧ k ≤ 254 ∧ dottedQuad A B C k ∉ peerAddresses peers) :
    ∃ n, 2 ≤ n ∧ n ≤ 254 ∧ dottedQuad A B C n ∉ peerAddresses peers ∧
      (∀ m, 2 ≤ m → m < n → dottedQuad A B C m ∈ peerAddresses peers) ∧
      allocatePeerIP (fun _ => .ok peers) serverID (serverCIDR A B C)
        = .ok (dottedQuad A B C n) := by
  cases h : allocatePeerIP (fun _ => .ok peers) serverID (serverCIDR A B C) with
  | error e =>
    obtain ⟨k, hk2, hk254, hk⟩ := hfree
    have := (allocatePeerIP_error_iff _ serverID A B C peers rfl e).mp h
    exact absurd (this.2 k hk2 hk254) hk
  | ok ip =>
    obtain ⟨n, h2, h254, rfl, hfree, hmin⟩ := (allocatePeerIP_ok_iff _ serverID A B C peers rfl ip).mp h
    exact ⟨n, h2, h254, hfree, hmin, rfl⟩

/-- Claim C3.  On a server address `A.B.C.1/24`, `allocatePeerIP` fails with the
subnet-exhausted error exactly when every address `A.B.C.2 .. A.B.C.254` is in the catalog, and
then it returns no address. -/
theorem allocatePeerIP_exhausted_iff (A B C serverID : Nat) (peers : List WireguardPeer) :
    (allocatePeerIP (fun _ => .ok peers) serverID (serverCIDR A B C) = .error .noAvailableIP ↔
      ∀ k, 2 ≤ k → k ≤ 254 → dottedQuad A B C k ∈ peerAddresses peers) ∧
    ((∀ k, 2 ≤ k → k ≤ 254 → dottedQuad A B C k ∈ peerAddresses peers) →
      ∀ ip, allocatePeerIP (fun _ => .ok peers) serverID (serverCIDR A B C) ≠ .ok ip) := by
  have key := allocatePeerIP_error_iff (fun _ => .ok peers) serverID A B C peers rfl .noAvailableIP
  simp only [true_and] at key
  refine ⟨key, ?_⟩
  intro hall ip hip
  rw [key.mpr hall] at hip
  cases hip

theorem length_splitOn_eq_count (sep : UInt8) (s : ByteString) :
    (s.splitOn sep).length = s.count sep + 1 := by
  induction s with
  | nil => simp
  | cons x xs ih =>
    unfold List.splitOn at ih ⊢
    rw [List.splitOnP_cons]
    by_cases hx : x = sep
    · subst hx
      simp [ih]
    · have hne : (x == sep) = false := by simpa using hx
      simp only [hne, Bool.false_eq_true, ite_false, List.length_modifyHead, ih]
      rw [List.count_cons_of_ne (Ne.symm hx)]

theorem head_splitOn_eq_takeWhile (sep : UInt8) (s : ByteString) :
    (s.splitOn sep).getD 0 [] = s.takeWhile (fun b => b != sep) := by
  induction s with
  | nil => simp
  | cons x xs ih =>
    unfold List.splitOn at ih ⊢
    rw [List.splitOnP_cons]
    by_cases hx : x = sep
    · subst hx
      simp
    · have hne : (x == sep) = false := by simpa using hx
      have hne2 : (x != sep) = true := by simpa using hx
      simp only [hne, Bool.false_eq_true, ite_false, List.takeWhile_cons, hne2, ite_true]
      have hnil := List.splitOnP_ne_nil (fun b => b == sep) xs
      cases hs : List.splitOnP (fun b => b == sep) xs with
      | nil => exact absurd hs hnil
      | cons y ys =>
        rw [hs] at ih
        simp only [List.getD_cons_zero] at ih
        simp [List.modifyHead, ih]

/-- Claim C5, amended.  A server address that does not hold exactly one `/`, or whose part
before the `/` does not hold exactly three `.`, makes `allocatePeerIP` fail with one of its
two invalid-address errors; nothing else about the address is checked. -/
theorem allocatePeerIP_invalid_address (find : Nat → Except String (List WireguardPeer))
    (serverID : Nat) (s : ByteString)
    (h : s.count slash ≠ 1 ∨ (s.takeWhile (fun b => b != slash)).count dot ≠ 3) :
    allocatePeerIP find serverID s = .error .invalidServerAddressFormat ∨
      allocatePeerIP find serverID s = .error .invalidIPAddressFormat := by
  unfold allocatePeerIP
  simp only [Split, length_splitOn_eq_count, head_splitOn_eq_takeWhile]
  by_cases h1 : s.count slash = 1
  · have h2 : (s.takeWhile (fun b => b != slash)).count dot ≠ 3 := by
      rcases h with h | h
      · exact absurd h1 h
      · exact h
    right
    simp [h1, h2]
  · left
    simp [h1]

/-- Claim C5, counterexample.  The address `a.b.c.d/24` is no dotted quad of decimal octets,
yet `allocatePeerIP` accepts it and returns `a.b.c.2`. -/
theorem allocatePeerIP_accepts_malformed :
    isDottedQuadCIDR (lit "a.b.c.d/24") = false ∧
      allocatePeerIP (fun _ => .ok []) 1 (lit "a.b.c.d/24") = .ok (lit "a.b.c.2") := by
  decide

/-- The address of scenario S2 is well formed in the sense of the specification. -/
theorem isDottedQuadCIDR_example : isDottedQuadCIDR (lit "10.100.5.1/24") = true := by
  decide

theorem delete_peers_sublist (cat : Catalog) (b : Bool) (peer : WireguardPeer) :
    (cat.delete b peer).peers.Sublist cat.peers ∧ (cat.delete b peer).servers = cat.servers := by
  unfold Catalog.delete
  split
  · exact ⟨List.Sublist.refl _, rfl⟩
  · exact ⟨List.filter_sublist _, rfl⟩

theorem create_spec (cat cat1 : Catalog) (b : Bool) (peer row : WireguardPeer)
    (h : cat.create b peer = some (cat1, row)) :
    b = false ∧ cat1.servers = cat.servers ∧ cat1.peers = cat.peers ++ [row] ∧
      row.PeerAddress = peer.PeerAddress ∧ row.ServerID = peer.ServerID ∧
      row.ID = cat.nextPeerID := by
  unfold Catalog.create at h
  split at h
  · cases h
  · rename_i hb
    simp only [Option.some.injEq, Prod.mk.injEq] at h
    obtain ⟨rfl, rfl⟩ := h
    refine ⟨by simpa using hb, rfl, rfl, ?_, ?_, rfl⟩
    · unfold WireguardPeer.BeforeCreate; split <;> rfl
    · unfold WireguardPeer.BeforeCreate; split <;> rfl

theorem rollback_sublist (cat cat1 : Catalog) (b b2 : Bool) (peer row : WireguardPeer)
    (h : cat.create b peer = some (cat1, row)) :
    (cat1.delete b2 row).servers = cat.servers ∧
    ((cat1.delete b2 row).peers.Sublist cat.peers ∨ (cat1.delete b2 row).peers = cat.peers ++ [row]) := by
  obtain ⟨-, hs, hp, -, -, -⟩ := create_spec cat cat1 b peer row h
  unfold Catalog.delete
  split
  · exact ⟨hs, Or.inr hp⟩
  · refine ⟨hs, Or.inl ?_⟩
    simp only [hp, List.filter_append]
    have : List.filter (fun r => r.ID != row.ID) [row] = [] := by simp
    rw [this, List.append_nil]
    exact List.filter_sublist _

/-- What one `AddPeer` does to the catalog. -/
theorem AddPeer_catalog (cat : Catalog) (userID : Nat) (body : Option AddPeerRequest)
    (eff : AddPeerEffects) :
    (AddPeer cat userID body eff).1.servers = cat.servers ∧
    (((AddPeer cat userID body eff).1.peers.Sublist cat.peers ∧
        ∀ p, (AddPeer cat userID body eff).2.1 ≠ .created p) ∨
      ∃ srv ip row, cat.firstServer eff.serverQueryFails userID = some srv ∧
        allocatePeerIP (cat.findPeers eff.peerQueryError) srv.ID srv.WgAddress = .ok ip ∧
        row.PeerAddress = ip ∧ row.ServerID = srv.ID ∧
        (AddPeer cat userID body eff).1.peers = cat.peers ++ [row] ∧
        ∀ p, (AddPeer cat userID body eff).2.1 = .created p → p = row) := by
  unfold AddPeer
  split
  · exact ⟨rfl, Or.inl ⟨List.Sublist.refl _, by simp⟩⟩
  rename_i req
  split
  · exact ⟨rfl, Or.inl ⟨List.Sublist.refl _, by simp⟩⟩
  rename_i x wgServer hsrv
  split
  · exact ⟨rfl, Or.inl ⟨List.Sublist.refl _, by simp⟩⟩
  rename_i privateKey publicKey hkeys
  split
  · exact ⟨rfl, Or.inl ⟨List.Sublist.refl _, by simp⟩⟩
  rename_i peerIP halloc
  simp only
  generalize (if req.AllowedIPs = [] then peerIP ++ lit "/32" else req.AllowedIPs) = allowedIPs
  split
  · exact ⟨rfl, Or.inl ⟨List.Sublist.refl _, by simp⟩⟩
  rename_i cat1 row hcreate
  have hc := create_spec _ _ _ _ _ hcreate
  have hrb := rollback_sublist _ _ _ eff.rollbackDeleteFails _ _ hcreate
  have bad : ∀ (r : AddPeerResponse), (∀ p, r ≠ .created p) →
      ∀ calls : List ServiceCall,
      (((cat1.delete eff.rollbackDeleteFails row, r, calls) : Catalog × AddPeerResponse × List ServiceCall).1.servers = cat.servers) ∧
      ((((cat1.delete eff.rollbackDeleteFails row, r, calls) : Catalog × AddPeerResponse × List ServiceCall).1.peers.Sublist cat.peers ∧
        ∀ p, ((cat1.delete eff.rollbackDeleteFails row, r, calls) : Catalog × AddPeerResponse × List ServiceCall).2.1 ≠ .created p) ∨
      ∃ srv ip row', cat.firstServer eff.serverQueryFails userID = some srv ∧
        allocatePeerIP (cat.findPeers eff.peerQueryError) srv.ID srv.WgAddress = .ok ip ∧
        row'.PeerAddress = ip ∧ row'.ServerID = srv.ID ∧
        ((cat1.delete eff.rollbackDeleteFails row, r, calls) : Catalog × AddPeerResponse × List ServiceCall).1.peers = cat.peers ++ [row'] ∧
        ∀ p, ((cat1.delete eff.rollbackDeleteFails row, r, calls) : Catalog × AddPeerResponse × List ServiceCall).2.1 = .created p → p = row') := by
    intro r hr calls
    refine ⟨hrb.1, ?_⟩
    rcases hrb.2 with h | h
    · exact Or.inl ⟨h, hr⟩
    · exact Or.inr ⟨wgServer, peerIP, row, hsrv, halloc, hc.2.2.2.1, hc.2.2.2.2.1, h,
        fun p hp => absurd hp (hr p)⟩
  have ok : ∀ calls : List ServiceCall,
      (((cat1, AddPeerResponse.created row, calls) : Catalog × AddPeerResponse × List ServiceCall).1.servers = cat.servers) ∧
      ((((cat1, AddPeerResponse.created row, calls) : Catalog × AddPeerResponse × List ServiceCall).1.peers.Sublist cat.peers ∧
        ∀ p, ((cat1, AddPeerResponse.created row, calls) : Catalog × AddPeerResponse × List ServiceCall).2.1 ≠ .created p) ∨
      ∃ srv ip row', cat.firstServer eff.serverQueryFails userID = some srv ∧
        allocatePeerIP (cat.findPeers eff.peerQueryError) srv.ID srv.WgAddress = .ok ip ∧
        row'.PeerAddress = ip ∧ row'.ServerID = srv.ID ∧
        ((cat1, AddPeerResponse.created row, calls) : Catalog × AddPeerResponse × List ServiceCall).1.peers = cat.peers ++ [row'] ∧
        ∀ p, ((cat1, AddPeerResponse.created row, calls) : Catalog × AddPeerResponse × List ServiceCall).2.1 = .created p → p = row') := by
    intro calls
    refine ⟨hc.2.1, Or.inr ⟨wgServer, peerIP, row, hsrv, halloc, hc.2.2.2.1, hc.2.2.2.2.1, hc.2.2.1, ?_⟩⟩
    intro p hp
    simp only [AddPeerResponse.created.injEq] at hp
    exact hp.symm
  split
  · refine bad _ ?_ _
    simp
  split
  · split
    · refine bad _ ?_ _
      simp
    split
    · refine bad _ ?_ _
      simp
    · exact ok _
  · exact ok _

/-- What one `DeletePeer` does to the catalog. -/
theorem DeletePeer_catalog (cat : Catalog) (userID : Nat) (peerID : Option Nat)
    (eff : DeletePeerEffects) :
    (DeletePeer cat userID peerID eff).1.servers = cat.servers ∧
      (DeletePeer cat userID peerID eff).1.peers.Sublist cat.peers := by
  unfold DeletePeer
  split
  · exact ⟨rfl, List.Sublist.refl _⟩
  split
  · exact ⟨rfl, List.Sublist.refl _⟩
  split
  · exact ⟨rfl, List.Sublist.refl _⟩
  split
  · exact ⟨rfl, List.Sublist.refl _⟩
  simp only
  split
  · exact ⟨rfl, List.Sublist.refl _⟩
  split
  · exact ⟨rfl, List.Sublist.refl _⟩
  · exact ⟨(delete_peers_sublist _ _ _).2, (delete_peers_sublist _ _ _).1⟩

theorem firstServer_of_servers_eq (cat cat1 : Catalog) (h : cat1.servers = cat.servers) (b : Bool)
    (userID : Nat) : cat1.firstServer b userID = cat.firstServer b userID := by
  unfold Catalog.firstServer
  rw [h]

theorem peerAddresses_sublist (cat cat1 : Catalog) (h : cat1.peers.Sublist cat.peers)
    (serverID : Nat) : (cat1.peerAddresses serverID).Sublist (cat.peerAddresses serverID) := by
  unfold Catalog.peerAddresses
  exact (h.filter _).map _

theorem peerAddresses_append (cat cat1 : Catalog) (row : WireguardPeer)
    (h : cat1.peers = cat.peers ++ [row]) :
    cat1.peerAddresses row.ServerID = cat.peerAddresses row.ServerID ++ [row.PeerAddress] := by
  unfold Catalog.peerAddresses
  rw [h, List.filter_append, List.map_append]
  simp

theorem firstServer_false_of_some (cat : Catalog) (b : Bool) (userID : Nat) (srv : WireguardServer)
    (h : cat.firstServer b userID = some srv) : cat.firstServer false userID = some srv := by
  unfold Catalog.firstServer at h ⊢
  cases b <;> simp_all

/-- The allocator inside `AddPeer`, for a server `A.B.C.1/24`: any address it returns is the
least unused one of the live peers of that server. -/
theorem allocatePeerIP_catalog_ok (cat : Catalog) (qe : Option String) (serverID A B C : Nat)
    (ip : ByteString)
    (h : allocatePeerIP (cat.findPeers qe) serverID (serverCIDR A B C) = .ok ip) :
    ∃ n, 2 ≤ n ∧ n ≤ 254 ∧ ip = dottedQuad A B C n ∧
      dottedQuad A B C n ∉ cat.peerAddresses serverID ∧
      ∀ m, 2 ≤ m → m < n → dottedQuad A B C m ∈ cat.peerAddresses serverID := by
  cases qe with
  | some e =>
    rw [allocatePeerIP_serverCIDR] at h
    simp [Catalog.findPeers] at h
  | none =>
    exact (allocatePeerIP_ok_iff (cat.findPeers none) serverID A B C
      (cat.peers.filter (fun peer => peer.ServerID == serverID)) rfl ip).mp h

theorem PeerInvariant_of_sublist (A B C userID : Nat) (srv : WireguardServer) (cat cat1 : Catalog)
    (hinv : PeerInvariant A B C userID srv cat) (hs : cat1.servers = cat.servers)
    (hp : cat1.peers.Sublist cat.peers) : PeerInvariant A B C userID srv cat1 := by
  obtain ⟨h1, h2, h3⟩ := hinv
  have hsub := peerAddresses_sublist cat cat1 hp srv.ID
  exact ⟨by rw [firstServer_of_servers_eq cat cat1 hs]; exact h1, h2.sublist hsub,
    fun hmem => h3 (hsub.subset hmem)⟩

theorem AddPeer_invariant (A B C userID : Nat) (srv : WireguardServer) (cat : Catalog)
    (haddr : srv.WgAddress = serverCIDR A B C)
    (hinv : PeerInvariant A B C userID srv cat) (body : Option AddPeerRequest)
    (eff : AddPeerEffects) :
    PeerInvariant A B C userID srv (AddPeer cat userID body eff).1 ∧
      ∀ p, (AddPeer cat userID body eff).2.1 = .created p →
        ∃ n, 2 ≤ n ∧ n ≤ 254 ∧ p.PeerAddress = dottedQuad A B C n := by
  obtain ⟨hs, hcase⟩ := AddPeer_catalog cat userID body eff
  rcases hcase with ⟨hsub, hne⟩ | ⟨srv1, ip, row, hsrv1, halloc, hrow, hrowsrv, hpeers, hresp⟩
  · exact ⟨PeerInvariant_of_sublist A B C userID srv cat _ hinv hs hsub,
      fun p hp => absurd hp (hne p)⟩
  · have hsame : srv1 = srv := by
      have := firstServer_false_of_some cat _ userID srv1 hsrv1
      rw [hinv.1] at this
      exact (Option.some.inj this).symm
    subst hsame
    rw [haddr] at halloc
    obtain ⟨n, h2, h254, rfl, hfree, -⟩ := allocatePeerIP_catalog_ok cat _ _ A B C ip halloc
    have happ := peerAddresses_append cat _ row hpeers
    rw [hrowsrv, hrow] at happ
    refine ⟨⟨by rw [firstServer_of_servers_eq cat _ hs]; exact hinv.1, ?_, ?_⟩, ?_⟩
    · rw [happ]
      exact List.Nodup.append hinv.2.1 (List.nodup_singleton _)
        (by
          intro a ha hb
          rw [List.mem_singleton] at hb
          exact hfree (hb ▸ ha))
    · rw [happ]
      simp only [List.mem_append, List.mem_singleton, not_or]
      exact ⟨hinv.2.2, fun h => dottedQuad_ne_server A B C n h2 h.symm⟩
    · intro p hp
      rw [hresp p hp, hrow]
      exact ⟨n, h2, h254, rfl⟩

theorem runPeerOps_invariant (A B C userID : Nat) (srv : WireguardServer)
    (haddr : srv.WgAddress = serverCIDR A B C) (ops : List PeerOp) :
    ∀ cat, PeerInvariant A B C userID srv cat →
      PeerInvariant A B C userID srv (runPeerOps userID cat ops).1 ∧
        ∀ p, PeerOpResult.add (.created p) ∈ (runPeerOps userID cat ops).2 →
          ∃ n, 2 ≤ n ∧ n ≤ 254 ∧ p.PeerAddress = dottedQuad A B C n := by
  induction ops with
  | nil =>
    intro cat hinv
    exact ⟨hinv, by simp [runPeerOps]⟩
  | cons op ops ih =>
    intro cat hinv
    have hstep : PeerInvariant A B C userID srv (op.run userID cat).1 ∧
        ∀ p, (op.run userID cat).2 = .add (.created p) →
          ∃ n, 2 ≤ n ∧ n ≤ 254 ∧ p.PeerAddress = dottedQuad A B C n := by
      cases op with
      | add body eff =>
        have h := AddPeer_invariant A B C userID srv cat haddr hinv body eff
        refine ⟨h.1, fun p hp => h.2 p ?_⟩
        simpa [PeerOp.run] using hp
      | delete peerID eff =>
        have h := DeletePeer_catalog cat userID peerID eff
        exact ⟨PeerInvariant_of_sublist A B C userID srv cat _ hinv h.1 h.2,
          fun p hp => by simp [PeerOp.run] at hp⟩
    have hrest := ih _ hstep.1
    refine ⟨hrest.1, ?_⟩
    intro p hp
    simp only [runPeerOps, List.mem_cons] at hp
    rcases hp with h | h
    · exact hstep.2 p h.symm
    · exact hrest.2 p h

/-- Claim C2.  Peer IP uniqueness is an invariant of the catalog of one server
`A.B.C.1/24`: from live addresses that are pairwise distinct and differ from the server
address, any serialized history of `AddPeer` and `DeletePeer` calls of the owner, whatever
fails during them, leads to live addresses that are pairwise distinct and differ from
`A.B.C.1`, and every address handed out is `A.B.C.n` with `2 ≤ n ≤ 254`. -/
theorem peer_ip_uniqueness (A B C userID : Nat) (srv : WireguardServer) (cat : Catalog)
    (hsrv : cat.firstServer false userID = some srv) (haddr : srv.WgAddress = serverCIDR A B C)
    (hdistinct : (cat.peerAddresses srv.ID).Nodup)
    (hserver : dottedQuad A B C 1 ∉ cat.peerAddresses srv.ID) (ops : List PeerOp) :
    ((runPeerOps userID cat ops).1.peerAddresses srv.ID).Nodup ∧
      dottedQuad A B C 1 ∉ (runPeerOps userID cat ops).1.peerAddresses srv.ID ∧
      ∀ p, PeerOpResult.add (.created p) ∈ (runPeerOps userID cat ops).2 →
        ∃ n, 2 ≤ n ∧ n ≤ 254 ∧ p.PeerAddress = dottedQuad A B C n := by
  have h := runPeerOps_invariant A B C userID srv haddr ops cat ⟨hsrv, hdistinct, hserver⟩
  exact ⟨h.1.2.1, h.1.2.2, h.2⟩

theorem succeeds_iff (eff : AddPeerEffects) :
    eff.succeeds = true ↔
      eff.serverQueryFails = false ∧ (∃ keys, eff.generateKeys = .ok keys) ∧
        eff.peerQueryError = none ∧ eff.createFails = false ∧ eff.addPeerError = none ∧
        eff.addRouteError = none ∧ eff.addIptablesError = none := by
  unfold AddPeerEffects.succeeds
  cases hk : eff.generateKeys <;> simp [Option.isNone_iff_eq_none, and_assoc]

/-- An `AddPeer` without failures inserts one row carrying the allocated address. -/
theorem AddPeer_of_succeeds (cat : Catalog) (userID : Nat) (req : AddPeerRequest)
    (eff : AddPeerEffects) (srv : WireguardServer) (ip : ByteString)
    (hsrv : cat.firstServer false userID = some srv) (hok : eff.succeeds = true)
    (halloc : allocatePeerIP (cat.findPeers none) srv.ID srv.WgAddress = .ok ip) :
    ∃ row, row.PeerAddress = ip ∧ row.ServerID = srv.ID ∧
      (AddPeer cat userID (some req) eff).1.peers = cat.peers ++ [row] ∧
      (AddPeer cat userID (some req) eff).1.servers = cat.servers ∧
      (AddPeer cat userID (some req) eff).2.1 = .created row := by
  obtain ⟨h1, ⟨keys, h2⟩, h3, h4, h5, h6, h7⟩ := (succeeds_iff eff).mp hok
  obtain ⟨privateKey, publicKey⟩ := keys
  unfold AddPeer
  simp only [h1, hsrv, h2, h3, halloc, h4, h5, h6, h7, Catalog.create, Bool.false_eq_true, ite_false]
  generalize (if req.AllowedIPs = [] then ip ++ lit "/32" else req.AllowedIPs) = allowedIPs
  split
  · exact ⟨_, by unfold WireguardPeer.BeforeCreate; split <;> rfl,
      by unfold WireguardPeer.BeforeCreate; split <;> rfl, rfl, rfl, rfl⟩
  · exact ⟨_, by unfold WireguardPeer.BeforeCreate; split <;> rfl,
      by unfold WireguardPeer.BeforeCreate; split <;> rfl, rfl, rfl, rfl⟩

/-- An `AddPeer` whose allocation fails leaves the catalog as it was. -/
theorem AddPeer_of_alloc_error (cat : Catalog) (userID : Nat) (req : AddPeerRequest)
    (eff : AddPeerEffects) (srv : WireguardServer) (e : AllocError)
    (hsrv : cat.firstServer false userID = some srv) (hok : eff.succeeds = true)
    (halloc : allocatePeerIP (cat.findPeers none) srv.ID srv.WgAddress = .error e) :
    AddPeer cat userID (some req) eff = (cat, .allocateFailed e, [.GenerateKeys]) := by
  obtain ⟨h1, ⟨keys, h2⟩, h3, h4, h5, h6, h7⟩ := (succeeds_iff eff).mp hok
  obtain ⟨privateKey, publicKey⟩ := keys
  unfold AddPeer
  simp only [h1, hsrv, h2, h3, halloc]

theorem dottedQuad_mem_range (A B C j n : Nat) :
    dottedQuad A B C n ∈ (List.range' 2 j).map (dottedQuad A B C) ↔ 2 ≤ n ∧ n < 2 + j := by
  simp only [List.mem_map, List.mem_range', dottedQuad_inj]
  constructor
  · rintro ⟨a, ⟨i, hi, rfl⟩, rfl⟩
    omega
  · rintro ⟨h1, h2⟩
    exact ⟨n, ⟨n - 2, by omega, by omega⟩, rfl⟩

/-- Successful additions to a server whose live addresses are `A.B.C.2 .. A.B.C.(j+1)`. -/
theorem runPeerOps_adds (A B C userID : Nat) (srv : WireguardServer)
    (haddr : srv.WgAddress = serverCIDR A B C)
    (calls : List (AddPeerRequest × AddPeerEffects)) :
    ∀ (cat : Catalog) (j : Nat), cat.firstServer false userID = some srv →
      cat.peerAddresses srv.ID = (List.range' 2 j).map (dottedQuad A B C) →
      j + calls.length ≤ 253 → (∀ c ∈ calls, c.2.succeeds = true) →
      (runPeerOps userID cat (calls.map (fun c => PeerOp.add (some c.1) c.2))).1.firstServer
          false userID = some srv ∧
      (runPeerOps userID cat (calls.map (fun c => PeerOp.add (some c.1) c.2))).1.peerAddresses
          srv.ID = (List.range' 2 (j + calls.length)).map (dottedQuad A B C) ∧
      ∀ k, k < calls.length → ∃ p,
        (runPeerOps userID cat (calls.map (fun c => PeerOp.add (some c.1) c.2))).2[k]? =
          some (.add (.created p)) ∧ p.PeerAddress = dottedQuad A B C (j + k + 2) := by
  induction calls with
  | nil =>
    intro cat j hsrv hpeers _ _
    exact ⟨hsrv, by simpa using hpeers, by simp⟩
  | cons c calls ih =>
    intro cat j hsrv hpeers hlen hok
    simp only [List.length_cons] at hlen
    have halloc : allocatePeerIP (cat.findPeers none) srv.ID srv.WgAddress
        = .ok (dottedQuad A B C (j + 2)) := by
      rw [haddr]
      refine (allocatePeerIP_ok_iff (cat.findPeers none) srv.ID A B C
        (cat.peers.filter (fun peer => peer.ServerID == srv.ID)) rfl _).mpr
        ⟨j + 2, by omega, by omega, rfl, ?_, ?_⟩
      · show dottedQuad A B C (j + 2) ∉ cat.peerAddresses srv.ID
        rw [hpeers, dottedQuad_mem_range]
        omega
      · intro m hm2 hmj
        show dottedQuad A B C m ∈ cat.peerAddresses srv.ID
        rw [hpeers, dottedQuad_mem_range]
        omega
    obtain ⟨row, hrow, hrowsrv, hp, hs, hresp⟩ := AddPeer_of_succeeds cat userID c.1 c.2 srv _ hsrv
      (hok c (List.mem_cons_self _ _)) halloc
    have hsrv1 : (AddPeer cat userID (some c.1) c.2).1.firstServer false userID = some srv := by
      rw [firstServer_of_servers_eq cat _ hs]; exact hsrv
    have hpeers1 : (AddPeer cat userID (some c.1) c.2).1.peerAddresses srv.ID
        = (List.range' 2 (j + 1)).map (dottedQuad A B C) := by
      have := peerAddresses_append cat _ row hp
      rw [hrowsrv, hrow, hpeers] at this
      rw [this, List.range'_concat, List.map_append]
      simp [Nat.add_comm]
    have hrec := ih _ (j + 1) hsrv1 hpeers1 (by omega)
      (fun c' hc' => hok c' (List.mem_cons_of_mem _ hc'))
    simp only [List.map_cons, runPeerOps, PeerOp.run, List.length_cons]
    refine ⟨hrec.1, ?_, ?_⟩
    · rw [hrec.2.1]
      congr 2
      omega
    · intro k hk
      cases k with
      | zero =>
        refine ⟨row, ?_, ?_⟩
        · simp [hresp]
        · rw [hrow]
      | succ k =>
        obtain ⟨p, hp1, hp2⟩ := hrec.2.2 k (by omega)
        refine ⟨p, ?_, ?_⟩
        · simpa using hp1
        · rw [hp2]
          congr 1
          omega

/-- Claim C4.  From an empty peer set on a server `A.B.C.1/24`, 253 `AddPeer` calls during
which nothing fails each create a peer, the call number `k + 1` receiving `A.B.C.(k + 2)`;
the next call fails with the subnet-exhausted error and leaves the catalog as it was. -/
theorem subnet_exhaustion (A B C userID : Nat) (srv : WireguardServer) (cat : Catalog)
    (hsrv : cat.firstServer false userID = some srv) (haddr : srv.WgAddress = serverCIDR A B C)
    (hempty : cat.peerAddresses srv.ID = [])
    (calls : List (AddPeerRequest × AddPeerEffects)) (hlen : calls.length = 253)
    (hok : ∀ c ∈ calls, c.2.succeeds = true)
    (req : AddPeerRequest) (eff : AddPeerEffects) (hlast : eff.succeeds = true) :
    (∀ k, k < 253 → ∃ p,
      (runPeerOps userID cat (calls.map (fun c => PeerOp.add (some c.1) c.2))).2[k]? =
        some (.add (.created p)) ∧ p.PeerAddress = dottedQuad A B C (k + 2)) ∧
    AddPeer (runPeerOps userID cat (calls.map (fun c => PeerOp.add (some c.1) c.2))).1 userID
        (some req) eff =
      ((runPeerOps userID cat (calls.map (fun c => PeerOp.add (some c.1) c.2))).1,
        .allocateFailed .noAvailableIP, [.GenerateKeys]) := by
  have h := runPeerOps_adds A B C userID srv haddr calls cat 0 hsrv (by simpa using hempty)
    (by omega) hok
  rw [hlen] at h
  refine ⟨fun k hk => ?_, ?_⟩
  · obtain ⟨p, hp1, hp2⟩ := h.2.2 k hk
    exact ⟨p, hp1, by simpa using hp2⟩
  · refine AddPeer_of_alloc_error _ userID req eff srv _ h.1 hlast ?_
    rw [haddr]
    refine (allocatePeerIP_error_iff _ srv.ID A B C _ rfl _).mpr ⟨rfl, ?_⟩
    intro k hk2 hk254
    show dottedQuad A B C k ∈ Catalog.peerAddresses _ srv.ID
    rw [h.2.1, dottedQuad_mem_range]
    omega

/-- Claim C6.  For a user id of at least 6 bytes and a base port that keeps the port inside
the 64-bit `int`, a successful `ProvisionUserNetwork` returns a descriptor with
`ns_name = wg_<uid>`, interface `wg0`, `wg_port = base_port + h mod 10000` and
`wg_address = 10.100.<sid>.1/24`, where `h = fnv1a32(uid)` and `sid = h mod 254 + 1`, and
it has called the services with `veth-h-<uid[:6]>`, `veth-ns-<uid[:6]>`,
`<base_subnet>.<sid>.1/30` and `<base_subnet>.<sid>.2/30`, whatever keys were generated and
whatever the commands answered. -/
theorem ProvisionUserNetwork_derivation (s : UserNetworkService) (user : User)
    (eff : ProvisionEffects) (wgServer : WireguardServer)
    (hlen : 6 ≤ user.UserUID.length)
    (hport : -(2 ^ 63) ≤ s.basePort ∧ s.basePort + 9999 < 2 ^ 63)
    (hok : (ProvisionUserNetwork s user eff).1 = .ok wgServer) :
    wgServer.Namespace = lit "wg_" ++ user.UserUID ∧
    wgServer.WgInterface = lit "wg0" ∧
    wgServer.WgPort = s.basePort + (fnv1a32 user.UserUID : Int) % 10000 ∧
    wgServer.WgAddress =
      lit "10.100." ++ formatInt ((fnv1a32 user.UserUID : Int) % 254 + 1) ++ lit ".1/24" ∧
    ∃ privateKey publicKey configPath,
      eff.generateKeys = .ok (privateKey, publicKey) ∧ eff.createConfig = .ok configPath ∧
      (ProvisionUserNetwork s user eff).2 =
        [.CreateNamespace (lit "wg_" ++ user.UserUID),
         .CreateVethPair (lit "veth-h-" ++ user.UserUID.take 6)
           (lit "veth-ns-" ++ user.UserUID.take 6) (lit "wg_" ++ user.UserUID)
           (s.baseSubnet ++ lit "." ++ formatInt ((fnv1a32 user.UserUID : Int) % 254 + 1)
             ++ lit ".2/30")
           (s.baseSubnet ++ lit "." ++ formatInt ((fnv1a32 user.UserUID : Int) % 254 + 1)
             ++ lit ".1/30"),
         .EnableNAT
           (s.baseSubnet ++ lit "." ++ formatInt ((fnv1a32 user.UserUID : Int) % 254 + 1)
             ++ lit ".0/30") s.outInterface,
         .GenerateKeys,
         .CreateConfig user.UserUID
           { InterfaceName := lit "wg0",
             ListenPort := s.basePort + (fnv1a32 user.UserUID : Int) % 10000,
             PrivateKey := privateKey, PublicKey := publicKey,
             Address := lit "10.100." ++ formatInt ((fnv1a32 user.UserUID : Int) % 254 + 1)
               ++ lit ".1/24",
             VethInterface := lit "veth-ns-" ++ user.UserUID.take 6,
             OutInterface := s.outInterface },
         .StartWireguardInNamespace (lit "wg_" ++ user.UserUID) configPath,
         .SetupPortForwarding s.outInterface
           (s.basePort + (fnv1a32 user.UserUID : Int) % 10000)
           ((Split (s.baseSubnet ++ lit "." ++
             formatInt ((fnv1a32 user.UserUID : Int) % 254 + 1) ++ lit ".2/30") slash).getD 0 [])
           (s.basePort + (fnv1a32 user.UserUID : Int) % 10000) (lit "udp")] := by
  have hwrap : wrapInt64 (s.basePort + (fnv1a32 user.UserUID : Int) % 10000)
      = s.basePort + (fnv1a32 user.UserUID : Int) % 10000 := by
    unfold wrapInt64
    omega
  unfold ProvisionUserNetwork at hok ⊢
  simp only [generateNamespaceName, hashUserUID, Nat.not_lt.mpr hlen, ite_false, hwrap] at hok ⊢
  cases h1 : eff.createNamespace <;> simp only [h1] at hok ⊢
  case some => cases hok
  cases h2 : eff.createVethPair <;> simp only [h2] at hok ⊢
  case some => cases hok
  cases h3 : eff.enableNAT <;> simp only [h3] at hok ⊢
  case some => cases hok
  cases h4 : eff.generateKeys <;> simp only [h4] at hok ⊢
  case error => cases hok
  cases h5 : eff.createConfig <;> simp only [h5] at hok ⊢
  case error => cases hok
  cases h6 : eff.startWireguard <;> simp only [h6] at hok ⊢
  case some => cases hok
  cases h7 : eff.setupPortForwarding <;> simp only [h7] at hok ⊢
  case some => cases hok
  rename_i keys configPath
  simp only [ProvisionResult.ok.injEq] at hok
  subst hok
  exact ⟨rfl, rfl, rfl, rfl, keys.1, keys.2, configPath, rfl, rfl, rfl⟩

/-- Claim C7, the code at the failing input.  On the interface line
`PRIV<TAB>PUB<TAB>51820<TAB>off` the parser reports the third field as public key and reads
the listen port from the fourth, which is no number: `public_key = "51820"`,
`listen_port = 0`. -/
theorem parseWireguardDump_interface_line_shifted :
    parseWireguardDump "PRIV\tPUB\t51820\toff".toList "wg0".toList =
      .ok { Interface := "wg0".toList, PublicKey := "51820".toList, ListenPort := 0,
            PeerCount := 0, TotalRx := 0, TotalTx := 0, Peers := [] } := by
  decide

theorem encodeDump_exampleStats :
    encodeDump "PRIV".toList exampleStats =
      "PRIV\tPUB\t51820\toff\nPK\t(none)\t1.2.3.4:1000\t10.100.5.2/32\t1700000000\t1024\t2048\t25\n".toList := by
  decide

/-- Claim C9, the code at the failing input.  The statistics of scenario S4, written in the
dump format and parsed again, come back with `listen_port = 0` instead of `51820` (and the
port as public key); the peer fields and the totals are unchanged. -/
theorem parseWireguardDump_encodeDump_listen_port :
    parseWireguardDump (encodeDump "PRIV".toList exampleStats) "wg0".toList =
      .ok exampleParsed := by
  decide

/-- Claim C8, counterexample.  An interface line of three fields is accepted: the parser
returns statistics and no error. -/
theorem parseWireguardDump_short_interface_line_accepted :
    (Fields ((splitLines (TrimSpace "PRIV\tPUB\t51820".toList)).getD 0 [])).length = 3 ∧
    parseWireguardDump "PRIV\tPUB\t51820".toList "wg0".toList =
      .ok { Interface := "wg0".toList, PublicKey := [], ListenPort := 0, PeerCount := 0,
            TotalRx := 0, TotalTx := 0, Peers := [] } := by
  decide

theorem parsePeerLine_interface (stats : WireguardServerStats) (line : Text) :
    (parsePeerLine stats line).PublicKey = stats.PublicKey ∧
      (parsePeerLine stats line).ListenPort = stats.ListenPort ∧
      (parsePeerLine stats line).Interface = stats.Interface := by
  unfold parsePeerLine
  simp only
  split
  · exact ⟨rfl, rfl, rfl⟩
  · cases ParseInt ((Fields line).getD 5 []) <;> cases ParseInt ((Fields line).getD 6 []) <;>
      exact ⟨rfl, rfl, rfl⟩

theorem foldl_parsePeerLine_interface (lines : List Text) :
    ∀ stats : WireguardServerStats,
      (lines.foldl parsePeerLine stats).PublicKey = stats.PublicKey ∧
      (lines.foldl parsePeerLine stats).ListenPort = stats.ListenPort ∧
      (lines.foldl parsePeerLine stats).Interface = stats.Interface := by
  induction lines with
  | nil => intro stats; exact ⟨rfl, rfl, rfl⟩
  | cons l ls ih =>
    intro stats
    have h1 := ih (parsePeerLine stats l)
    have h2 := parsePeerLine_interface stats l
    simp only [List.foldl_cons]
    exact ⟨h1.1.trans h2.1, h1.2.1.trans h2.2.1, h1.2.2.trans h2.2.2⟩

theorem splitLines_length_ne_zero (s : Text) : (splitLines s).length ≠ 0 := by
  unfold splitLines List.splitOn
  have := List.splitOnP_ne_nil (fun c => c == '\n') s
  intro h
  exact this (List.length_eq_zero.mp h)

/-- The parser never takes its error branch. -/
theorem parseWireguardDump_eq (output interfaceName : Text) :
    parseWireguardDump output interfaceName =
      .ok { ((splitLines (TrimSpace output)).drop 1).foldl parsePeerLine
              (parseInterfaceLine (newStats interfaceName)
                ((splitLines (TrimSpace output)).getD 0 [])) with
            PeerCount := ((((splitLines (TrimSpace output)).drop 1).foldl parsePeerLine
              (parseInterfaceLine (newStats interfaceName)
                ((splitLines (TrimSpace output)).getD 0 []))).Peers.length : Nat) } := by
  unfold parseWireguardDump
  simp only [splitLines_length_ne_zero, ite_false]

/-- What the code reads from an interface line of at least four fields: the third field as
public key, the fourth as listen port (0 when it is no number). -/
theorem parseWireguardDump_interface_fields (output interfaceName : Text)
    (hlong : 4 ≤ (Fields ((splitLines (TrimSpace output)).getD 0 [])).length) :
    ∃ stats, parseWireguardDump output interfaceName = .ok stats ∧
      stats.PublicKey = (Fields ((splitLines (TrimSpace output)).getD 0 [])).getD 2 [] ∧
      stats.ListenPort =
        (Atoi ((Fields ((splitLines (TrimSpace output)).getD 0 [])).getD 3 [])).getD 0 := by
  refine ⟨_, parseWireguardDump_eq output interfaceName, ?_⟩
  have h := foldl_parsePeerLine_interface ((splitLines (TrimSpace output)).drop 1)
    (parseInterfaceLine (newStats interfaceName) ((splitLines (TrimSpace output)).getD 0 []))
  simp only
  rw [h.1, h.2.1]
  unfold parseInterfaceLine
  simp only [ge_iff_le, hlong, ite_true]
  cases Atoi ((Fields ((splitLines (TrimSpace output)).getD 0 [])).getD 3 []) <;>
    exact ⟨rfl, rfl⟩

/-- Claim C8, amended.  For a dump output that is not empty after trimming and whose
interface line has fewer than 4 fields, `parseWireguardDump` returns no error: it returns
statistics with an empty public key and listen port 0. -/
theorem parseWireguardDump_short_interface_line (output interfaceName : Text)
    (_hnonempty : TrimSpace output ≠ [])
    (hshort : (Fields ((splitLines (TrimSpace output)).getD 0 [])).length < 4) :
    ∃ stats, parseWireguardDump output interfaceName = .ok stats ∧
      stats.PublicKey = [] ∧ stats.ListenPort = 0 := by
  refine ⟨_, parseWireguardDump_eq output interfaceName, ?_⟩
  have h := foldl_parsePeerLine_interface ((splitLines (TrimSpace output)).drop 1)
    (parseInterfaceLine (newStats interfaceName) ((splitLines (TrimSpace output)).getD 0 []))
  have hi : parseInterfaceLine (newStats interfaceName)
      ((splitLines (TrimSpace output)).getD 0 []) = newStats interfaceName := by
    unfold parseInterfaceLine
    simp only [ge_iff_le, Nat.not_le.mpr hshort, ite_false]
  rw [hi] at h
  simp only
  rw [hi]
  exact ⟨h.1, h.2.1⟩

theorem wrapInt64_add_left (a b : Int) : wrapInt64 (wrapInt64 a + b) = wrapInt64 (a + b) := by
  unfold wrapInt64
  omega

theorem parsePeerLine_totals (stats : WireguardServerStats) (line : Text)
    (h : TotalsInvariant stats) : TotalsInvariant (parsePeerLine stats line) := by
  obtain ⟨hrx, htx⟩ := h
  unfold parsePeerLine
  simp only
  split
  · exact ⟨hrx, htx⟩
  · cases ParseInt ((Fields line).getD 4 []) <;> cases ParseInt ((Fields line).getD 5 []) <;>
      cases ParseInt ((Fields line).getD 6 []) <;> cases Atoi ((Fields line).getD 7 []) <;>
      (simp only [TotalsInvariant, sumInt64, List.map_append, List.map_cons, List.map_nil,
        List.sum_append, List.sum_cons, List.sum_nil, add_zero]
       try split
       all_goals
         simp only [hrx, htx, sumInt64, wrapInt64_add_left, add_zero, and_self])

theorem foldl_parsePeerLine_totals (lines : List Text) :
    ∀ stats, TotalsInvariant stats → TotalsInvariant (lines.foldl parsePeerLine stats) := by
  induction lines with
  | nil => intro stats h; exact h
  | cons l ls ih =>
    intro stats h
    exact ih _ (parsePeerLine_totals stats l h)

theorem sumInt64_nil : sumInt64 [] = 0 := by decide

theorem parseInterfaceLine_totals (interfaceName line : Text) :
    TotalsInvariant (parseInterfaceLine (newStats interfaceName) line) := by
  unfold parseInterfaceLine
  simp only
  split
  · split <;> exact ⟨sumInt64_nil.symm, sumInt64_nil.symm⟩
  · exact ⟨sumInt64_nil.symm, sumInt64_nil.symm⟩

/-- Claim C10.  In the statistics `parseWireguardDump` returns, `peer_count` is the length of
the peer list and `total_rx`, `total_tx` are the sums of the peers' counters, as 64-bit
signed integers. -/
theorem parseWireguardDump_totals (output interfaceName : Text) (stats : WireguardServerStats)
    (h : parseWireguardDump output interfaceName = .ok stats) :
    stats.PeerCount = stats.Peers.length ∧
      stats.TotalRx = sumInt64 (stats.Peers.map (fun p => p.TransferRx)) ∧
      stats.TotalTx = sumInt64 (stats.Peers.map (fun p => p.TransferTx)) := by
  rw [parseWireguardDump_eq] at h
  simp only [Except.ok.injEq] at h
  subst h
  have hinv := foldl_parsePeerLine_totals ((splitLines (TrimSpace output)).drop 1) _
    (parseInterfaceLine_totals interfaceName ((splitLines (TrimSpace output)).getD 0 []))
  exact ⟨rfl, hinv.1, hinv.2⟩

/-! ## Peer lines of the dump -/

theorem parsePeerLine_short (stats : WireguardServerStats) (line : Text)
    (h : isPeerLine line = false) : parsePeerLine stats line = stats := by
  unfold parsePeerLine
  have h8 : (Fields line).length < 8 := by
    simpa [isPeerLine] using h
  simp only [h8, ite_true]

theorem parsePeerLine_long (stats : WireguardServerStats) (line : Text)
    (h : isPeerLine line = true) :
    (parsePeerLine stats line).Peers = stats.Peers ++ [peerOfFields (Fields line)] := by
  unfold parsePeerLine
  have h8 : ¬ (Fields line).length < 8 := by
    simpa [isPeerLine] using h
  simp only [h8, ite_false]
  unfold peerOfFields
  cases ParseInt ((Fields line).getD 4 []) <;> cases ParseInt ((Fields line).getD 5 []) <;>
    cases ParseInt ((Fields line).getD 6 []) <;> cases Atoi ((Fields line).getD 7 []) <;>
    simp only [Option.getD_none, Option.getD_some] <;> (try split_ifs) <;> rfl

theorem foldl_parsePeerLine_filter (lines : List Text) :
    ∀ stats, lines.foldl parsePeerLine stats = (lines.filter isPeerLine).foldl parsePeerLine stats := by
  induction lines with
  | nil => intro stats; rfl
  | cons l ls ih =>
    intro stats
    cases h : isPeerLine l
    · simp only [List.foldl_cons, List.filter_cons, h, Bool.false_eq_true, ite_false,
        parsePeerLine_short stats l h]
      exact ih stats
    · simp only [List.foldl_cons, List.filter_cons, h, ite_true]
      exact ih _

theorem foldl_parsePeerLine_peers (lines : List Text) :
    ∀ stats, (lines.foldl parsePeerLine stats).Peers =
      stats.Peers ++ (lines.filter isPeerLine).map (fun l => peerOfFields (Fields l)) := by
  induction lines with
  | nil => intro stats; simp
  | cons l ls ih =>
    intro stats
    cases h : isPeerLine l
    · simp only [List.foldl_cons, List.filter_cons, h, Bool.false_eq_true, ite_false,
        parsePeerLine_short stats l h]
      exact ih stats
    · simp only [List.foldl_cons, List.filter_cons, h, ite_true, List.map_cons]
      rw [ih, parsePeerLine_long stats l h]
      simp

theorem digitChar_toNat (d : Nat) (h : d < 10) :
    (Char.ofNat (digitByte d).toNat).toNat = 48 + d := by
  interval_cases d <;> rfl

theorem decimalDigits_ne_nil (fuel n : Nat) : decimalDigits (fuel + 1) n ≠ [] := by
  unfold decimalDigits
  split <;> simp

theorem showInt_ofNat (n : Nat) : showInt (n : Int) =
    ((decimalDigits (n + 1) n).reverse).map (fun d => Char.ofNat (digitByte d).toNat) := by
  have hneg : ¬ ((n : Int) < 0) := by omega
  unfold showInt formatInt formatNat
  simp only [hneg, ite_false, Int.toNat_ofNat, List.map_map, List.map_reverse]
  rfl

/-- Reading back a printed non-negative number. -/
theorem parseDigits_showInt (n : Nat) : parseDigits (showInt (n : Int)) = some n := by
  have hfmt := showInt_ofNat n
  rw [hfmt]
  unfold parseDigits
  have hne : ((decimalDigits (n + 1) n).reverse.map
      (fun d => Char.ofNat (digitByte d).toNat)).isEmpty = false := by
    have := decimalDigits_ne_nil n n
    cases h : decimalDigits (n + 1) n with
    | nil => exact absurd h this
    | cons a l => simp
  have hall : ((decimalDigits (n + 1) n).reverse.map
      (fun d => Char.ofNat (digitByte d).toNat)).all
        (fun c => decide (48 ≤ c.toNat ∧ c.toNat ≤ 57)) = true := by
    rw [List.all_eq_true]
    intro c hc
    rw [List.mem_map] at hc
    obtain ⟨d, hd, rfl⟩ := hc
    have hlt := decimalDigits_lt (n + 1) n d (List.mem_reverse.mp hd)
    rw [digitChar_toNat d hlt]
    simp
    omega
  simp only [hne, hall, Bool.false_eq_true, ite_false, ite_true, Option.some.injEq]
  rw [List.foldl_map, List.foldl_reverse]
  have key : ∀ ds : List Nat, (∀ d ∈ ds, d < 10) →
      List.foldr (fun x y => y * 10 + ((Char.ofNat (digitByte x).toNat).toNat - 48)) 0 ds
        = digitsValue ds := by
    intro ds hds
    induction ds with
    | nil => rfl
    | cons d ds ih =>
      have hd := hds d (List.mem_cons_self _ _)
      simp only [List.foldr_cons, digitsValue]
      rw [ih (fun x hx => hds x (List.mem_cons_of_mem _ hx)), digitChar_toNat d hd,
        digitByte_toNat d hd]
      simp only [digitsValue]
      omega
  rw [key _ (decimalDigits_lt (n + 1) n), digitsValue_decimalDigits (n + 1) n (by omega)]

theorem showInt_head_digit (n : Nat) :
    ∃ c rest, showInt (n : Int) = c :: rest ∧ c ≠ '+' ∧ c ≠ '-' := by
  have hfmt := showInt_ofNat n
  cases h : showInt (n : Int) with
  | nil =>
    have := parseDigits_showInt n
    rw [h] at this
    simp [parseDigits] at this
  | cons c rest =>
    refine ⟨c, rest, rfl, ?_⟩
    have hc : c ∈ showInt (n : Int) := by rw [h]; exact List.mem_cons_self _ _
    rw [hfmt, List.mem_map] at hc
    obtain ⟨d, hd, rfl⟩ := hc
    have hlt := decimalDigits_lt (n + 1) n d (List.mem_reverse.mp hd)
    interval_cases d <;> decide

/-- Reading back a printed number that fits a 64-bit `int`. -/
theorem ParseInt_showInt (n : Nat) (h : n < 2 ^ 63) : ParseInt (showInt (n : Int)) = some (n : Int) := by
  obtain ⟨c, rest, hs, hplus, hminus⟩ := showInt_head_digit n
  have hp := parseDigits_showInt n
  rw [hs] at hp ⊢
  unfold ParseInt
  simp only [hplus, hminus, ite_false, hp, h, ite_true]

theorem parseInterfaceLine_peers (stats : WireguardServerStats) (line : Text) :
    (parseInterfaceLine stats line).Peers = stats.Peers := by
  unfold parseInterfaceLine
  simp only
  split
  · split <;> rfl
  · rfl

/-- The peers of the result: one per line of at least 8 fields after the first, in order. -/
theorem parseWireguardDump_peers (output interfaceName : Text) :
    ∃ stats, parseWireguardDump output interfaceName = .ok stats ∧
      stats.Peers = (((dumpLines output).drop 1).filter isPeerLine).map
        (fun l => peerOfFields (Fields l)) := by
  refine ⟨_, parseWireguardDump_eq output interfaceName, ?_⟩
  simp only
  rw [foldl_parsePeerLine_peers, parseInterfaceLine_peers]
  simp [newStats, dumpLines]

/-- Claim C11.  Every line of at least 8 fields after the first gives one peer, in order; its
`latest_handshake` is the zero time when the handshake field is `0` and `time.Unix(n, 0)`
when the field is the positive integer `n`; its `persistent_keepalive` is `0` when the
keepalive field is `off` and `n` when the field is the integer `n` (integers that fit a
64-bit `int`). -/
theorem parseWireguardDump_handshake_keepalive (output interfaceName : Text) :
    ∃ stats, parseWireguardDump output interfaceName = .ok stats ∧
      stats.Peers.length = (((dumpLines output).drop 1).filter isPeerLine).length ∧
      ∀ (i : Nat) (line : Text) (p : WireguardPeerStats),
        (((dumpLines output).drop 1).filter isPeerLine)[i]? = some line →
        stats.Peers[i]? = some p →
        ((Fields line).getD 4 [] = "0".toList → p.LatestHandshake = .zero) ∧
        (∀ n : Nat, 0 < n → n < 2 ^ 63 → (Fields line).getD 4 [] = showInt (n : Int) →
          p.LatestHandshake = .unix (n : Int)) ∧
        ((Fields line).getD 7 [] = "off".toList → p.PersistentKeepalive = 0) ∧
        (∀ n : Nat, n < 2 ^ 63 → (Fields line).getD 7 [] = showInt (n : Int) →
          p.PersistentKeepalive = (n : Int)) := by
  obtain ⟨stats, hparse, hpeers⟩ := parseWireguardDump_peers output interfaceName
  refine ⟨stats, hparse, by rw [hpeers, List.length_map], ?_⟩
  intro i line p hline hp
  rw [hpeers, List.getElem?_map, hline] at hp
  simp only [Option.map_some', Option.some.injEq] at hp
  subst hp
  refine ⟨?_, ?_, ?_, ?_⟩
  · intro h0
    simp only [peerOfFields, h0]
    decide
  · intro n hpos hlt hn
    simp only [peerOfFields, hn, ParseInt_showInt n hlt]
    have : (n : Int) > 0 := by omega
    simp [this]
  · intro hoff
    simp only [peerOfFields, hoff]
    decide
  · intro n hlt hn
    simp only [peerOfFields, hn, Atoi, ParseInt_showInt n hlt, Option.getD_some]

/-! ## Lines, fields and trimming -/

theorem not_mem_of_mem_splitOn {α : Type} [DecidableEq α] (a : α) (s : List α) :
    ∀ l ∈ s.splitOn a, a ∉ l := by
  induction s with
  | nil => simp
  | cons x xs ih =>
    intro l hl
    unfold List.splitOn at ih hl
    rw [List.splitOnP_cons] at hl
    by_cases hx : x = a
    · subst hx
      simp only [beq_self_eq_true, ite_true, List.mem_cons] at hl
      rcases hl with rfl | hl
      · simp
      · exact ih l hl
    · have hne : (x == a) = false := by simpa using hx
      simp only [hne, Bool.false_eq_true, ite_false] at hl
      have hnil := List.splitOnP_ne_nil (fun b => b == a) xs
      cases hs : List.splitOnP (fun b => b == a) xs with
      | nil => exact absurd hs hnil
      | cons y ys =>
        rw [hs] at hl ih
        simp only [List.modifyHead, List.mem_cons] at hl
        rcases hl with rfl | hl
        · have := ih y (List.mem_cons_self _ _)
          simp only [List.mem_cons, not_or]
          exact ⟨fun h => hx h.symm, this⟩
        · exact ih l (List.mem_cons_of_mem _ hl)

theorem splitOn_head_eq_takeWhile {α : Type} [DecidableEq α] (sep : α) (s : List α) :
    (s.splitOn sep).getD 0 [] = s.takeWhile (fun b => b != sep) := by
  induction s with
  | nil => simp
  | cons x xs ih =>
    unfold List.splitOn at ih ⊢
    rw [List.splitOnP_cons]
    by_cases hx : x = sep
    · subst hx
      simp
    · have hne : (x == sep) = false := by simpa using hx
      have hne2 : (x != sep) = true := by simpa using hx
      simp only [hne, Bool.false_eq_true, ite_false, List.takeWhile_cons, hne2, ite_true]
      have hnil := List.splitOnP_ne_nil (fun b => b == sep) xs
      cases hs : List.splitOnP (fun b => b == sep) xs with
      | nil => exact absurd hs hnil
      | cons y ys =>
        rw [hs] at ih
        simp only [List.getD_cons_zero] at ih
        simp [List.modifyHead, ih]

theorem splitOnP_append_sep {α : Type} (p : α → Bool) (l : List α) (c : α) (hc : p c = true) :
    (l ++ [c]).splitOnP p = l.splitOnP p ++ [[]] := by
  induction l with
  | nil => simp [List.splitOnP_cons, hc]
  | cons x xs ih =>
    rw [List.cons_append, List.splitOnP_cons, List.splitOnP_cons, ih]
    by_cases hx : p x = true
    · simp [hx]
    · simp only [hx, Bool.false_eq_true, ite_false]
      have hnil := List.splitOnP_ne_nil p xs
      cases hs : List.splitOnP p xs with
      | nil => exact absurd hs hnil
      | cons y ys => simp [List.modifyHead]

theorem Fields_append_space (l : Text) (c : Char) (hc : isSpace c = true) :
    Fields (l ++ [c]) = Fields l := by
  unfold Fields
  rw [splitOnP_append_sep isSpace l c hc, List.filter_append]
  simp

theorem Fields_append_spaces (ws : Text) (hws : ∀ c ∈ ws, isSpace c = true) :
    ∀ l : Text, Fields (l ++ ws) = Fields l := by
  induction ws with
  | nil => intro l; simp
  | cons c ws ih =>
    intro l
    have : l ++ c :: ws = (l ++ [c]) ++ ws := by simp
    rw [this, ih (fun x hx => hws x (List.mem_cons_of_mem _ hx)),
      Fields_append_space l c (hws c (List.mem_cons_self _ _))]

theorem Fields_cons_space (l : Text) (c : Char) (hc : isSpace c = true) :
    Fields (c :: l) = Fields l := by
  unfold Fields
  rw [List.splitOnP_cons]
  simp [hc]

theorem trimRight_append_spaces (s : Text) :
    ∃ ws : Text, (∀ c ∈ ws, isSpace c = true) ∧ s = trimRight s ++ ws := by
  refine ⟨((s.reverse).takeWhile isSpace).reverse, ?_, ?_⟩
  · intro c hc
    rw [List.mem_reverse] at hc
    exact List.mem_takeWhile_imp hc
  · unfold trimRight
    rw [← List.reverse_append, List.takeWhile_append_dropWhile, List.reverse_reverse]

theorem Fields_trimRight (s : Text) : Fields (trimRight s) = Fields s := by
  obtain ⟨ws, hws, hs⟩ := trimRight_append_spaces s
  conv_rhs => rw [hs]
  rw [Fields_append_spaces ws hws]

theorem Fields_dropWhile (s : Text) : Fields (s.dropWhile isSpace) = Fields s := by
  induction s with
  | nil => rfl
  | cons c s ih =>
    by_cases hc : isSpace c = true
    · rw [List.dropWhile_cons_of_pos hc, ih, Fields_cons_space s c hc]
    · rw [List.dropWhile_cons_of_neg hc]

theorem TrimSpace_eq (s : Text) : TrimSpace s = trimRight (s.dropWhile isSpace) := rfl

theorem Fields_of_all_space (s : Text) (h : ∀ c ∈ s, isSpace c = true) : Fields s = [] := by
  have := Fields_append_spaces s h []
  simpa [Fields] using this

theorem exists_not_space_of_Fields (s : Text) (h : Fields s ≠ []) :
    ∃ c ∈ s, isSpace c = false := by
  by_contra hcon
  push_neg at hcon
  exact h (Fields_of_all_space s (fun c hc => by simpa using hcon c hc))

theorem dropWhile_append_of_exists {α : Type} (p : α → Bool) (a b : List α)
    (h : ∃ x ∈ a, p x = false) : (a ++ b).dropWhile p = a.dropWhile p ++ b := by
  induction a with
  | nil => simp at h
  | cons x xs ih =>
    by_cases hx : p x = true
    · rw [List.cons_append, List.dropWhile_cons_of_pos hx, List.dropWhile_cons_of_pos hx]
      obtain ⟨y, hy, hpy⟩ := h
      rcases List.mem_cons.mp hy with rfl | hy
      · rw [hx] at hpy; cases hpy
      · exact ih ⟨y, hy, hpy⟩
    · rw [List.cons_append, List.dropWhile_cons_of_neg hx, List.dropWhile_cons_of_neg hx]
      rfl

theorem trimRight_append (a b : Text) (h : ∃ c ∈ b, isSpace c = false) :
    trimRight (a ++ b) = a ++ trimRight b := by
  unfold trimRight
  rw [List.reverse_append, dropWhile_append_of_exists isSpace b.reverse a.reverse
    (by obtain ⟨c, hc, hp⟩ := h; exact ⟨c, List.mem_reverse.mpr hc, hp⟩)]
  simp

theorem trimRight_sublist (s : Text) : ∀ c ∈ trimRight s, c ∈ s := by
  intro c hc
  unfold trimRight at hc
  rw [List.mem_reverse] at hc
  exact List.mem_reverse.mp ((List.dropWhile_sublist _).subset hc)

theorem intercalate_concat {α : Type} (sep : List α) (init : List (List α)) (last : List α) :
    List.intercalate sep (init ++ [last]) = (init.map (fun l => l ++ sep)).flatten ++ last := by
  induction init with
  | nil => simp [List.intercalate]
  | cons x xs ih =>
    cases hxs : xs ++ [last] with
    | nil => simp at hxs
    | cons y ys =>
      have h1 : List.intercalate sep (x :: xs ++ [last]) = x ++ sep ++ List.intercalate sep (xs ++ [last]) := by
        rw [List.cons_append, hxs]
        simp [List.intercalate, List.intersperse]
      rw [h1, ih]
      simp

/-- The lines of a text joined from lines whose last one is not blank and that does not
begin with white space: the same lines, the last one trimmed on the right. -/
theorem dumpLines_intercalate (init : List Text) (last : Text)
    (hnl : ∀ l ∈ init ++ [last], '\n' ∉ l)
    (hlast : ∃ c ∈ last, isSpace c = false)
    (hhead : (List.intercalate ['\n'] (init ++ [last])).dropWhile isSpace
      = List.intercalate ['\n'] (init ++ [last])) :
    dumpLines (List.intercalate ['\n'] (init ++ [last])) = init ++ [trimRight last] := by
  unfold dumpLines
  rw [TrimSpace_eq, hhead, intercalate_concat, trimRight_append _ _ hlast, ← intercalate_concat]
  unfold splitLines
  exact List.splitOn_intercalate (init ++ [trimRight last]) '\n'
    (by
      intro l hl
      rw [List.mem_append, List.mem_singleton] at hl
      rcases hl with hl | rfl
      · exact hnl l (List.mem_append_left _ hl)
      · intro hmem
        exact hnl last (by simp) (trimRight_sublist last _ hmem))
    (by simp)

theorem parseInterfaceLine_congr (stats : WireguardServerStats) (l l' : Text)
    (h : Fields l = Fields l') : parseInterfaceLine stats l = parseInterfaceLine stats l' := by
  unfold parseInterfaceLine
  rw [h]

theorem parsePeerLine_congr (stats : WireguardServerStats) (l l' : Text)
    (h : Fields l = Fields l') : parsePeerLine stats l = parsePeerLine stats l' := by
  unfold parsePeerLine
  rw [h]

theorem foldl_parsePeerLine_congr (ls : List Text) :
    ∀ (ls' : List Text) (stats : WireguardServerStats), ls.map Fields = ls'.map Fields →
      ls.foldl parsePeerLine stats = ls'.foldl parsePeerLine stats := by
  induction ls with
  | nil =>
    intro ls' stats h
    cases ls' with
    | nil => rfl
    | cons a b => simp at h
  | cons l ls ih =>
    intro ls' stats h
    cases ls' with
    | nil => simp at h
    | cons l' ls' =>
      simp only [List.map_cons, List.cons.injEq] at h
      simp only [List.foldl_cons]
      rw [parsePeerLine_congr stats l l' h.1]
      exact ih ls' _ h.2

/-- The result of the parser depends on the fields of the lines only. -/
theorem parseWireguardDump_congr (output output' interfaceName : Text)
    (h : (dumpLines output).map Fields = (dumpLines output').map Fields) :
    parseWireguardDump output interfaceName = parseWireguardDump output' interfaceName := by
  rw [parseWireguardDump_eq, parseWireguardDump_eq]
  have h0 : Fields ((splitLines (TrimSpace output)).getD 0 [])
      = Fields ((splitLines (TrimSpace output')).getD 0 []) := by
    simp only [dumpLines] at h
    cases h1 : splitLines (TrimSpace output) with
    | nil => exact absurd (by rw [h1]; rfl) (splitLines_length_ne_zero (TrimSpace output))
    | cons a as =>
      cases h2 : splitLines (TrimSpace output') with
      | nil => exact absurd (by rw [h2]; rfl) (splitLines_length_ne_zero (TrimSpace output'))
      | cons b bs =>
        rw [h1, h2] at h
        simp only [List.map_cons, List.cons.injEq] at h
        simpa using h.1
  have hrest : ((splitLines (TrimSpace output)).drop 1).map Fields
      = ((splitLines (TrimSpace output')).drop 1).map Fields := by
    have := congrArg (fun l => l.drop 1) h
    simpa [dumpLines, List.map_drop] using this
  rw [parseInterfaceLine_congr _ _ _ h0, foldl_parsePeerLine_congr _ _ _ hrest]

theorem parseWireguardDump_eq_parseLines (output interfaceName : Text) :
    parseWireguardDump output interfaceName = .ok (parseLines interfaceName (dumpLines output)) :=
  parseWireguardDump_eq output interfaceName

theorem parseLines_congr (interfaceName : Text) (ls ls' : List Text) (hne : ls ≠ [])
    (h : ls.map Fields = ls'.map Fields) :
    parseLines interfaceName ls = parseLines interfaceName ls' := by
  cases ls with
  | nil => exact absurd rfl hne
  | cons a as =>
    cases ls' with
    | nil => simp at h
    | cons b bs =>
      simp only [List.map_cons, List.cons.injEq] at h
      unfold parseLines
      simp only [List.drop_succ_cons, List.drop_zero, List.getD_cons_zero]
      rw [parseInterfaceLine_congr _ a b h.1, foldl_parsePeerLine_congr as bs _ h.2]

theorem parseLines_filter (interfaceName : Text) (l0 : Text) (rest : List Text) :
    parseLines interfaceName (l0 :: rest)
      = parseLines interfaceName (l0 :: rest.filter isPeerLine) := by
  unfold parseLines
  simp only [List.drop_succ_cons, List.drop_zero, List.getD_cons_zero]
  rw [foldl_parsePeerLine_filter rest]

theorem TrimSpace_head (s : Text) :
    TrimSpace s = [] ∨ ∃ c t, TrimSpace s = c :: t ∧ isSpace c = false := by
  rw [TrimSpace_eq]
  cases hd : s.dropWhile isSpace with
  | nil => left; rfl
  | cons c t =>
    right
    have hc : isSpace c = false := by
      have := List.head_dropWhile_not isSpace s (by rw [hd]; simp)
      simpa [hd] using this
    obtain ⟨ws, hws, hs⟩ := trimRight_append_spaces (c :: t)
    cases ht : trimRight (c :: t) with
    | nil =>
      rw [ht] at hs
      simp only [List.nil_append] at hs
      have := hws c (by rw [← hs]; exact List.mem_cons_self _ _)
      rw [hc] at this
      cases this
    | cons c' t' =>
      rw [ht] at hs
      simp only [List.cons_append, List.cons.injEq] at hs
      exact ⟨c', t', rfl, hs.1 ▸ hc⟩

theorem intercalate_cons_head {α : Type} (sep x : List α) (xs : List (List α)) :
    ∃ tail, List.intercalate sep (x :: xs) = x ++ tail := by
  cases xs with
  | nil => exact ⟨[], by simp [List.intercalate]⟩
  | cons y ys => exact ⟨sep ++ List.intercalate sep (y :: ys), by simp [List.intercalate, List.intersperse]⟩

theorem isSpace_newline : isSpace '\n' = true := by decide

theorem dumpLines_ne_nil (output : Text) : dumpLines output ≠ [] := by
  intro h
  exact splitLines_length_ne_zero (TrimSpace output) (by
    unfold dumpLines at h
    rw [h]; rfl)

/-- The fields of the lines of the text without its malformed peer lines. -/
theorem dumpLines_dropShortPeerLines (output : Text) (l0 : Text) (rest : List Text)
    (hlines : dumpLines output = l0 :: rest) :
    (dumpLines (dropShortPeerLines output)).map Fields
      = (l0 :: rest.filter isPeerLine).map Fields := by
  have hdrop : dropShortPeerLines output
      = List.intercalate ['\n'] (l0 :: rest.filter isPeerLine) := by
    unfold dropShortPeerLines
    rw [hlines]
    rfl
  have hnl : ∀ l ∈ l0 :: rest.filter isPeerLine, '\n' ∉ l := by
    intro l hl
    have hmem : l ∈ dumpLines output := by
      rw [hlines]
      rcases List.mem_cons.mp hl with rfl | hl
      · exact List.mem_cons_self _ _
      · exact List.mem_cons_of_mem _ (List.mem_of_mem_filter hl)
    exact not_mem_of_mem_splitOn '\n' (TrimSpace output) l hmem
  have hl0 : l0 = (TrimSpace output).takeWhile (fun b => b != '\n') := by
    have := splitOn_head_eq_takeWhile '\n' (TrimSpace output)
    unfold dumpLines splitLines at hlines
    rw [hlines] at this
    simpa using this
  rcases TrimSpace_head output with hempty | ⟨c, t, hct, hc⟩
  · -- the output is blank: one empty line
    have h1 : dumpLines output = [[]] := by
      unfold dumpLines
      rw [hempty]
      rfl
    rw [hlines] at h1
    simp only [List.cons.injEq] at h1
    obtain ⟨rfl, rfl⟩ := h1
    rw [hdrop]
    rfl
  · have hcn : (c != '\n') = true := by
      have : c ≠ '\n' := by
        rintro rfl
        rw [isSpace_newline] at hc
        cases hc
      simpa using this
    have hl0c : ∃ t0, l0 = c :: t0 := by
      rw [hl0, hct, List.takeWhile_cons, hcn]
      exact ⟨_, rfl⟩
    obtain ⟨t0, rfl⟩ := hl0c
    -- split the kept lines into the last one and those before it
    have hne : (c :: t0) :: rest.filter isPeerLine ≠ [] := by simp
    obtain ⟨init, last, hL⟩ : ∃ init last, (c :: t0) :: rest.filter isPeerLine = init ++ [last] :=
      ⟨_, _, (List.dropLast_append_getLast hne).symm⟩
    have hlast_mem : last ∈ (c :: t0) :: rest.filter isPeerLine := by
      rw [hL]; simp
    have hlast : ∃ x ∈ last, isSpace x = false := by
      rcases List.mem_cons.mp hlast_mem with rfl | hmem
      · exact ⟨c, List.mem_cons_self _ _, hc⟩
      · have hp : isPeerLine last = true := (List.mem_filter.mp hmem).2
        have h8 : 8 ≤ (Fields last).length := by simpa [isPeerLine] using hp
        exact exists_not_space_of_Fields last (by
          intro h0
          rw [h0] at h8
          simp at h8)
    have hhead : (List.intercalate ['\n'] (init ++ [last])).dropWhile isSpace
        = List.intercalate ['\n'] (init ++ [last]) := by
      rw [← hL]
      obtain ⟨tail, htail⟩ := intercalate_cons_head ['\n'] (c :: t0) (rest.filter isPeerLine)
      rw [htail, List.cons_append, List.dropWhile_cons_of_neg (by simp [hc])]
    rw [hdrop, hL, dumpLines_intercalate init last (by rw [← hL]; exact hnl) hlast hhead]
    simp [Fields_trimRight]

/-- Claim C12.  Malformed peer lines are silently skipped: on the dump text without the lines
after the first that have fewer than 8 fields the parser returns the same result, which is
never an error; the peers of the result are those of the lines of at least 8 fields after
the first, one each, in input order. -/
theorem parseWireguardDump_skips_short_lines (output interfaceName : Text) :
    parseWireguardDump (dropShortPeerLines output) interfaceName
      = parseWireguardDump output interfaceName ∧
    ∃ stats, parseWireguardDump output interfaceName = .ok stats ∧
      stats.Peers.length = (((dumpLines output).drop 1).filter isPeerLine).length ∧
      ∀ (i : Nat) (line : Text),
        (((dumpLines output).drop 1).filter isPeerLine)[i]? = some line →
        ∃ p, stats.Peers[i]? = some p ∧ p.PublicKey = (Fields line).getD 0 [] ∧
          p.Endpoint = (Fields line).getD 2 [] ∧ p.AllowedIPs = (Fields line).getD 3 [] := by
  constructor
  · cases hlines : dumpLines output with
    | nil => exact absurd hlines (dumpLines_ne_nil output)
    | cons l0 rest =>
      rw [parseWireguardDump_eq_parseLines, parseWireguardDump_eq_parseLines, hlines,
        parseLines_filter,
        parseLines_congr interfaceName _ _ (dumpLines_ne_nil _)
          (dumpLines_dropShortPeerLines output l0 rest hlines)]
  · obtain ⟨stats, hparse, hpeers⟩ := parseWireguardDump_peers output interfaceName
    refine ⟨stats, hparse, by rw [hpeers, List.length_map], ?_⟩
    intro i line hline
    refine ⟨peerOfFields (Fields line), ?_, rfl, rfl, rfl⟩
    rw [hpeers, List.getElem?_map, hline]
    rfl

/-! ## Runs of commands -/

theorem answered_append (env : Env) (n : Nat) (as bs : List Action) :
    answered env n (as ++ bs) = answered env n as ++ answered env (n + as.length) bs := by
  induction as generalizing n with
  | nil => simp [answered]
  | cons a as ih =>
    have h := ih (n + 1)
    rw [show n + 1 + as.length = n + (a :: as).length by simp; omega] at h
    show answered env n (a :: (as ++ bs)) = answered env n (a :: as) ++ _
    simp only [answered, h, List.cons_append]

theorem answered_length (env : Env) (n : Nat) (as : List Action) :
    (answered env n as).length = as.length := by
  induction as generalizing n with
  | nil => rfl
  | cons a as ih => simp [answered, ih]

theorem answered_actions (env : Env) (n : Nat) (as : List Action) :
    Log.actions (answered env n as) = as := by
  induction as generalizing n with
  | nil => rfl
  | cons a as ih =>
    have := ih (n + 1)
    simp only [Log.actions] at this ⊢
    simp [answered, this]

theorem actions_append (l1 l2 : Log) : Log.actions (l1 ++ l2) = l1.actions ++ l2.actions := by
  simp [Log.actions]

theorem perform_fst (env : Env) (log : Log) (a : Action) :
    (perform env log a).1 = env.answers log.length := rfl

theorem perform_snd (env : Env) (log : Log) (a : Action) :
    (perform env log a).2 = log ++ answered env log.length [a] := rfl

theorem runCommandsIgnoringErrors_eq (env : Env) (log : Log) (commands : List (List ByteString)) :
    runCommandsIgnoringErrors env log commands
      = log ++ answered env log.length (commands.map Action.exec) := by
  unfold runCommandsIgnoringErrors
  induction commands generalizing log with
  | nil => simp [answered]
  | cons c cs ih =>
    simp only [List.foldl_cons, List.map_cons, answered]
    rw [ih, perform_snd]
    simp [answered, List.length_append]

/-- A run of checked commands performs a prefix of them: all when it succeeds, and up to
the first failing one when it returns an error. -/
theorem runCommands_log (env : Env) (log : Log) (commands : List (List ByteString × String)) :
    ∃ k, k ≤ commands.length ∧
      (runCommands env log commands).2
        = log ++ answered env log.length ((commands.take k).map (fun c => Action.exec c.1)) ∧
      (∀ i, i + 1 < k → (env.answers (log.length + i)).failed = false) ∧
      ((runCommands env log commands).1 = none →
        k = commands.length ∧ ∀ i, i < k → (env.answers (log.length + i)).failed = false) ∧
      (∀ e, (runCommands env log commands).1 = some e →
        0 < k ∧ (env.answers (log.length + (k - 1))).failed = true ∧
          ((commands.map Prod.snd)[k - 1]? = some e)) := by
  induction commands generalizing log with
  | nil => exact ⟨0, by simp [runCommands, answered]⟩
  | cons c cs ih =>
    obtain ⟨argv, message⟩ := c
    unfold runCommands
    by_cases hf : (perform env log (.exec argv)).1.failed = true
    · simp only [hf, if_true]
      refine ⟨1, by simp, by simp [perform_snd], by intro i hi; omega, by simp, ?_⟩
      intro e he
      simp only [Option.some.injEq] at he
      refine ⟨by omega, by simpa [perform_fst] using hf, by simp [he]⟩
    · simp only [hf]
      obtain ⟨k, hk, hlog, hpre, hnone, hsome⟩ := ih (perform env log (.exec argv)).2
      have hlen : (perform env log (.exec argv)).2.length = log.length + 1 := by
        simp [perform_snd, answered]
      have hf0 : (env.answers log.length).failed = false := by
        simpa [perform_fst] using hf
      rw [hlen] at hlog hpre hnone hsome
      refine ⟨k + 1, by simp; omega, ?_, ?_, ?_, ?_⟩
      · simp only [if_false, Bool.false_eq_true]
        rw [hlog, perform_snd]
        simp [answered, List.append_assoc]
      · intro i hi
        cases i with
        | zero => exact hf0
        | succ j =>
          have := hpre j (by omega)
          rw [show log.length + (j + 1) = log.length + 1 + j by omega]
          exact this
      · intro h
        simp only [if_false, Bool.false_eq_true] at h
        obtain ⟨h1, h2⟩ := hnone h
        refine ⟨by simp [h1], ?_⟩
        intro i hi
        cases i with
        | zero => exact hf0
        | succ j =>
          have := h2 j (by omega)
          rw [show log.length + (j + 1) = log.length + 1 + j by omega]
          exact this
      · intro e h
        simp only [if_false, Bool.false_eq_true] at h
        obtain ⟨h1, h2, h3⟩ := hsome e h
        refine ⟨by omega, ?_, ?_⟩
        · rw [show log.length + (k + 1 - 1) = log.length + 1 + (k - 1) by omega]
          exact h2
        · have : k + 1 - 1 = (k - 1) + 1 := by omega
          rw [this]
          simpa using h3

/-- A single checked command: the log grows by it, the error is its failure. -/
theorem runCommands_single (env : Env) (log : Log) (argv : List ByteString) (message : String) :
    runCommands env log [(argv, message)]
      = (if (env.answers log.length).failed then some message else none,
          log ++ [(Action.exec argv, env.answers log.length)]) := by
  simp only [runCommands, perform]
  split <;> rfl

/-! ## Destroying a user network -/

/-- Claim C16.  `DestroyUserNetwork` is best-effort with the namespace deletion
authoritative: on a server whose namespace field is empty it returns nil and issues no
command; otherwise the run grows by exactly the four `iptables -D` deletions of the
published rules, `wg-quick down` in the namespace and `ip netns delete`, in this order, and
an error is returned if and only if the last of them, the namespace deletion, fails,
whatever the answers to the five commands before it. -/
theorem DestroyUserNetwork_best_effort (s : UserNetworkService) (w : WireguardService)
    (env : Env) (log : Log) (server : WireguardServer) (userUID : ByteString) :
    (server.Namespace = [] →
      Run.DestroyUserNetwork s w env log server userUID = (none, log)) ∧
    (server.Namespace ≠ [] →
      (Run.DestroyUserNetwork s w env log server userUID).2 =
        log ++ answered env log.length
          ((portForwardingRules (lit "-D") s.outInterface server.WgPort
              (s.baseSubnet ++ lit "." ++ formatInt (hashUserUID userUID % 254 + 1) ++ lit ".2")
              server.WgPort (lit "udp")).map Action.exec ++
            [.exec [lit "ip", lit "netns", lit "exec", server.Namespace, lit "wg-quick",
                lit "down", env.pathJoin [w.configDir, userUID, server.WgInterface ++ lit ".conf"]],
             .exec [lit "ip", lit "netns", lit "delete", server.Namespace]]) ∧
      ((Run.DestroyUserNetwork s w env log server userUID).1 ≠ none ↔
        (env.answers (log.length + 5)).failed = true)) := by
  constructor
  · intro h
    simp [Run.DestroyUserNetwork, h]
  · intro h
    simp only [Run.DestroyUserNetwork, h, if_false, NetnsService.RemovePortForwarding,
      WireguardService.StopWireguardInNamespace, NetnsService.DeleteNamespace,
      WireguardService.GetConfigPath, runCommands_single, runCommandsIgnoringErrors_eq]
    constructor
    · split <;> simp [portForwardingRules, answered, List.append_assoc]
    · split <;> rename_i heq <;>
        simp [answered] at heq ⊢ <;> simp [heq]

/-! ## The peer handlers -/

theorem create_fields (cat cat1 : Catalog) (b : Bool) (peer row : WireguardPeer)
    (h : cat.create b peer = some (cat1, row)) :
    row.AllowedIPs = peer.AllowedIPs ∧ row.PublicKey = peer.PublicKey := by
  unfold Catalog.create at h
  split at h
  · cases h
  · simp only [Option.some.injEq, Prod.mk.injEq] at h
    obtain ⟨_, rfl⟩ := h
    unfold WireguardPeer.BeforeCreate
    split <;> exact ⟨rfl, rfl⟩

/-- Claim C13.  For every `AddPeer` that answers `Created`: the row persisted carries the
allocated address as `peer_address` and the `allowed_ips` of the request, or
`<peer_ip>/32` when the request left it empty; the service calls are the key generation,
exactly one `AddPeer` (`set_peer`) whose allowed-ips argument is `<peer_ip>/32` whatever the
`allowed_ips` of the row, and then `AddRouteForPeer` and `AddIptablesRuleForPeer` if and only
if the `allowed_ips` of the row differs from both `<peer_ip>/32` and `0.0.0.0/0`; and the
`set_peer` call runs the one command `wg set <iface> peer <key> allowed-ips <peer_ip>/32` in
the namespace. -/
theorem AddPeer_created (cat cat1 : Catalog) (userID : Nat) (body : Option AddPeerRequest)
    (eff : AddPeerEffects) (row : WireguardPeer) (calls : List ServiceCall)
    (h : AddPeer cat userID body eff = (cat1, .created row, calls)) :
    ∃ req wgServer peerIP,
      body = some req ∧ cat.firstServer eff.serverQueryFails userID = some wgServer ∧
      allocatePeerIP (cat.findPeers eff.peerQueryError) wgServer.ID wgServer.WgAddress
        = .ok peerIP ∧
      row.PeerAddress = peerIP ∧
      row.AllowedIPs = (if req.AllowedIPs = [] then peerIP ++ lit "/32" else req.AllowedIPs) ∧
      cat1.peers = cat.peers ++ [row] ∧
      calls =
        [.GenerateKeys,
          .AddPeer wgServer.Namespace wgServer.WgInterface row.PublicKey (peerIP ++ lit "/32") []]
        ++ (if row.AllowedIPs ≠ peerIP ++ lit "/32" ∧ row.AllowedIPs ≠ lit "0.0.0.0/0" then
              [.AddRouteForPeer wgServer.Namespace wgServer.WgInterface row.AllowedIPs,
                .AddIptablesRuleForPeer wgServer.Namespace row.AllowedIPs]
            else []) ∧
      ∀ (env : Env) (log : Log),
        (WireguardService.AddPeer env log wgServer.Namespace wgServer.WgInterface row.PublicKey
            (peerIP ++ lit "/32") []).2 =
          log ++ [(.exec [lit "ip", lit "netns", lit "exec", wgServer.Namespace, lit "wg",
            lit "set", wgServer.WgInterface, lit "peer", row.PublicKey, lit "allowed-ips",
            peerIP ++ lit "/32"], env.answers log.length)] := by
  unfold AddPeer at h
  split at h
  · simp at h
  rename_i req
  split at h
  · simp at h
  rename_i x wgServer hsrv
  split at h
  · simp at h
  rename_i privateKey publicKey hkeys
  split at h
  · simp at h
  rename_i peerIP halloc
  refine ⟨req, wgServer, peerIP, rfl, hsrv, halloc, ?_⟩
  simp only at h
  generalize hA : (if req.AllowedIPs = [] then peerIP ++ lit "/32" else req.AllowedIPs)
    = allowedIPs at h
  split at h
  · simp at h
  rename_i cat2 peer hcreate
  have hcat := (create_spec _ _ _ _ _ hcreate).2.2.1
  have hfields : peer.PeerAddress = peerIP ∧ peer.AllowedIPs = allowedIPs ∧
      peer.PublicKey = publicKey := by
    have h2 := create_fields _ _ _ _ _ hcreate
    exact ⟨(create_spec _ _ _ _ _ hcreate).2.2.2.1, h2.1, h2.2⟩
  have hrun : ∀ (env : Env) (log : Log),
      (WireguardService.AddPeer env log wgServer.Namespace wgServer.WgInterface publicKey
          (peerIP ++ lit "/32") []).2 =
        log ++ [(.exec [lit "ip", lit "netns", lit "exec", wgServer.Namespace, lit "wg",
          lit "set", wgServer.WgInterface, lit "peer", publicKey, lit "allowed-ips",
          peerIP ++ lit "/32"], env.answers log.length)] := by
    intro env log
    simp [WireguardService.AddPeer, runCommands_single, addPeerArgv]
  split at h
  · simp at h
  split at h
  · rename_i hcond
    split at h
    · simp at h
    split at h
    · simp at h
    simp only [Prod.mk.injEq, AddPeerResponse.created.injEq] at h
    obtain ⟨h1, h2, h3⟩ := h
    subst h2
    rw [hfields.1, hfields.2.1, hfields.2.2]
    refine ⟨rfl, rfl, ?_, ?_, hrun⟩
    · rw [← h1, hcat]
    · rw [← h3, if_pos hcond]
      rfl
  · rename_i hcond
    simp only [Prod.mk.injEq, AddPeerResponse.created.injEq] at h
    obtain ⟨h1, h2, h3⟩ := h
    subst h2
    rw [hfields.1, hfields.2.1, hfields.2.2]
    refine ⟨rfl, rfl, ?_, ?_, hrun⟩
    · rw [← h1, hcat]
    · rw [← h3, if_neg hcond]
      rfl

/-- The loop of `DeleteRouteForPeer` performs the deletions of a prefix of the entries. -/
theorem deleteRoutes_log (env : Env) (nsName wgInterface : ByteString) (ranges : List ByteString) :
    ∀ log : Log, ∃ k, k ≤ ranges.length ∧
      (deleteRoutes env nsName wgInterface log ranges).2 =
        log ++ answered env log.length ((ranges.take k).map (fun ipRange =>
          Action.exec [lit "ip", lit "netns", lit "exec", nsName, lit "ip", lit "route",
            lit "del", ipRange, lit "dev", wgInterface])) := by
  induction ranges with
  | nil => intro log; exact ⟨0, by simp [deleteRoutes, answered]⟩
  | cons r rs ih =>
    intro log
    unfold deleteRoutes
    simp only
    split
    · exact ⟨1, by simp, by simp [perform_snd]⟩
    · obtain ⟨k, hk, hlog⟩ := ih (perform env log (.exec [lit "ip", lit "netns", lit "exec",
        nsName, lit "ip", lit "route", lit "del", r, lit "dev", wgInterface])).2
      refine ⟨k + 1, by simp; omega, ?_⟩
      rw [hlog, perform_snd]
      simp [answered, List.append_assoc]

theorem forwardRuleCommands_length (flag nsName : ByteString) (ranges : List ByteString) :
    ((ranges.map (forwardRuleCommands flag nsName)).flatten).length = 2 * ranges.length := by
  induction ranges with
  | nil => rfl
  | cons r rs ih =>
    simp only [List.map_cons, List.flatten_cons, List.length_append, ih, List.length_cons]
    simp [forwardRuleCommands]
    omega

/-- Claim C19, amended.  In `DeletePeer`, for a peer of the caller's server, the run of the
host grows by the forward-rule deletions (two per entry of `allowed_ips`), then route
deletions (those of the entries up to the first deletion that really fails), then the one
command `wg set <iface> peer <key> remove`: this last command is issued whatever the answers
to the deletions before it.  When it fails the catalog is unchanged and the error is
returned.  When it succeeds the delete statement of the database follows: the row is deleted
from the catalog when the statement succeeds, and when the statement fails the catalog is
unchanged and the error `Failed to delete peer record` is returned.  So the row is deleted
if and only if both the removal in WireGuard and the delete statement succeed. -/
theorem DeletePeer_removal_authoritative (env : Env) (db : DatabaseFaults) (cat : Catalog)
    (log : Log) (userID peerID : Nat) (wgServer : WireguardServer) (peer : WireguardPeer)
    (hs : cat.firstServer db.serverQueryFails userID = some wgServer)
    (hp : cat.firstPeer db.peerQueryFails peerID = some peer)
    (ho : peer.ServerID = wgServer.ID) :
    ∃ k, k ≤ (ipRanges peer.AllowedIPs).length ∧
      (Run.DeletePeer env db cat log userID (some peerID)).2.2 =
        log ++ answered env log.length
          (((ipRanges peer.AllowedIPs).map
              (forwardRuleCommands (lit "-D") wgServer.Namespace)).flatten.map Action.exec ++
            ((ipRanges peer.AllowedIPs).take k).map (fun ipRange =>
              Action.exec [lit "ip", lit "netns", lit "exec", wgServer.Namespace, lit "ip",
                lit "route", lit "del", ipRange, lit "dev", wgServer.WgInterface]) ++
            [.exec [lit "ip", lit "netns", lit "exec", wgServer.Namespace, lit "wg", lit "set",
              wgServer.WgInterface, lit "peer", peer.PublicKey, lit "remove"]]) ∧
      ((env.answers (log.length + 2 * (ipRanges peer.AllowedIPs).length + k)).failed = false →
        db.deleteFails = false →
        (Run.DeletePeer env db cat log userID (some peerID)).1 = cat.delete false peer ∧
        (Run.DeletePeer env db cat log userID (some peerID)).2.1 = .deleted) ∧
      ((env.answers (log.length + 2 * (ipRanges peer.AllowedIPs).length + k)).failed = false →
        db.deleteFails = true →
        (Run.DeletePeer env db cat log userID (some peerID)).1 = cat ∧
        (Run.DeletePeer env db cat log userID (some peerID)).2.1 = .deleteFailed) ∧
      ((env.answers (log.length + 2 * (ipRanges peer.AllowedIPs).length + k)).failed = true →
        (Run.DeletePeer env db cat log userID (some peerID)).1 = cat ∧
        (Run.DeletePeer env db cat log userID (some peerID)).2.1
          = .removePeerFailed "failed to remove peer") ∧
      ((Run.DeletePeer env db cat log userID (some peerID)).2.1 = .deleted ↔
        (env.answers (log.length + 2 * (ipRanges peer.AllowedIPs).length + k)).failed = false ∧
          db.deleteFails = false) := by
  obtain ⟨k, hk, hlog⟩ := deleteRoutes_log env wgServer.Namespace wgServer.WgInterface
    (ipRanges peer.AllowedIPs)
    (NetnsService.DeleteIptablesRuleForPeer env log wgServer.Namespace peer.AllowedIPs).2
  have hlen : (deleteRoutes env wgServer.Namespace wgServer.WgInterface
      (NetnsService.DeleteIptablesRuleForPeer env log wgServer.Namespace peer.AllowedIPs).2
      (ipRanges peer.AllowedIPs)).2.length
        = log.length + 2 * (ipRanges peer.AllowedIPs).length + k := by
    rw [hlog]
    simp only [NetnsService.DeleteIptablesRuleForPeer, runCommandsIgnoringErrors_eq,
      List.length_append, answered_length, forwardRuleCommands_length, List.length_map,
      List.length_take]
    omega
  refine ⟨k, hk, ?_, ?_, ?_, ?_, ?_⟩
  · simp only [Run.DeletePeer, hs, hp, ho, ne_eq, not_true_eq_false, if_false,
      NetnsService.DeleteRouteForPeer, WireguardService.RemovePeer, runCommands_single]
    split <;> (try split) <;>
    · rw [hlog]
      simp only [NetnsService.DeleteIptablesRuleForPeer, runCommandsIgnoringErrors_eq,
        List.length_append, answered_length, forwardRuleCommands_length, List.length_map,
        List.length_take, answered_append, List.append_assoc, answered]
      simp [Nat.min_eq_left hk, Nat.add_assoc]
  · intro hf hd
    simp only [Run.DeletePeer, hs, hp, ho, ne_eq, not_true_eq_false, if_false,
      NetnsService.DeleteRouteForPeer, WireguardService.RemovePeer, runCommands_single, hd,
      hlen, hf, Bool.false_eq_true]
    simp
  · intro hf hd
    simp only [Run.DeletePeer, hs, hp, ho, ne_eq, not_true_eq_false, if_false,
      NetnsService.DeleteRouteForPeer, WireguardService.RemovePeer, runCommands_single, hd,
      hlen, hf, Bool.false_eq_true]
    simp
  · intro hf
    simp only [Run.DeletePeer, hs, hp, ho, ne_eq, not_true_eq_false, if_false,
      NetnsService.DeleteRouteForPeer, WireguardService.RemovePeer, runCommands_single,
      hlen, hf, if_true]
    simp
  · simp only [Run.DeletePeer, hs, hp, ho, ne_eq, not_true_eq_false, if_false,
      NetnsService.DeleteRouteForPeer, WireguardService.RemovePeer, runCommands_single,
      hlen]
    cases hf : (env.answers (log.length + 2 * (ipRanges peer.AllowedIPs).length + k)).failed <;>
      cases hd : db.deleteFails <;> simp

/-- Claim C19, counterexample.  On a host where no command fails, with a database that
fails the delete statement, `DeletePeer` removes the routed peer from WireGuard (the command
`wg set wg0 peer PEERPUB remove` is the last of the run and succeeds), yet the row is not
deleted: the catalog is unchanged and the response is the error
`Failed to delete peer record`. -/
theorem DeletePeer_delete_failure_keeps_row :
    Run.DeletePeer neverFailing deleteFault routedCatalog [] 7 (some 1) =
      (routedCatalog, .deleteFailed,
        answered neverFailing 0
          [.exec [lit "ip", lit "netns", lit "exec", lit "wg_a1b2c3d4", lit "iptables", lit "-D",
             lit "FORWARD", lit "-d", lit "10.0.0.0/24", lit "-j", lit "ACCEPT"],
           .exec [lit "ip", lit "netns", lit "exec", lit "wg_a1b2c3d4", lit "iptables", lit "-D",
             lit "FORWARD", lit "-s", lit "10.0.0.0/24", lit "-j", lit "ACCEPT"],
           .exec [lit "ip", lit "netns", lit "exec", lit "wg_a1b2c3d4", lit "ip", lit "route",
             lit "del", lit "10.0.0.0/24", lit "dev", lit "wg0"],
           .exec [lit "ip", lit "netns", lit "exec", lit "wg_a1b2c3d4", lit "wg", lit "set",
             lit "wg0", lit "peer", lit "PEERPUB", lit "remove"]]) ∧
    (neverFailing.answers 3).failed = false ∧
    routedPeer ∈ routedCatalog.peers ∧
    routedPeer ∈ (Run.DeletePeer neverFailing deleteFault routedCatalog [] 7 (some 1)).1.peers :=
  ⟨by rfl, by decide, by decide, by decide⟩

/-! ## Provisioning, command by command -/

theorem formatInt_no_slash (i : Int) : slash ∉ formatInt i := by
  unfold formatInt
  split
  · intro h
    rcases List.mem_cons.mp h with h | h
    · revert h; decide
    · exact (formatNat_digits _ _ h).2 rfl
  · intro h
    exact (formatNat_digits _ _ h).2 rfl

/-- The address of the namespace side without its prefix length, as `ProvisionUserNetwork`
cuts it and as `DestroyUserNetwork` builds it. -/
theorem split_nsIP (baseSubnet : ByteString) (i : Int) (hslash : slash ∉ baseSubnet) :
    (Split (baseSubnet ++ lit "." ++ formatInt i ++ lit ".2/30") slash).getD 0 []
      = baseSubnet ++ lit "." ++ formatInt i ++ lit ".2" := by
  unfold Split
  rw [head_splitOn_eq_takeWhile]
  have h1 : lit ".2/30" = lit ".2" ++ lit "/30" := by decide
  rw [h1, ← List.append_assoc, List.takeWhile_append_of_pos]
  · have h2 : List.takeWhile (fun b => b != slash) (lit "/30") = [] := by decide
    rw [h2, List.append_nil]
  · intro b hb
    simp only [List.mem_append] at hb
    have : b ≠ slash := by
      rintro rfl
      rcases hb with ((hb | hb) | hb) | hb
      · exact hslash hb
      · revert hb; decide
      · exact formatInt_no_slash _ hb
      · revert hb; decide
    simpa using this

/-- A successful `CreateConfig` has made the directory and written the file whose path it
returns. -/
theorem CreateConfig_ok (w : WireguardService) (env : Env) (log : Log) (username : ByteString)
    (config : WireguardConfig) (configPath : ByteString)
    (h : (w.CreateConfig env log username config).1 = .ok configPath) :
    configPath = env.pathJoin [env.pathJoin [w.configDir, username],
      config.InterfaceName ++ lit ".conf"] ∧
    (w.CreateConfig env log username config).2 =
      log ++ answered env log.length
        [.mkdirAll (env.pathJoin [w.configDir, username]) 0o700,
          .writeFile configPath (configContent config) 0o600] := by
  unfold WireguardService.CreateConfig at h ⊢
  simp only at h ⊢
  split at h
  · simp at h
  split at h
  · simp at h
  rename_i h1 h2
  simp only [Except.ok.injEq] at h
  subst h
  simp only [h1, h2, if_false, Bool.false_eq_true]
  simp [perform_snd, answered, List.append_assoc]

theorem runCommands_none (env : Env) (log : Log) (commands : List (List ByteString × String))
    (h : (runCommands env log commands).1 = none) :
    (runCommands env log commands).2
      = log ++ answered env log.length (commands.map (fun c => Action.exec c.1)) := by
  obtain ⟨k, _, hrun, _, hnone, _⟩ := runCommands_log env log commands
  rw [hrun, (hnone h).1, List.take_length]

/-- The shape of a successful provisioning: the descriptor, and the end of the run, which
is the write of the configuration file, `wg-quick up` on it and the four appended rules. -/
theorem ProvisionUserNetwork_ok (s : UserNetworkService) (w : WireguardService) (env : Env)
    (log : Log) (user : User) (d : WireguardServer) (log1 : Log)
    (h : Run.ProvisionUserNetwork s w env log user = (.ok d, log1)) :
    d.Namespace = generateNamespaceName user.UserUID ∧ d.WgInterface = lit "wg0" ∧
    ∃ pre : Log,
      log1 = pre ++ answered env pre.length
        ([.writeFile (env.pathJoin [env.pathJoin [w.configDir, user.UserUID],
              lit "wg0" ++ lit ".conf"])
            (configContent
              { InterfaceName := lit "wg0", ListenPort := d.WgPort, PrivateKey := d.WgPrivateKey,
                PublicKey := d.WgPublicKey, Address := d.WgAddress,
                VethInterface := lit "veth-ns-" ++ user.UserUID.take 6,
                OutInterface := s.outInterface }) 0o600,
          .exec [lit "ip", lit "netns", lit "exec", d.Namespace, lit "wg-quick", lit "up",
            env.pathJoin [env.pathJoin [w.configDir, user.UserUID], lit "wg0" ++ lit ".conf"]]]
          ++ (portForwardingRules (lit "-A") s.outInterface d.WgPort
              ((Split (s.baseSubnet ++ lit "." ++ formatInt (hashUserUID user.UserUID % 254 + 1)
                ++ lit ".2/30") slash).getD 0 [])
              d.WgPort (lit "udp")).map Action.exec) := by
  unfold Run.ProvisionUserNetwork at h
  simp only at h
  split at h
  · simp at h
  split at h
  · simp at h
  split at h
  · simp at h
  split at h
  · simp at h
  split at h
  · simp at h
  rename_i privateKey publicKey hkeys
  split at h
  · simp at h
  rename_i configPath hconfig
  split at h
  · simp at h
  rename_i hstart
  split at h
  · simp at h
  rename_i hsetup
  simp only [Prod.mk.injEq, ProvisionResult.ok.injEq] at h
  obtain ⟨hd, hlog⟩ := h
  obtain ⟨hpath, hclog⟩ := CreateConfig_ok _ _ _ _ _ _ hconfig
  subst hd
  refine ⟨rfl, rfl, ?_⟩
  generalize (WireguardService.GenerateKeys env _).2 = log4 at hkeys hconfig hclog hstart hsetup hlog
  refine ⟨log4 ++ [(.mkdirAll (env.pathJoin [w.configDir, user.UserUID]) 0o700,
    env.answers log4.length)], ?_⟩
  rw [← hlog]
  simp only [NetnsService.SetupPortForwarding, WireguardService.StartWireguardInNamespace,
    runCommands_single] at hsetup ⊢
  rw [runCommands_none _ _ _ hsetup, hclog, hpath]
  simp [answered, portForwardingRules, List.append_assoc, Nat.add_assoc]

/-- The commands of `DestroyUserNetwork` on a provisioned server. -/
theorem DestroyUserNetwork_log (s : UserNetworkService) (w : WireguardService)
    (env : Env) (log : Log) (server : WireguardServer) (userUID : ByteString)
    (h : server.Namespace ≠ []) :
    (Run.DestroyUserNetwork s w env log server userUID).2 =
      log ++ answered env log.length
        ((portForwardingRules (lit "-D") s.outInterface server.WgPort
            (s.baseSubnet ++ lit "." ++ formatInt (hashUserUID userUID % 254 + 1) ++ lit ".2")
            server.WgPort (lit "udp")).map Action.exec ++
          [.exec [lit "ip", lit "netns", lit "exec", server.Namespace, lit "wg-quick",
              lit "down", env.pathJoin [w.configDir, userUID, server.WgInterface ++ lit ".conf"]],
           .exec [lit "ip", lit "netns", lit "delete", server.Namespace]]) := by
  simp only [Run.DestroyUserNetwork, h, if_false, NetnsService.RemovePortForwarding,
    WireguardService.StopWireguardInNamespace, NetnsService.DeleteNamespace,
    WireguardService.GetConfigPath, runCommands_single, runCommandsIgnoringErrors_eq]
  split <;> simp [portForwardingRules, answered, List.append_assoc]

/-- Claim C17.  `DestroyUserNetwork` removes exactly the rules `ProvisionUserNetwork`
published.  For a base subnet without `/` and a `filepath.Join` that joins step by step as
it joins at once: if provisioning succeeds with descriptor `d`, its run ends with the write
of the configuration file at some path, `wg-quick up` on that path and the four
`iptables -A` commands of one rule list; and `DestroyUserNetwork(d, user_uid)`, whatever the
host answers, issues the four `iptables -D` commands of the same rule list (same chains,
table, interface, protocol, port and target `ip:port`, in the same order), then
`wg-quick down` on the same path, then `ip netns delete`. -/
theorem DestroyUserNetwork_mirrors_provision (s : UserNetworkService) (w : WireguardService)
    (env : Env) (log : Log) (user : User) (d : WireguardServer) (log1 : Log)
    (answers : Nat → Answer) (log2 : Log)
    (hslash : slash ∉ s.baseSubnet)
    (hjoin : ∀ a b c, env.pathJoin [env.pathJoin [a, b], c] = env.pathJoin [a, b, c])
    (hprov : Run.ProvisionUserNetwork s w env log user = (.ok d, log1)) :
    ∃ (nsIP path content : ByteString) (pre : List Action),
      log1.actions = pre ++
        [.writeFile path content 0o600,
          .exec [lit "ip", lit "netns", lit "exec", d.Namespace, lit "wg-quick", lit "up", path]]
        ++ (portForwardingRules (lit "-A") s.outInterface d.WgPort nsIP d.WgPort
              (lit "udp")).map Action.exec ∧
      (Run.DestroyUserNetwork s w { answers := answers, pathJoin := env.pathJoin } log2 d
          user.UserUID).2.actions =
        log2.actions ++
          (portForwardingRules (lit "-D") s.outInterface d.WgPort nsIP d.WgPort
              (lit "udp")).map Action.exec ++
          [.exec [lit "ip", lit "netns", lit "exec", d.Namespace, lit "wg-quick", lit "down",
              path],
            .exec [lit "ip", lit "netns", lit "delete", d.Namespace]] := by
  obtain ⟨hns, hif, pre, hlog⟩ := ProvisionUserNetwork_ok s w env log user d log1 hprov
  have hne : d.Namespace ≠ [] := by
    rw [hns]
    unfold generateNamespaceName
    intro h
    have := congrArg List.length h
    simp only [List.length_append, List.length_nil] at this
    have h3 : (lit "wg_").length = 3 := by decide
    omega
  refine ⟨s.baseSubnet ++ lit "." ++ formatInt (hashUserUID user.UserUID % 254 + 1) ++ lit ".2",
    env.pathJoin [w.configDir, user.UserUID, lit "wg0" ++ lit ".conf"],
    configContent
      { InterfaceName := lit "wg0", ListenPort := d.WgPort, PrivateKey := d.WgPrivateKey,
        PublicKey := d.WgPublicKey, Address := d.WgAddress,
        VethInterface := lit "veth-ns-" ++ user.UserUID.take 6, OutInterface := s.outInterface },
    pre.actions, ?_, ?_⟩
  · rw [hlog, actions_append, answered_actions, split_nsIP _ _ hslash, hjoin]
    simp only [List.append_assoc]
  · rw [DestroyUserNetwork_log _ _ _ _ _ _ hne, actions_append, answered_actions, hif]
    simp only [List.append_assoc]

/-! ## The configuration text -/

theorem flatten_map_append_sep (sep : UInt8) (lines : List ByteString) :
    (lines.map (fun line => line ++ [sep])).flatten = List.intercalate [sep] (lines ++ [[]]) := by
  induction lines with
  | nil => rfl
  | cons l ls ih =>
    cases ls with
    | nil => simp [List.intercalate]
    | cons l2 ls2 =>
      simp only [List.map_cons, List.flatten_cons] at ih ⊢
      rw [ih]
      simp [List.intercalate, List.intersperse]

/-- A text made of lines without line feed, each followed by one, splits into these lines
and a last empty one. -/
theorem split_lines (lines : List ByteString) (h : ∀ line ∈ lines, newline ∉ line) :
    Split ((lines.map (fun line => line ++ [newline])).flatten) newline = lines ++ [[]] := by
  rw [flatten_map_append_sep]
  exact List.splitOn_intercalate (lines ++ [[]]) newline
    (by
      intro l hl
      rcases List.mem_append.mp hl with hl | hl
      · exact h l hl
      · simp only [List.mem_singleton] at hl
        subst hl
        simp)
    (by simp)

theorem configFileLines_no_newline (config : WireguardConfig)
    (hkey : newline ∉ config.PrivateKey) (haddr : newline ∉ config.Address)
    (hveth : newline ∉ config.VethInterface) (hout : newline ∉ config.OutInterface) :
    ∀ line ∈ configFileLines config, newline ∉ line := by
  have hport : newline ∉ formatInt config.ListenPort := by
    unfold formatInt
    split
    · intro h
      rcases List.mem_cons.mp h with h | h
      · revert h; decide
      · unfold formatNat at h
        rw [List.mem_map] at h
        obtain ⟨d, hd, hd2⟩ := h
        have hlt := decimalDigits_lt _ _ d (List.mem_reverse.mp hd)
        revert hd2
        interval_cases d <;> decide
    · intro h
      unfold formatNat at h
      rw [List.mem_map] at h
      obtain ⟨d, hd, hd2⟩ := h
      have hlt := decimalDigits_lt _ _ d (List.mem_reverse.mp hd)
      revert hd2
      interval_cases d <;> decide
  simp only [configFileLines, List.forall_mem_cons, List.mem_append, not_or]
  simp +decide [hkey, haddr, hveth, hout, hport]

/-- Claim C20.  In the text `CreateConfig` writes, for every configuration whose key,
address and interface names hold no line feed: the commands of the `PostUp` lines are
`sysctl -w net.ipv4.ip_forward=1` followed by the six `iptables` rules with `-A`, the
commands of the `PostDown` lines are the same six rules with `-D` in place of `-A`, in the
same order and with the same interface and CIDR arguments; and in the two rules between the
WireGuard interface and the veth the token `%i` stands literally, a percent sign followed by
the letter i. -/
theorem CreateConfig_postdown_mirrors_postup (config : WireguardConfig)
    (hkey : newline ∉ config.PrivateKey) (haddr : newline ∉ config.Address)
    (hveth : newline ∉ config.VethInterface) (hout : newline ∉ config.OutInterface) :
    commandsOf (lit "PostUp") (configContent config)
      = lit "sysctl -w net.ipv4.ip_forward=1" :: mirroredRules (lit "-A") config ∧
    commandsOf (lit "PostDown") (configContent config) = mirroredRules (lit "-D") config ∧
    lit "%i" = [37, 105] ∧
    (mirroredRules (lit "-A") config).take 2 =
      [lit "iptables -A FORWARD -i " ++ [37, 105] ++ lit " -o " ++ config.VethInterface ++
          lit " -j ACCEPT",
        lit "iptables -A FORWARD -i " ++ config.VethInterface ++ lit " -o " ++ [37, 105] ++
          lit " -j ACCEPT"] := by
  have hsplit : Split (configContent config) newline = configFileLines config ++ [[]] :=
    split_lines _ (configFileLines_no_newline config hkey haddr hveth hout)
  refine ⟨?_, ?_, by decide, by simp only [mirroredRules, List.append_assoc]; rfl⟩
  · unfold commandsOf
    rw [hsplit]
    simp only [configFileLines, mirroredRules, List.append_assoc]
    rfl
  · unfold commandsOf
    rw [hsplit]
    simp only [configFileLines, mirroredRules, List.append_assoc]
    rfl

/-! ## Rollback of a provisioning -/

theorem DeleteNamespace_snd (env : Env) (log : Log) (name : ByteString) :
    (NetnsService.DeleteNamespace env log name).2 =
      log ++ [(.exec [lit "ip", lit "netns", lit "delete", name], env.answers log.length)] := by
  simp only [NetnsService.DeleteNamespace, runCommands_single]

theorem CreateConfig_log (w : WireguardService) (env : Env) (log : Log) (username : ByteString)
    (config : WireguardConfig) (configPath : ByteString)
    (h : (w.CreateConfig env log username config).1 = .ok configPath) :
    ∃ content : ByteString, (w.CreateConfig env log username config).2 =
      log ++ [(.mkdirAll (env.pathJoin [w.configDir, username]) 0o700, env.answers log.length),
        (.writeFile configPath content 0o600, env.answers (log.length + 1))] :=
  ⟨configContent config, by rw [(CreateConfig_ok w env log username config configPath h).2]; rfl⟩

/-- Claim C15, amended.  Whatever fails during `ProvisionUserNetwork`, when it returns an
error: either the creation of the namespace failed and nothing else was run; or the last
command of the run is `ip netns delete <ns>`, whose own failure is ignored.  When the start
of WireGuard fails, the run before the deletion ends with the write of the configuration
file and the failed `wg-quick up`; when the port publishing fails, it ends with that write,
`wg-quick up`, the rules attempted up to the failing one and `wg-quick down` on the same
path.  No command removes the written file. -/
theorem ProvisionUserNetwork_rollback (s : UserNetworkService) (w : WireguardService)
    (env : Env) (log : Log) (user : User) (r : ProvisionResult) (log1 : Log)
    (h : Run.ProvisionUserNetwork s w env log user = (r, log1))
    (hpanic : r ≠ .panic) (herr : ∀ d, r ≠ .ok d) :
    (∃ e, r = .createNamespaceFailed e ∧
      log1 = log ++ [(.exec [lit "ip", lit "netns", lit "add",
        generateNamespaceName user.UserUID], env.answers log.length)]) ∨
    (∃ pre : Log,
      log1 = pre ++ [(.exec [lit "ip", lit "netns", lit "delete",
        generateNamespaceName user.UserUID], env.answers pre.length)] ∧
      (∀ e, r = .startWireguardFailed e → ∃ (pre2 : List Action) (path content : ByteString),
        pre.actions = pre2 ++
          [.writeFile path content 0o600,
            .exec [lit "ip", lit "netns", lit "exec", generateNamespaceName user.UserUID,
              lit "wg-quick", lit "up", path]]) ∧
      (∀ e, r = .setupPortForwardingFailed e →
        ∃ (pre2 : List Action) (path content : ByteString) (k : Nat),
          0 < k ∧ k ≤ 4 ∧
          pre.actions = pre2 ++
            [.writeFile path content 0o600,
              .exec [lit "ip", lit "netns", lit "exec", generateNamespaceName user.UserUID,
                lit "wg-quick", lit "up", path]] ++
            ((portForwardingRules (lit "-A") s.outInterface
                (wrapInt64 (s.basePort + hashUserUID user.UserUID % 10000))
                ((Split (s.baseSubnet ++ lit "." ++
                  formatInt (hashUserUID user.UserUID % 254 + 1) ++ lit ".2/30") slash).getD 0 [])
                (wrapInt64 (s.basePort + hashUserUID user.UserUID % 10000))
                (lit "udp")).take k).map Action.exec ++
            [.exec [lit "ip", lit "netns", lit "exec", generateNamespaceName user.UserUID,
              lit "wg-quick", lit "down", path]])) := by
  unfold Run.ProvisionUserNetwork at h
  simp only at h
  split at h
  · simp only [Prod.mk.injEq] at h
    exact absurd h.1.symm hpanic
  split at h
  · simp only [Prod.mk.injEq] at h
    obtain ⟨h1, h2⟩ := h
    refine Or.inl ⟨_, h1.symm, ?_⟩
    rw [← h2]
    simp [NetnsService.CreateNamespace, runCommands_single]
  split at h
  · simp only [Prod.mk.injEq] at h
    obtain ⟨h1, h2⟩ := h
    refine Or.inr ⟨_, h2.symm.trans (DeleteNamespace_snd _ _ _), ?_, ?_⟩
    · intro e he; rw [← h1] at he; cases he
    · intro e he; rw [← h1] at he; cases he
  split at h
  · simp only [Prod.mk.injEq] at h
    obtain ⟨h1, h2⟩ := h
    refine Or.inr ⟨_, h2.symm.trans (DeleteNamespace_snd _ _ _), ?_, ?_⟩
    · intro e he; rw [← h1] at he; cases he
    · intro e he; rw [← h1] at he; cases he
  split at h
  · simp only [Prod.mk.injEq] at h
    obtain ⟨h1, h2⟩ := h
    refine Or.inr ⟨_, h2.symm.trans (DeleteNamespace_snd _ _ _), ?_, ?_⟩
    · intro e he; rw [← h1] at he; cases he
    · intro e he; rw [← h1] at he; cases he
  rename_i privateKey publicKey hkeys
  split at h
  · simp only [Prod.mk.injEq] at h
    obtain ⟨h1, h2⟩ := h
    refine Or.inr ⟨_, h2.symm.trans (DeleteNamespace_snd _ _ _), ?_, ?_⟩
    · intro e he; rw [← h1] at he; cases he
    · intro e he; rw [← h1] at he; cases he
  rename_i configPath hconfig
  obtain ⟨content, hclog⟩ := CreateConfig_log _ _ _ _ _ _ hconfig
  generalize (WireguardService.GenerateKeys env _).2 = log4 at hconfig hclog h
  split at h
  · simp only [Prod.mk.injEq] at h
    obtain ⟨h1, h2⟩ := h
    refine Or.inr ⟨_, h2.symm.trans (DeleteNamespace_snd _ _ _), ?_, ?_⟩
    · intro e _
      refine ⟨log4.actions ++ [.mkdirAll (env.pathJoin [w.configDir, user.UserUID]) 0o700],
        configPath, content, ?_⟩
      simp only [WireguardService.StartWireguardInNamespace, runCommands_single, hclog,
        actions_append]
      simp [Log.actions]
    · intro e he; rw [← h1] at he; cases he
  split at h
  · rename_i hstart e7 hsetup
    simp only [Prod.mk.injEq] at h
    obtain ⟨h1, h2⟩ := h
    refine Or.inr ⟨_, h2.symm.trans (DeleteNamespace_snd _ _ _), ?_, ?_⟩
    · intro e he; rw [← h1] at he; cases he
    · intro e _
      simp only [NetnsService.SetupPortForwarding] at hsetup ⊢
      rw [hclog] at hsetup ⊢
      simp only [WireguardService.StartWireguardInNamespace, runCommands_single] at hsetup ⊢
      generalize hcmds : ([(_, "failed to add INPUT rule"), _, _, _] :
        List (List ByteString × String)) = cmds at hsetup ⊢
      generalize hlog5 : log4 ++ [(Action.mkdirAll (env.pathJoin [w.configDir, user.UserUID])
          0o700, env.answers log4.length),
        (Action.writeFile configPath content 0o600, env.answers (log4.length + 1))] = log5
        at hsetup ⊢
      obtain ⟨k, hk, hrun, _, _, hsome⟩ := runCommands_log env
        (log5 ++ [(Action.exec [lit "ip", lit "netns", lit "exec",
          generateNamespaceName user.UserUID, lit "wg-quick", lit "up", configPath],
          env.answers log5.length)]) cmds
      obtain ⟨hk0, _, _⟩ := hsome _ hsetup
      refine ⟨log4.actions ++ [.mkdirAll (env.pathJoin [w.configDir, user.UserUID]) 0o700],
        configPath, content, k, hk0, by rw [← hcmds] at hk; simpa using hk, ?_⟩
      simp only [WireguardService.StopWireguardInNamespace, runCommands_single, hrun,
        actions_append, answered_actions]
      rw [← hcmds, ← hlog5]
      simp [Log.actions, portForwardingRules, List.map_take]
  · simp only [Prod.mk.injEq] at h
    exact absurd h.1.symm (herr _)

/-! ## Runs on concrete hosts -/

/-- Claim C14, the code at the failing input.  `AddPeer` for `allowed_ips = 10.0.0.0/24` on the example server,
the second `iptables` command of `AddIptablesRuleForPeer` failing: the handler answers the
error, the row is deleted again, the route and the kernel peer are removed, but the rule
`FORWARD -d 10.0.0.0/24 -j ACCEPT`, appended with success by the command before, is deleted
by no command of the run. -/
theorem AddPeer_iptables_failure_leaves_rule :
    Run.AddPeer (failingAt 5) noFaults exampleCatalog [] 7 (some routedRequest) =
      ({ exampleCatalog with nextPeerID := 2 },
        .addIptablesFailed "failed to add iptables forward rule",
        answered (failingAt 5) 0
          [.exec [lit "wg", lit "genkey"],
           .execStdin [lit "wg", lit "pubkey"] (lit "OUT"),
           .exec [lit "ip", lit "netns", lit "exec", lit "wg_a1b2c3d4", lit "wg", lit "set",
             lit "wg0", lit "peer", lit "OUT", lit "allowed-ips", lit "10.100.5.2/32"],
           .exec [lit "ip", lit "netns", lit "exec", lit "wg_a1b2c3d4", lit "ip", lit "route",
             lit "add", lit "10.0.0.0/24", lit "dev", lit "wg0"],
           .exec [lit "ip", lit "netns", lit "exec", lit "wg_a1b2c3d4", lit "iptables", lit "-A",
             lit "FORWARD", lit "-d", lit "10.0.0.0/24", lit "-j", lit "ACCEPT"],
           .exec [lit "ip", lit "netns", lit "exec", lit "wg_a1b2c3d4", lit "iptables", lit "-A",
             lit "FORWARD", lit "-s", lit "10.0.0.0/24", lit "-j", lit "ACCEPT"],
           .exec [lit "ip", lit "netns", lit "exec", lit "wg_a1b2c3d4", lit "ip", lit "route",
             lit "del", lit "10.0.0.0/24", lit "dev", lit "wg0"],
           .exec [lit "ip", lit "netns", lit "exec", lit "wg_a1b2c3d4", lit "wg", lit "set",
             lit "wg0", lit "peer", lit "OUT", lit "remove"]]) ∧
    ((failingAt 5).answers 4).failed = false ∧ ((failingAt 5).answers 5).failed = true :=
  ⟨by rfl, by decide, by decide⟩

/-- Claim C18, the code at the failing input.  `UpdatePeer` of the peer `10.100.5.2`, whose `allowed_ips` is
`10.0.0.0/24`, to `allowed_ips = 10.100.5.2/32`, nothing failing: after the deletions for
the old value the handler runs `ip route add 10.100.5.2/32 dev wg0` and appends the two
`FORWARD` rules for `10.100.5.2/32`, then stores the new value: the peer has the trivial
`allowed_ips` of its own address and yet a route and forward rules. -/
theorem UpdatePeer_own_address_materialized :
    Run.UpdatePeer neverFailing noFaults routedCatalog [] 7 (some 1) (some ownAddressUpdate) =
      ({ routedCatalog with peers := [{ routedPeer with AllowedIPs := lit "10.100.5.2/32" }] },
        .updated { routedPeer with AllowedIPs := lit "10.100.5.2/32" },
        answered neverFailing 0
          [.exec [lit "ip", lit "netns", lit "exec", lit "wg_a1b2c3d4", lit "iptables", lit "-D",
             lit "FORWARD", lit "-d", lit "10.0.0.0/24", lit "-j", lit "ACCEPT"],
           .exec [lit "ip", lit "netns", lit "exec", lit "wg_a1b2c3d4", lit "iptables", lit "-D",
             lit "FORWARD", lit "-s", lit "10.0.0.0/24", lit "-j", lit "ACCEPT"],
           .exec [lit "ip", lit "netns", lit "exec", lit "wg_a1b2c3d4", lit "ip", lit "route",
             lit "del", lit "10.0.0.0/24", lit "dev", lit "wg0"],
           .exec [lit "ip", lit "netns", lit "exec", lit "wg_a1b2c3d4", lit "ip", lit "route",
             lit "add", lit "10.100.5.2/32", lit "dev", lit "wg0"],
           .exec [lit "ip", lit "netns", lit "exec", lit "wg_a1b2c3d4", lit "iptables", lit "-A",
             lit "FORWARD", lit "-d", lit "10.100.5.2/32", lit "-j", lit "ACCEPT"],
           .exec [lit "ip", lit "netns", lit "exec", lit "wg_a1b2c3d4", lit "iptables", lit "-A",
             lit "FORWARD", lit "-s", lit "10.100.5.2/32", lit "-j", lit "ACCEPT"]]) ∧
    routedPeer.PeerAddress ++ lit "/32" = ownAddressUpdate.AllowedIPs :=
  ⟨by rfl, by decide⟩

/-- Claim C15, counterexample.  The start of WireGuard failing (action 17 of the run) during the
provisioning of the example user.  The configuration file has been written, and after the
failed `wg-quick up` the only command is `ip netns delete`: the written file persists. -/
theorem ProvisionUserNetwork_leaves_config_file :
    Run.ProvisionUserNetwork exampleService exampleWireguardService (failingAt 17) []
        exampleUser =
      (.startWireguardFailed "failed to start wireguard in namespace",
        answered (failingAt 17) 0
          (exampleSetupActions ++
            [.exec [lit "ip", lit "netns", lit "exec", lit "wg_a1b2c3d4", lit "wg-quick",
               lit "up", lit "/etc/wireguard/a1b2c3d4/wg0.conf"],
             .exec [lit "ip", lit "netns", lit "delete", lit "wg_a1b2c3d4"]])) ∧
    exampleSetupActions[16]? =
      some (.writeFile (lit "/etc/wireguard/a1b2c3d4/wg0.conf") (configContent exampleConfig)
        0o600) ∧
    ((failingAt 17).answers 16).failed = false :=
  ⟨by rfl, by rfl, by decide⟩

/-! ## User identifiers -/

theorem hextable_isLowerHex (n : Nat) (h : n < 16) : isLowerHex (hextable.getD n 0) = true := by
  interval_cases n <;> decide

theorem EncodeToString_length (src : ByteString) : (EncodeToString src).length = 2 * src.length := by
  unfold EncodeToString
  induction src with
  | nil => rfl
  | cons v vs ih =>
    simp only [List.map_cons, List.flatten_cons, List.length_append, ih, List.length_cons,
      List.length_nil]
    omega

theorem EncodeToString_isLowerHex (src : ByteString) :
    ∀ b ∈ EncodeToString src, isLowerHex b = true := by
  unfold EncodeToString
  induction src with
  | nil => intro b hb; simp at hb
  | cons v vs ih =>
    intro b hb
    simp only [List.map_cons, List.flatten_cons, List.mem_append, List.mem_cons,
      List.mem_singleton, List.not_mem_nil, or_false] at hb
    rcases hb with (rfl | rfl) | hb
    · apply hextable_isLowerHex
      have := v.toNat_lt
      rw [Nat.shiftRight_eq_div_pow]
      omega
    · apply hextable_isLowerHex
      have h15 : v.toNat &&& 0x0f ≤ 0x0f := Nat.and_le_right
      omega
    · exact ih b hb

theorem generateUserUID_isUserUID (random : Fin 4 → UInt8) :
    isUserUID (generateUserUID random) = true := by
  unfold isUserUID generateUserUID
  rw [Bool.and_eq_true]
  constructor
  · simp [EncodeToString_length]
  · rw [List.all_eq_true]
    exact EncodeToString_isLowerHex _

/-- Claim C23, amended.  The identifier `generateUserUID` returns is, for any four random
bytes, a string of exactly 8 lowercase hexadecimal digits, and it is the identifier the hook
`BeforeCreate` gives to every row created without one, such as the row of `Register`; the
default platform admin is created with the fixed identifier `admin001`, which the hook
leaves as it is: 8 bytes, not all of them hexadecimal digits. -/
theorem generateUserUID_hex (random : Fin 4 → UInt8) :
    ((generateUserUID random).length = 8 ∧
      ∀ b ∈ generateUserUID random, isLowerHex b = true) ∧
    (∀ u : UserRow, u.UserUID = [] →
      (u.BeforeCreate random).UserUID = generateUserUID random) ∧
    (∀ email passwordHash name : ByteString,
      isUserUID (registeredUser email passwordHash name random).UserUID = true) ∧
    (∃ admin, createDefaultPlatformAdmin 0 random = some admin ∧
      admin.UserUID = lit "admin001" ∧ admin.UserUID.length = 8) := by
  have h := generateUserUID_isUserUID random
  unfold isUserUID at h
  rw [Bool.and_eq_true, List.all_eq_true] at h
  refine ⟨⟨by simpa using h.1, h.2⟩, ?_, ?_, ?_⟩
  · intro u hu
    unfold UserRow.BeforeCreate
    split <;> simp [hu]
  · intro email passwordHash name
    have : (registeredUser email passwordHash name random).UserUID = generateUserUID random := by
      unfold registeredUser UserRow.BeforeCreate
      split <;> simp
    rw [this]
    exact generateUserUID_isUserUID random
  · exact ⟨defaultAdmin, rfl, by decide, by decide⟩

/-- Claim C23, counterexample.  The identifier of the default platform admin, created at
bootstrap when no admin exists, is `admin001`: its letters `m`, `i` and `n` are no
hexadecimal digits. -/
theorem createDefaultPlatformAdmin_uid_not_hex :
    ∃ admin, createDefaultPlatformAdmin 0 (fun _ => 0) = some admin ∧
      admin.UserUID = lit "admin001" ∧ isUserUID admin.UserUID = false ∧
      admin.UserUID.filter (fun b => !isLowerHex b) = lit "min" :=
  ⟨defaultAdmin, rfl, by decide, by decide, by decide⟩

/-! ## The derivation of the per-user parameters -/

/-- The subnet id is between 1 and 254, the port offset between 0 and 9999. -/
theorem hashUserUID_ranges (userUID : ByteString) :
    1 ≤ hashUserUID userUID % 254 + 1 ∧ hashUserUID userUID % 254 + 1 ≤ 254 ∧
    0 ≤ hashUserUID userUID % 10000 ∧ hashUserUID userUID % 10000 ≤ 9999 := by
  unfold hashUserUID
  omega

/-- What a successful provisioning has derived: the identifier has at least six bytes, the
descriptor and the arguments of the veth and NAT calls follow the formulas. -/
theorem ProvisionUserNetwork_ok_fields (s : UserNetworkService) (user : User)
    (eff : ProvisionEffects) (d : WireguardServer)
    (hok : (ProvisionUserNetwork s user eff).1 = .ok d) :
    6 ≤ user.UserUID.length ∧
    d.Namespace = lit "wg_" ++ user.UserUID ∧
    d.WgPort = wrapInt64 (s.basePort + hashUserUID user.UserUID % 10000) ∧
    d.WgAddress = lit "10.100." ++ formatInt (hashUserUID user.UserUID % 254 + 1) ++ lit ".1/24" ∧
    NetCall.CreateVethPair (lit "veth-h-" ++ user.UserUID.take 6)
        (lit "veth-ns-" ++ user.UserUID.take 6) (lit "wg_" ++ user.UserUID)
        (s.baseSubnet ++ lit "." ++ formatInt (hashUserUID user.UserUID % 254 + 1) ++ lit ".2/30")
        (s.baseSubnet ++ lit "." ++ formatInt (hashUserUID user.UserUID % 254 + 1) ++ lit ".1/30")
      ∈ (ProvisionUserNetwork s user eff).2 ∧
    NetCall.EnableNAT
        (s.baseSubnet ++ lit "." ++ formatInt (hashUserUID user.UserUID % 254 + 1) ++ lit ".0/30")
        s.outInterface
      ∈ (ProvisionUserNetwork s user eff).2 := by
  have hlen : ¬ user.UserUID.length < 6 := by
    intro h
    unfold ProvisionUserNetwork at hok
    simp only [h, ite_true] at hok
    cases hok
  unfold ProvisionUserNetwork at hok ⊢
  simp only [generateNamespaceName, hlen, ite_false] at hok ⊢
  cases h1 : eff.createNamespace <;> simp only [h1] at hok ⊢
  case some => cases hok
  cases h2 : eff.createVethPair <;> simp only [h2] at hok ⊢
  case some => cases hok
  cases h3 : eff.enableNAT <;> simp only [h3] at hok ⊢
  case some => cases hok
  cases h4 : eff.generateKeys <;> simp only [h4] at hok ⊢
  case error => cases hok
  cases h5 : eff.createConfig <;> simp only [h5] at hok ⊢
  case error => cases hok
  cases h6 : eff.startWireguard <;> simp only [h6] at hok ⊢
  case some => cases hok
  cases h7 : eff.setupPortForwarding <;> simp only [h7] at hok ⊢
  case some => cases hok
  simp only [ProvisionResult.ok.injEq] at hok
  subst hok
  refine ⟨by omega, rfl, rfl, rfl, ?_, ?_⟩ <;> simp

/-- The first two calls of a provisioning whose namespace creation succeeds. -/
theorem ProvisionUserNetwork_first_calls (s : UserNetworkService) (user : User)
    (eff : ProvisionEffects) (hlen : 6 ≤ user.UserUID.length)
    (hns : eff.createNamespace = none) :
    (ProvisionUserNetwork s user eff).2.take 2 =
      [.CreateNamespace (lit "wg_" ++ user.UserUID),
        .CreateVethPair (lit "veth-h-" ++ user.UserUID.take 6)
          (lit "veth-ns-" ++ user.UserUID.take 6) (lit "wg_" ++ user.UserUID)
          (s.baseSubnet ++ lit "." ++ formatInt (hashUserUID user.UserUID % 254 + 1) ++ lit ".2/30")
          (s.baseSubnet ++ lit "." ++ formatInt (hashUserUID user.UserUID % 254 + 1) ++
            lit ".1/30")] := by
  unfold ProvisionUserNetwork
  simp only [generateNamespaceName, Nat.not_lt.mpr hlen, ite_false, hns]
  cases h2 : eff.createVethPair <;> simp only [h2]
  case some => rfl
  cases h3 : eff.enableNAT <;> simp only [h3]
  case some => rfl
  cases h4 : eff.generateKeys <;> simp only [h4]
  case error => rfl
  cases h5 : eff.createConfig <;> simp only [h5]
  case error => rfl
  cases h6 : eff.startWireguard <;> simp only [h6]
  case some => rfl
  cases h7 : eff.setupPortForwarding <;> simp only [h7]
  case some => rfl
  rfl

/-- Claim C26.  For every user identifier the derived subnet id lies between 1 and 254;
and when provisioning succeeds, for a base port that keeps `base_port + 9999` inside the
64-bit `int`, the port of the descriptor lies between `base_port` and `base_port + 9999`,
and one and the same subnet id stands in the WireGuard address `10.100.<sid>.1/24` of the
descriptor, in the veth addresses `<base_subnet>.<sid>.2/30` and `.1/30` and in the NAT
subnet `<base_subnet>.<sid>.0/30`. -/
theorem ProvisionUserNetwork_ranges (s : UserNetworkService) (user : User)
    (eff : ProvisionEffects) (d : WireguardServer)
    (hport : -(2 ^ 63) ≤ s.basePort ∧ s.basePort + 9999 < 2 ^ 63)
    (hok : (ProvisionUserNetwork s user eff).1 = .ok d) :
    ∃ sid : Int, sid = (fnv1a32 user.UserUID : Int) % 254 + 1 ∧ 1 ≤ sid ∧ sid ≤ 254 ∧
      s.basePort ≤ d.WgPort ∧ d.WgPort ≤ s.basePort + 9999 ∧
      (s.basePort = 51820 → 0 < d.WgPort ∧ d.WgPort ≤ 61819) ∧
      d.WgAddress = lit "10.100." ++ formatInt sid ++ lit ".1/24" ∧
      (∃ vethHost vethNs nsName, NetCall.CreateVethPair vethHost vethNs nsName
          (s.baseSubnet ++ lit "." ++ formatInt sid ++ lit ".2/30")
          (s.baseSubnet ++ lit "." ++ formatInt sid ++ lit ".1/30")
        ∈ (ProvisionUserNetwork s user eff).2) ∧
      NetCall.EnableNAT (s.baseSubnet ++ lit "." ++ formatInt sid ++ lit ".0/30") s.outInterface
        ∈ (ProvisionUserNetwork s user eff).2 := by
  obtain ⟨_, _, hp, ha, hv, hn⟩ := ProvisionUserNetwork_ok_fields s user eff d hok
  have hr := hashUserUID_ranges user.UserUID
  have hwrap : d.WgPort = s.basePort + hashUserUID user.UserUID % 10000 := by
    rw [hp]
    unfold wrapInt64
    omega
  refine ⟨hashUserUID user.UserUID % 254 + 1, rfl, hr.1, hr.2.1, by omega, by omega,
    by intro h; omega, ha, ⟨_, _, _, hv⟩, hn⟩

/-- Claim C27.  For an identifier of at least 6 bytes the slice `user_uid[:6]` is in
bounds: the provisioning goes on to its calls, and the veth pair it asks for has the names
`veth-h-` + `user_uid[:6]`, of 13 bytes, and `veth-ns-` + `user_uid[:6]`, of 14 bytes, both
at most 15.  For an identifier shorter than 6 bytes `ProvisionUserNetwork` ends in the panic
of the slice expression with no call and no command issued. -/
theorem ProvisionUserNetwork_veth_names (s : UserNetworkService) (w : WireguardService)
    (user : User) (eff : ProvisionEffects) :
    (6 ≤ user.UserUID.length → eff.createNamespace = none →
      ∃ vethHost vethNs nsName nsIP hostIP,
        (ProvisionUserNetwork s user eff).2.take 2 =
          [.CreateNamespace nsName, .CreateVethPair vethHost vethNs nsName nsIP hostIP] ∧
        vethHost = lit "veth-h-" ++ user.UserUID.take 6 ∧ vethHost.length = 13 ∧
        vethNs = lit "veth-ns-" ++ user.UserUID.take 6 ∧ vethNs.length = 14 ∧
        vethHost.length ≤ 15 ∧ vethNs.length ≤ 15) ∧
    (user.UserUID.length < 6 →
      ProvisionUserNetwork s user eff = (.panic, []) ∧
      ∀ (env : Env) (log : Log), Run.ProvisionUserNetwork s w env log user = (.panic, log)) := by
  constructor
  · intro hlen hns
    have h7 : (lit "veth-h-").length = 7 := by decide
    have h8 : (lit "veth-ns-").length = 8 := by decide
    have ht : (user.UserUID.take 6).length = 6 := by
      rw [List.length_take]
      omega
    exact ⟨_, _, _, _, _, ProvisionUserNetwork_first_calls s user eff hlen hns, rfl,
      by rw [List.length_append, h7, ht], rfl, by rw [List.length_append, h8, ht],
      by rw [List.length_append, h7, ht]; omega, by rw [List.length_append, h8, ht]; omega⟩
  · intro hlen
    constructor
    · unfold ProvisionUserNetwork
      simp only [hlen, ite_true]
    · intro env log
      unfold Run.ProvisionUserNetwork
      simp only [hlen, ite_true]

/-- Claim C24, amended.  For every two identifiers of at least 6 bytes whose provisioning
gets past the creation of the namespace: the namespace names `wg_` + `user_uid` are equal
only for equal identifiers; the host veth names are equal exactly when the first six bytes
of the identifiers are equal, and so are the namespace veth names. -/
theorem ProvisionUserNetwork_names (s : UserNetworkService) (user1 user2 : User)
    (eff1 eff2 : ProvisionEffects)
    (hlen1 : 6 ≤ user1.UserUID.length) (hlen2 : 6 ≤ user2.UserUID.length)
    (hns1 : eff1.createNamespace = none) (hns2 : eff2.createNamespace = none) :
    ∃ nsName1 vethHost1 vethNs1 nsIP1 hostIP1 nsName2 vethHost2 vethNs2 nsIP2 hostIP2,
      (ProvisionUserNetwork s user1 eff1).2.take 2 =
        [.CreateNamespace nsName1, .CreateVethPair vethHost1 vethNs1 nsName1 nsIP1 hostIP1] ∧
      (ProvisionUserNetwork s user2 eff2).2.take 2 =
        [.CreateNamespace nsName2, .CreateVethPair vethHost2 vethNs2 nsName2 nsIP2 hostIP2] ∧
      (nsName1 = nsName2 ↔ user1.UserUID = user2.UserUID) ∧
      (vethHost1 = vethHost2 ↔ user1.UserUID.take 6 = user2.UserUID.take 6) ∧
      (vethNs1 = vethNs2 ↔ user1.UserUID.take 6 = user2.UserUID.take 6) := by
  refine ⟨_, _, _, _, _, _, _, _, _, _, ProvisionUserNetwork_first_calls s user1 eff1 hlen1 hns1,
    ProvisionUserNetwork_first_calls s user2 eff2 hlen2 hns2, ?_, ?_, ?_⟩
  · exact ⟨fun h => List.append_cancel_left h, fun h => by rw [h]⟩
  · exact ⟨fun h => List.append_cancel_left h, fun h => by rw [h]⟩
  · exact ⟨fun h => List.append_cancel_left h, fun h => by rw [h]⟩

/-- Claim C24, counterexample.  The identifiers `a1b2c3d4` and `a1b2c3d5` are distinct and
have 8 characters each, yet both provisionings ask for the veth pair `veth-h-a1b2c3`,
`veth-ns-a1b2c3`. -/
theorem ProvisionUserNetwork_veth_names_collide :
    exampleUser.UserUID ≠ neighbourUser.UserUID ∧
    exampleUser.UserUID.length = 8 ∧ neighbourUser.UserUID.length = 8 ∧
    (ProvisionUserNetwork exampleService exampleUser exampleProvisionEffects).2[1]? =
      some (.CreateVethPair (lit "veth-h-a1b2c3") (lit "veth-ns-a1b2c3") (lit "wg_a1b2c3d4")
        (lit "10.200.2.2/30") (lit "10.200.2.1/30")) ∧
    (ProvisionUserNetwork exampleService neighbourUser exampleProvisionEffects).2[1]? =
      some (.CreateVethPair (lit "veth-h-a1b2c3") (lit "veth-ns-a1b2c3") (lit "wg_a1b2c3d5")
        (lit "10.200.99.2/30") (lit "10.200.99.1/30")) := by
  decide

/-! ## The compensation of a failed provisioning -/

/-- Claim C28.  For an identifier of at least 6 bytes, `ProvisionUserNetwork` calls the
steps of the saga in order up to the first one that fails and no later step; when the
creation of the namespace fails nothing follows; when a later step fails the deletion of
the namespace follows the failing step, preceded by the stop of WireGuard when the failing
step is the port publishing; the result is then an error without descriptor, and it is a
descriptor exactly when no step fails.  The deletion of the namespace is the command
`ip netns delete <ns_name>`, the stop is `wg-quick down` in the namespace. -/
theorem ProvisionUserNetwork_compensation (s : UserNetworkService) (user : User)
    (eff : ProvisionEffects) (hlen : 6 ≤ user.UserUID.length) :
    (ProvisionUserNetwork s user eff).2 =
      (sagaSteps s user eff).take (firstFailure eff + 1) ++
        compensation user eff (firstFailure eff) ∧
    (firstFailure eff < 7 → (ProvisionUserNetwork s user eff).1.isError = true) ∧
    (firstFailure eff = 7 → ∃ d, (ProvisionUserNetwork s user eff).1 = .ok d) ∧
    (∀ (env : Env) (log : Log),
      (NetnsService.DeleteNamespace env log (lit "wg_" ++ user.UserUID)).2 =
        log ++ [(.exec [lit "ip", lit "netns", lit "delete", lit "wg_" ++ user.UserUID],
          env.answers log.length)]) ∧
    (∀ (env : Env) (log : Log) (configPath : ByteString),
      (WireguardService.StopWireguardInNamespace env log (lit "wg_" ++ user.UserUID)
          configPath).2 =
        log ++ [(.exec [lit "ip", lit "netns", lit "exec", lit "wg_" ++ user.UserUID,
          lit "wg-quick", lit "down", configPath], env.answers log.length)]) := by
  refine ⟨?_, ?_, ?_, ?_, ?_⟩
  · unfold ProvisionUserNetwork sagaSteps firstFailure compensation
    simp only [generateNamespaceName, Nat.not_lt.mpr hlen, ite_false]
    cases h1 : eff.createNamespace <;> simp only [h1]
    case some => rfl
    cases h2 : eff.createVethPair <;> simp only [h2]
    case some => rfl
    cases h3 : eff.enableNAT <;> simp only [h3]
    case some => rfl
    cases h4 : eff.generateKeys <;> simp only [h4]
    case error => rfl
    cases h5 : eff.createConfig <;> simp only [h5]
    case error => rfl
    cases h6 : eff.startWireguard <;> simp only [h6]
    case some => rfl
    cases h7 : eff.setupPortForwarding <;> simp only [h7]
    case some => rfl
    rfl
  · unfold ProvisionUserNetwork firstFailure
    simp only [generateNamespaceName, Nat.not_lt.mpr hlen, ite_false]
    cases h1 : eff.createNamespace <;> simp only [h1]
    case some => intro _; rfl
    cases h2 : eff.createVethPair <;> simp only [h2]
    case some => intro _; rfl
    cases h3 : eff.enableNAT <;> simp only [h3]
    case some => intro _; rfl
    cases h4 : eff.generateKeys <;> simp only [h4]
    case error => intro _; rfl
    cases h5 : eff.createConfig <;> simp only [h5]
    case error => intro _; rfl
    cases h6 : eff.startWireguard <;> simp only [h6]
    case some => intro _; rfl
    cases h7 : eff.setupPortForwarding <;> simp only [h7]
    case some => intro _; rfl
    intro h
    simp [Except.toBool] at h
  · unfold ProvisionUserNetwork firstFailure
    simp only [generateNamespaceName, Nat.not_lt.mpr hlen, ite_false]
    cases h1 : eff.createNamespace <;> simp only [h1]
    case some => intro h; simp [Except.toBool] at h
    cases h2 : eff.createVethPair <;> simp only [h2]
    case some => intro h; simp [Except.toBool] at h
    cases h3 : eff.enableNAT <;> simp only [h3]
    case some => intro h; simp [Except.toBool] at h
    cases h4 : eff.generateKeys <;> simp only [h4]
    case error => intro h; simp [Except.toBool] at h
    cases h5 : eff.createConfig <;> simp only [h5]
    case error => intro h; simp [Except.toBool] at h
    cases h6 : eff.startWireguard <;> simp only [h6]
    case some => intro h; simp [Except.toBool] at h
    cases h7 : eff.setupPortForwarding <;> simp only [h7]
    case some => intro h; simp [Except.toBool] at h
    intro _
    exact ⟨_, rfl⟩
  · intro env log
    simp only [NetnsService.DeleteNamespace, runCommands_single]
  · intro env log configPath
    simp only [WireguardService.StopWireguardInNamespace, runCommands_single]

/-! ## The allocator on the derived address -/

theorem formatInt_ofNat (n : Nat) : formatInt (n : Int) = formatNat n := by
  unfold formatInt
  have h : ¬ ((n : Int) < 0) := by omega
  simp only [h, ite_false, Int.toNat_ofNat]

/-- The WireGuard address the provisioner derives is the server address `10.100.<sid>.1/24`
of the allocator. -/
theorem derived_address_eq_serverCIDR (userUID : ByteString) :
    lit "10.100." ++ formatInt (hashUserUID userUID % 254 + 1) ++ lit ".1/24"
      = serverCIDR 10 100 (fnv1a32 userUID % 254 + 1) := by
  have h : hashUserUID userUID % 254 + 1 = ((fnv1a32 userUID % 254 + 1 : Nat) : Int) := by
    unfold hashUserUID
    push_cast
    rfl
  rw [h, formatInt_ofNat]
  have h1 : lit "10.100." = formatNat 10 ++ [dot] ++ formatNat 100 ++ [dot] := by decide
  have h2 : lit ".1/24" = [dot] ++ formatNat 1 ++ [slash] ++ lit "24" := by decide
  rw [h1, h2]
  simp only [serverCIDR, dottedQuad, List.append_assoc]

theorem dottedQuad_derived (sid n : Nat) :
    dottedQuad 10 100 sid n = lit "10.100." ++ formatNat sid ++ lit "." ++ formatNat n := by
  have h1 : lit "10.100." = formatNat 10 ++ [dot] ++ formatNat 100 ++ [dot] := by decide
  have h2 : lit "." = [dot] := by decide
  rw [h1, h2]
  simp only [dottedQuad, List.append_assoc]

/-- Claim C30.  When provisioning succeeds for a user, with `sid` the subnet id derived
from the identifier, the allocator applied to the WireGuard address of the descriptor,
`10.100.<sid>.1/24`, never fails with one of the two invalid-address errors, whatever the
peer query answers; with an empty peer catalog it returns `10.100.<sid>.2`; and every
address it returns is `10.100.<sid>.<n>` with `n` between 2 and 254. -/
theorem allocatePeerIP_on_derived_address (s : UserNetworkService) (user : User)
    (eff : ProvisionEffects) (d : WireguardServer)
    (hok : (ProvisionUserNetwork s user eff).1 = .ok d) :
    6 ≤ user.UserUID.length ∧
    d.WgAddress = lit "10.100." ++ formatNat (fnv1a32 user.UserUID % 254 + 1) ++ lit ".1/24" ∧
    (∀ (find : Nat → Except String (List WireguardPeer)) (serverID : Nat),
      allocatePeerIP find serverID d.WgAddress ≠ .error .invalidServerAddressFormat ∧
      allocatePeerIP find serverID d.WgAddress ≠ .error .invalidIPAddressFormat) ∧
    (∀ serverID : Nat, allocatePeerIP (fun _ => .ok []) serverID d.WgAddress =
      .ok (lit "10.100." ++ formatNat (fnv1a32 user.UserUID % 254 + 1) ++ lit ".2")) ∧
    (∀ (find : Nat → Except String (List WireguardPeer)) (serverID : Nat) (ip : ByteString),
      allocatePeerIP find serverID d.WgAddress = .ok ip →
      ∃ n, 2 ≤ n ∧ n ≤ 254 ∧
        ip = lit "10.100." ++ formatNat (fnv1a32 user.UserUID % 254 + 1) ++ lit "." ++
          formatNat n) := by
  obtain ⟨hlen, _, _, ha, _, _⟩ := ProvisionUserNetwork_ok_fields s user eff d hok
  have hcidr := derived_address_eq_serverCIDR user.UserUID
  rw [← ha] at hcidr
  refine ⟨hlen, ?_, ?_, ?_, ?_⟩
  · rw [ha]
    have h : hashUserUID user.UserUID % 254 + 1
        = ((fnv1a32 user.UserUID % 254 + 1 : Nat) : Int) := by
      unfold hashUserUID
      push_cast
      rfl
    rw [h, formatInt_ofNat]
  · intro find serverID
    rw [hcidr, allocatePeerIP_serverCIDR]
    cases find serverID with
    | error e => simp
    | ok peers =>
      simp only
      split <;> simp
  · intro serverID
    rw [hcidr]
    have h := (allocatePeerIP_ok_iff (fun _ => .ok []) serverID 10 100
      (fnv1a32 user.UserUID % 254 + 1) [] rfl
      (dottedQuad 10 100 (fnv1a32 user.UserUID % 254 + 1) 2)).mpr
      ⟨2, by omega, by omega, rfl, by simp [peerAddresses], by
        intro m hm2 hm
        omega⟩
    rw [h, dottedQuad_derived]
    have h2 : formatNat 2 = lit "2" := by decide
    have h3 : lit ".2" = lit "." ++ lit "2" := by decide
    rw [h2, h3]
    simp only [List.append_assoc]
  · intro find serverID ip hip
    rw [hcidr] at hip
    cases hf : find serverID with
    | error e =>
      rw [allocatePeerIP_serverCIDR, hf] at hip
      simp at hip
    | ok peers =>
      obtain ⟨n, h2, h254, rfl, _⟩ :=
        (allocatePeerIP_ok_iff find serverID 10 100 _ peers hf ip).mp hip
      exact ⟨n, h2, h254, dottedQuad_derived _ _⟩

/-! ## The secret fields of a dump -/

theorem getD_of_set_eq (k j : Nat) (hjk : k ≠ j) (f g : List Text)
    (h : f.set k [] = g.set k []) : f.getD j [] = g.getD j [] := by
  have h1 := congrArg (fun l => l[j]?) h
  simp only [List.getElem?_set_ne hjk] at h1
  simp only [List.getD_eq_getElem?_getD, h1]

theorem length_of_set_eq (k : Nat) (f g : List Text) (h : f.set k [] = g.set k []) :
    f.length = g.length := by
  have h1 := congrArg List.length h
  simpa using h1

/-- The interface line is read without its first field. -/
theorem parseInterfaceLine_blank (stats : WireguardServerStats) (l l' : Text)
    (h : (Fields l).set 0 [] = (Fields l').set 0 []) :
    parseInterfaceLine stats l = parseInterfaceLine stats l' := by
  unfold parseInterfaceLine
  simp only [length_of_set_eq 0 _ _ h, getD_of_set_eq 0 2 (by decide) _ _ h,
    getD_of_set_eq 0 3 (by decide) _ _ h]

/-- A peer line is read without its second field. -/
theorem parsePeerLine_blank (stats : WireguardServerStats) (l l' : Text)
    (h : (Fields l).set 1 [] = (Fields l').set 1 []) :
    parsePeerLine stats l = parsePeerLine stats l' := by
  unfold parsePeerLine
  simp only [length_of_set_eq 1 _ _ h, getD_of_set_eq 1 0 (by decide) _ _ h,
    getD_of_set_eq 1 2 (by decide) _ _ h, getD_of_set_eq 1 3 (by decide) _ _ h,
    getD_of_set_eq 1 4 (by decide) _ _ h, getD_of_set_eq 1 5 (by decide) _ _ h,
    getD_of_set_eq 1 6 (by decide) _ _ h, getD_of_set_eq 1 7 (by decide) _ _ h]

theorem foldl_parsePeerLine_blank (ls : List Text) :
    ∀ (ls' : List Text) (stats : WireguardServerStats),
      ls.map (fun line => (Fields line).set 1 []) = ls'.map (fun line => (Fields line).set 1 []) →
      ls.foldl parsePeerLine stats = ls'.foldl parsePeerLine stats := by
  induction ls with
  | nil =>
    intro ls' stats h
    cases ls' with
    | nil => rfl
    | cons b bs => simp at h
  | cons a as ih =>
    intro ls' stats h
    cases ls' with
    | nil => simp at h
    | cons b bs =>
      simp only [List.map_cons, List.cons.injEq] at h
      simp only [List.foldl_cons]
      rw [parsePeerLine_blank stats a b h.1]
      exact ih bs _ h.2

theorem parseLines_blank (interfaceName : Text) (ls ls' : List Text)
    (h : blankSecrets ls = blankSecrets ls') :
    parseLines interfaceName ls = parseLines interfaceName ls' := by
  cases ls with
  | nil =>
    cases ls' with
    | nil => rfl
    | cons b bs => simp [blankSecrets] at h
  | cons a as =>
    cases ls' with
    | nil => simp [blankSecrets] at h
    | cons b bs =>
      simp only [blankSecrets, List.cons.injEq] at h
      unfold parseLines
      simp only [List.getD_cons_zero, List.drop_succ_cons, List.drop_zero]
      rw [parseInterfaceLine_blank _ a b h.1, foldl_parsePeerLine_blank as bs _ h.2]

/-- Claim C29.  `parseWireguardDump` reads no secret key: two dump texts whose lines have
the same fields, apart from the first field of the interface line (the private key) and
the second field of every peer line (the preshared key), which may hold any other token,
give equal results. -/
theorem parseWireguardDump_ignores_secrets (output output' interfaceName : Text)
    (h : blankSecrets (dumpLines output) = blankSecrets (dumpLines output')) :
    parseWireguardDump output interfaceName = parseWireguardDump output' interfaceName := by
  rw [parseWireguardDump_eq_parseLines, parseWireguardDump_eq_parseLines,
    parseLines_blank interfaceName _ _ h]

/-! ## The existence check of a namespace -/

theorem namespaceListed_iff (output name : ByteString) :
    namespaceListed output name = true ↔
      ∃ line ∈ Split output newline,
        trimSpaceBytes (line.takeWhile (fun b => b != space)) = name := by
  unfold namespaceListed
  rw [List.any_eq_true]
  constructor
  · rintro ⟨line, hl, h⟩
    refine ⟨line, hl, ?_⟩
    unfold Split at h
    rw [head_splitOn_eq_takeWhile] at h
    simpa using h
  · rintro ⟨line, hl, h⟩
    refine ⟨line, hl, ?_⟩
    unfold Split
    rw [head_splitOn_eq_takeWhile]
    simpa using h

theorem takeWhile_before_space (name rest : ByteString) (h : space ∉ name) :
    (name ++ space :: rest).takeWhile (fun b => b != space) = name := by
  rw [List.takeWhile_append_of_pos]
  · simp
  · intro b hb
    have : b ≠ space := fun hbs => h (hbs ▸ hb)
    simpa using this

theorem takeWhile_no_space (name : ByteString) (h : space ∉ name) :
    name.takeWhile (fun b => b != space) = name := by
  rw [List.takeWhile_eq_self_iff]
  intro b hb
  have : b ≠ space := fun hbs => h (hbs ▸ hb)
  simpa using this

/-- Claim C25, amended.  When `ip netns list` succeeds, `NamespaceExists` returns no error,
and it returns true if and only if, for some line of the output, the part of the line before
its first space, with the white space around it trimmed, equals the name.  So, for a name
without space and without white space at its ends, it is true when a line is the name or the
name followed by a space and anything, such as `name (id: 0)`; a tab after the name does not
end the token, spaces before the name make the token empty. -/
theorem NamespaceExists_iff (env : Env) (log : Log) (name : ByteString)
    (hok : (env.answers log.length).failed = false) :
    ∃ found : Bool,
      NetnsService.NamespaceExists env log name =
        (.ok found, log ++ [(.exec [lit "ip", lit "netns", lit "list"],
          env.answers log.length)]) ∧
      (found = true ↔
        ∃ line ∈ Split (env.answers log.length).output newline,
          trimSpaceBytes (line.takeWhile (fun b => b != space)) = name) ∧
      (space ∉ name → trimSpaceBytes name = name →
        ∀ line ∈ Split (env.answers log.length).output newline,
          (line = name ∨ ∃ rest, line = name ++ space :: rest) → found = true) := by
  refine ⟨namespaceListed (env.answers log.length).output name, ?_, namespaceListed_iff _ _, ?_⟩
  · unfold NetnsService.NamespaceExists
    simp only [perform, hok, Bool.false_eq_true, if_false]
  · intro hsp htrim line hline hcase
    rw [namespaceListed_iff]
    refine ⟨line, hline, ?_⟩
    rcases hcase with rfl | ⟨rest, rfl⟩
    · rw [takeWhile_no_space _ hsp, htrim]
    · rw [takeWhile_before_space _ _ hsp, htrim]

/-- Claim C25, counterexample.  On the output `wg_a<tab>(id: 0)` the first token delimited
by space or tab is `wg_a`, and `NamespaceExists("wg_a")` returns false; on the output
` wg_a (id: 0)`, with a space before the name, it returns false as well. -/
theorem NamespaceExists_tab_separated :
    (Split (lit "wg_a\t(id: 0)\n") newline).map firstToken = [some (lit "wg_a"), none] ∧
    (NetnsService.NamespaceExists (printingHost (lit "wg_a\t(id: 0)\n")) [] (lit "wg_a")).1
      = .ok false ∧
    (Split (lit " wg_a (id: 0)\n") newline).map firstToken = [some (lit "wg_a"), none] ∧
    (NetnsService.NamespaceExists (printingHost (lit " wg_a (id: 0)\n")) [] (lit "wg_a")).1
      = .ok false := by
  decide

/-! ## The client configuration -/

theorem formatInt_no_newline (i : Int) : newline ∉ formatInt i := by
  have hnat : ∀ n : Nat, newline ∉ formatNat n := by
    intro n h
    unfold formatNat at h
    rw [List.mem_map] at h
    obtain ⟨d, hd, hd2⟩ := h
    have hlt := decimalDigits_lt _ _ d (List.mem_reverse.mp hd)
    revert hd2
    interval_cases d <;> decide
  unfold formatInt
  split
  · intro h
    rcases List.mem_cons.mp h with h | h
    · revert h; decide
    · exact hnat _ h
  · exact hnat _

set_option maxRecDepth 4000 in
/-- The lines of the client configuration: the forwarding block stands between the
`[Interface]` stanza and the `[Peer]` stanza exactly when forwarding is enabled through a
named interface. -/
theorem configContent_lines (serverIP : ByteString) (wgServer : WireguardServer)
    (peer : WireguardPeer)
    (hkey : newline ∉ peer.PrivateKey) (haddr : newline ∉ peer.PeerAddress)
    (hfwd : newline ∉ peer.ForwardInterface) (hpub : newline ∉ wgServer.WgPublicKey)
    (hip : newline ∉ serverIP) :
    Split (GetPeerConfig.configContent serverIP wgServer peer) newline =
      [lit "[Interface]",
        lit "PrivateKey = " ++ peer.PrivateKey,
        lit "Address = " ++ peer.PeerAddress ++ lit "/32",
        lit "DNS = 1.1.1.1, 8.8.8.8"] ++
      (if peer.EnableForwarding = true ∧ peer.ForwardInterface ≠ [] then
        [lit "PostUp = iptables -t nat -A POSTROUTING -o " ++ peer.ForwardInterface ++
            lit " -j MASQUERADE; iptables -A FORWARD -i %i -j ACCEPT; iptables -A FORWARD -o %i -j ACCEPT",
          lit "PreDown = iptables -t nat -D POSTROUTING -o " ++ peer.ForwardInterface ++
            lit " -j MASQUERADE; iptables -D FORWARD -i %i -j ACCEPT; iptables -D FORWARD -o %i -j ACCEPT"]
      else []) ++
      [[], lit "[Peer]",
        lit "PublicKey = " ++ wgServer.WgPublicKey,
        lit "Endpoint = " ++ serverIP ++ lit ":" ++ formatInt wgServer.WgPort,
        lit "AllowedIPs = 0.0.0.0/0, ::/0",
        lit "PersistentKeepalive = " ++ formatInt peer.PersistentKeepalive, []] := by
  have hport := formatInt_no_newline wgServer.WgPort
  have hka := formatInt_no_newline peer.PersistentKeepalive
  by_cases hc : peer.EnableForwarding = true ∧ peer.ForwardInterface ≠ []
  · have hlines := split_lines
      [lit "[Interface]",
        lit "PrivateKey = " ++ peer.PrivateKey,
        lit "Address = " ++ peer.PeerAddress ++ lit "/32",
        lit "DNS = 1.1.1.1, 8.8.8.8",
        lit "PostUp = iptables -t nat -A POSTROUTING -o " ++ peer.ForwardInterface ++
          lit " -j MASQUERADE; iptables -A FORWARD -i %i -j ACCEPT; iptables -A FORWARD -o %i -j ACCEPT",
        lit "PreDown = iptables -t nat -D POSTROUTING -o " ++ peer.ForwardInterface ++
          lit " -j MASQUERADE; iptables -D FORWARD -i %i -j ACCEPT; iptables -D FORWARD -o %i -j ACCEPT",
        [], lit "[Peer]",
        lit "PublicKey = " ++ wgServer.WgPublicKey,
        lit "Endpoint = " ++ serverIP ++ lit ":" ++ formatInt wgServer.WgPort,
        lit "AllowedIPs = 0.0.0.0/0, ::/0",
        lit "PersistentKeepalive = " ++ formatInt peer.PersistentKeepalive]
      (by
        simp only [List.forall_mem_cons, List.mem_append, not_or]
        simp +decide [hkey, haddr, hfwd, hpub, hip, hport, hka])
    simp only [if_pos hc]
    refine Eq.trans (congrArg (fun t => Split t newline) ?_) hlines
    simp only [GetPeerConfig.configContent, if_pos hc, List.map_cons, List.map_nil,
      List.flatten_cons, List.flatten_nil, List.append_assoc, List.append_nil]
    rfl
  · have hlines := split_lines
      [lit "[Interface]",
        lit "PrivateKey = " ++ peer.PrivateKey,
        lit "Address = " ++ peer.PeerAddress ++ lit "/32",
        lit "DNS = 1.1.1.1, 8.8.8.8",
        [], lit "[Peer]",
        lit "PublicKey = " ++ wgServer.WgPublicKey,
        lit "Endpoint = " ++ serverIP ++ lit ":" ++ formatInt wgServer.WgPort,
        lit "AllowedIPs = 0.0.0.0/0, ::/0",
        lit "PersistentKeepalive = " ++ formatInt peer.PersistentKeepalive]
      (by
        simp only [List.forall_mem_cons, List.mem_append, not_or]
        simp +decide [hkey, haddr, hpub, hip, hport, hka])
    simp only [if_neg hc]
    refine Eq.trans (congrArg (fun t => Split t newline) ?_) hlines
    simp only [GetPeerConfig.configContent, if_neg hc, List.map_cons, List.map_nil,
      List.flatten_cons, List.flatten_nil, List.append_assoc, List.append_nil]
    rfl

set_option maxRecDepth 4000 in
/-- Claim C21.  For a peer of the caller's server, with key, addresses and interface name
free of line feeds, `GetPeerConfig` answers a text whose lines are: the `[Interface]` stanza
with `PrivateKey` the private key of the peer, `Address = <peer_address>/32` and
`DNS = 1.1.1.1, 8.8.8.8`; then, if and only if `enable_forwarding` is true and
`forward_interface` is not empty, one `PostUp` and one `PreDown` line with the `MASQUERADE`
rule on `forward_interface` and the token `%i` (a percent sign and the letter i) as it
stands; then the `[Peer]` stanza with the public key of the server,
`Endpoint = <server_ip>:<wg_port>`, `AllowedIPs = 0.0.0.0/0, ::/0` and
`PersistentKeepalive` the keepalive of the row. -/
theorem GetPeerConfig_content (serverIP : ByteString) (db : DatabaseFaults) (cat : Catalog)
    (userID peerID : Nat) (wgServer : WireguardServer) (peer : WireguardPeer)
    (hs : cat.firstServer db.serverQueryFails userID = some wgServer)
    (hp : cat.firstPeer db.peerQueryFails peerID = some peer)
    (ho : peer.ServerID = wgServer.ID)
    (hkey : newline ∉ peer.PrivateKey) (haddr : newline ∉ peer.PeerAddress)
    (hfwd : newline ∉ peer.ForwardInterface) (hpub : newline ∉ wgServer.WgPublicKey)
    (hip : newline ∉ serverIP) :
    ∃ config, GetPeerConfig serverIP db cat userID (some peerID) = .success config ∧
      Split config newline =
        [lit "[Interface]",
          lit "PrivateKey = " ++ peer.PrivateKey,
          lit "Address = " ++ peer.PeerAddress ++ lit "/32",
          lit "DNS = 1.1.1.1, 8.8.8.8"] ++
        (if peer.EnableForwarding = true ∧ peer.ForwardInterface ≠ [] then
          [lit "PostUp = iptables -t nat -A POSTROUTING -o " ++ peer.ForwardInterface ++
              lit " -j MASQUERADE; iptables -A FORWARD -i %i -j ACCEPT; iptables -A FORWARD -o %i -j ACCEPT",
            lit "PreDown = iptables -t nat -D POSTROUTING -o " ++ peer.ForwardInterface ++
              lit " -j MASQUERADE; iptables -D FORWARD -i %i -j ACCEPT; iptables -D FORWARD -o %i -j ACCEPT"]
        else []) ++
        [[], lit "[Peer]",
          lit "PublicKey = " ++ wgServer.WgPublicKey,
          lit "Endpoint = " ++ serverIP ++ lit ":" ++ formatInt wgServer.WgPort,
          lit "AllowedIPs = 0.0.0.0/0, ::/0",
          lit "PersistentKeepalive = " ++ formatInt peer.PersistentKeepalive, []] ∧
      (commandsOf (lit "PostUp") config ≠ [] ↔
        peer.EnableForwarding = true ∧ peer.ForwardInterface ≠ []) ∧
      (commandsOf (lit "PreDown") config ≠ [] ↔
        peer.EnableForwarding = true ∧ peer.ForwardInterface ≠ []) ∧
      (peer.EnableForwarding = true ∧ peer.ForwardInterface ≠ [] →
        commandsOf (lit "PostUp") config =
          [lit "iptables -t nat -A POSTROUTING -o " ++ peer.ForwardInterface ++
            lit " -j MASQUERADE; iptables -A FORWARD -i " ++ [37, 105] ++
            lit " -j ACCEPT; iptables -A FORWARD -o " ++ [37, 105] ++ lit " -j ACCEPT"] ∧
        commandsOf (lit "PreDown") config =
          [lit "iptables -t nat -D POSTROUTING -o " ++ peer.ForwardInterface ++
            lit " -j MASQUERADE; iptables -D FORWARD -i " ++ [37, 105] ++
            lit " -j ACCEPT; iptables -D FORWARD -o " ++ [37, 105] ++ lit " -j ACCEPT"]) := by
  have hlines := configContent_lines serverIP wgServer peer hkey haddr hfwd hpub hip
  refine ⟨GetPeerConfig.configContent serverIP wgServer peer, ?_, hlines, ?_, ?_, ?_⟩
  · simp only [GetPeerConfig, hs, hp, ho, ne_eq, not_true_eq_false, if_false]
  · unfold commandsOf
    rw [hlines]
    by_cases hc : peer.EnableForwarding = true ∧ peer.ForwardInterface ≠ []
    · simp only [if_pos hc, hc, ne_eq, not_false_eq_true, and_self, iff_true]
      simp only [List.append_assoc]
      intro h
      have h2 := congrArg List.length h
      revert h2
      exact (by decide : ¬ (1 = 0))
    · simp only [if_neg hc, hc, iff_false, not_not]
      simp only [List.append_assoc]
      rfl
  · unfold commandsOf
    rw [hlines]
    by_cases hc : peer.EnableForwarding = true ∧ peer.ForwardInterface ≠ []
    · simp only [if_pos hc, hc, ne_eq, not_false_eq_true, and_self, iff_true]
      simp only [List.append_assoc]
      intro h
      have h2 := congrArg List.length h
      revert h2
      exact (by decide : ¬ (1 = 0))
    · simp only [if_neg hc, hc, iff_false, not_not]
      simp only [List.append_assoc]
      rfl
  · intro hc
    unfold commandsOf
    rw [hlines]
    simp only [if_pos hc, List.append_assoc]
    exact ⟨rfl, rfl⟩

/-! ## Provisioning on a host where nothing fails -/

theorem runCommands_ok (env : Env) (hall : ∀ n, (env.answers n).failed = false)
    (commands : List (List ByteString × String)) :
    ∀ log : Log, runCommands env log commands =
      (none, log ++ answered env log.length (commands.map (fun c => Action.exec c.1))) := by
  induction commands with
  | nil => intro log; simp [runCommands, answered]
  | cons c cs ih =>
    intro log
    obtain ⟨argv, message⟩ := c
    unfold runCommands
    simp only [perform, hall, Bool.false_eq_true, if_false, ih, List.length_append,
      List.length_singleton, List.map_cons, answered, List.append_assoc, List.singleton_append]

theorem GenerateKeys_ok (env : Env) (hall : ∀ n, (env.answers n).failed = false) (log : Log) :
    WireguardService.GenerateKeys env log =
      (.ok (trimSpaceBytes (env.answers log.length).output,
          trimSpaceBytes (env.answers (log.length + 1)).output),
        log ++ [(.exec [lit "wg", lit "genkey"], env.answers log.length),
          (.execStdin [lit "wg", lit "pubkey"] (trimSpaceBytes (env.answers log.length).output),
            env.answers (log.length + 1))]) := by
  unfold WireguardService.GenerateKeys
  simp only [perform, hall, Bool.false_eq_true, if_false, List.length_append,
    List.length_singleton, List.append_assoc, List.singleton_append]

theorem CreateConfig_run_ok (w : WireguardService) (env : Env)
    (hall : ∀ n, (env.answers n).failed = false) (log : Log) (username : ByteString)
    (config : WireguardConfig) :
    w.CreateConfig env log username config =
      (.ok (env.pathJoin [env.pathJoin [w.configDir, username],
          config.InterfaceName ++ lit ".conf"]),
        log ++ [(.mkdirAll (env.pathJoin [w.configDir, username]) 0o700,
            env.answers log.length),
          (.writeFile (env.pathJoin [env.pathJoin [w.configDir, username],
              config.InterfaceName ++ lit ".conf"]) (configContent config) 0o600,
            env.answers (log.length + 1))]) := by
  unfold WireguardService.CreateConfig
  simp only [perform, hall, Bool.false_eq_true, if_false, List.length_append,
    List.length_singleton, List.append_assoc, List.singleton_append]

/-- On a host where no action fails, provisioning succeeds for every identifier of at least
6 bytes, from any state of the run: the descriptor carries the derived address, and the
commands added to the run hold the NAT rule of the derived veth subnet. -/
theorem ProvisionUserNetwork_run_ok (s : UserNetworkService) (w : WireguardService) (env : Env)
    (hall : ∀ n, (env.answers n).failed = false) (log : Log) (user : User)
    (hlen : 6 ≤ user.UserUID.length) :
    ∃ d, (Run.ProvisionUserNetwork s w env log user).1 = .ok d ∧
      d.Namespace = lit "wg_" ++ user.UserUID ∧
      d.WgAddress =
        lit "10.100." ++ formatInt (hashUserUID user.UserUID % 254 + 1) ++ lit ".1/24" ∧
      (Run.ProvisionUserNetwork s w env log user).2.take log.length = log ∧
      Action.exec [lit "iptables", lit "-t", lit "nat", lit "-A", lit "POSTROUTING", lit "-s",
          s.baseSubnet ++ lit "." ++ formatInt (hashUserUID user.UserUID % 254 + 1) ++
            lit ".0/30",
          lit "-o", s.outInterface, lit "-j", lit "MASQUERADE"]
        ∈ Log.actions ((Run.ProvisionUserNetwork s w env log user).2.drop log.length) := by
  unfold Run.ProvisionUserNetwork
  simp only [Nat.not_lt.mpr hlen, if_false, NetnsService.CreateNamespace,
    NetnsService.CreateVethPair, NetnsService.EnableNAT, NetnsService.SetupPortForwarding,
    WireguardService.StartWireguardInNamespace, runCommands_ok env hall,
    GenerateKeys_ok env hall, CreateConfig_run_ok w env hall, generateNamespaceName,
    List.append_assoc, List.take_left', List.drop_left']
  refine ⟨_, rfl, rfl, rfl, ?_, ?_⟩
  · simp
  · simp [answered, Log.actions]

/-- Claim C22, amended.  `ProvisionUserNetwork` makes no check against earlier
provisionings.  On a host where no command fails, for every two identifiers of at least 6
bytes with the same subnet id, provisioning the first and then the second returns two
descriptors with the same WireGuard address `10.100.<sid>.1/24`, and both runs append the
NAT rule of the same veth subnet `<base_subnet>.<sid>.0/30`. -/
theorem ProvisionUserNetwork_ignores_collision (s : UserNetworkService) (w : WireguardService)
    (env : Env) (hall : ∀ n, (env.answers n).failed = false) (log : Log) (user1 user2 : User)
    (hlen1 : 6 ≤ user1.UserUID.length) (hlen2 : 6 ≤ user2.UserUID.length)
    (hsid : hashUserUID user1.UserUID % 254 = hashUserUID user2.UserUID % 254) :
    ∃ d1 d2,
      (Run.ProvisionUserNetwork s w env log user1).1 = .ok d1 ∧
      (Run.ProvisionUserNetwork s w env (Run.ProvisionUserNetwork s w env log user1).2
        user2).1 = .ok d2 ∧
      d1.WgAddress = d2.WgAddress ∧
      d2.WgAddress =
        lit "10.100." ++ formatInt (hashUserUID user2.UserUID % 254 + 1) ++ lit ".1/24" ∧
      Action.exec [lit "iptables", lit "-t", lit "nat", lit "-A", lit "POSTROUTING", lit "-s",
          s.baseSubnet ++ lit "." ++ formatInt (hashUserUID user2.UserUID % 254 + 1) ++
            lit ".0/30",
          lit "-o", s.outInterface, lit "-j", lit "MASQUERADE"]
        ∈ Log.actions ((Run.ProvisionUserNetwork s w env log user1).2.drop log.length) ∧
      Action.exec [lit "iptables", lit "-t", lit "nat", lit "-A", lit "POSTROUTING", lit "-s",
          s.baseSubnet ++ lit "." ++ formatInt (hashUserUID user2.UserUID % 254 + 1) ++
            lit ".0/30",
          lit "-o", s.outInterface, lit "-j", lit "MASQUERADE"]
        ∈ Log.actions ((Run.ProvisionUserNetwork s w env
            (Run.ProvisionUserNetwork s w env log user1).2 user2).2.drop
            (Run.ProvisionUserNetwork s w env log user1).2.length) := by
  obtain ⟨d1, hd1, _, ha1, _, hn1⟩ := ProvisionUserNetwork_run_ok s w env hall log user1 hlen1
  obtain ⟨d2, hd2, _, ha2, _, hn2⟩ := ProvisionUserNetwork_run_ok s w env hall
    (Run.ProvisionUserNetwork s w env log user1).2 user2 hlen2
  rw [hsid] at ha1 hn1
  exact ⟨d1, d2, hd1, hd2, ha1.trans ha2.symm, ha2, hn1, hn2⟩

/-- Claim C22, counterexample.  The identifiers `a1b2c3d4` and `00000057` are distinct and
both have the subnet id 2.  After the provisioning of the first, on a host where nothing
fails, the provisioning of the second returns a descriptor, with the same WireGuard address
`10.100.2.1/24`, and no error. -/
theorem ProvisionUserNetwork_collision_accepted :
    exampleUser.UserUID ≠ collidingUser.UserUID ∧
    hashUserUID exampleUser.UserUID % 254 + 1 = 2 ∧
    hashUserUID collidingUser.UserUID % 254 + 1 = 2 ∧
    Run.ProvisionUserNetwork exampleService exampleWireguardService neverFailing []
      exampleUser = (.ok provisionedDescriptor, provisionedRun) ∧
    (Run.ProvisionUserNetwork exampleService exampleWireguardService neverFailing
      provisionedRun collidingUser).1 = .ok collidingDescriptor ∧
    provisionedDescriptor.WgAddress = lit "10.100.2.1/24" ∧
    collidingDescriptor.WgAddress = lit "10.100.2.1/24" :=
  ⟨by decide, by decide, by decide, by rfl, by rfl, by decide, by decide⟩

/-! ## Witnesses -/

/-- Witness of C1: scenario S2, server `10.100.5.1/24` with peers `.2`, `.3`, `.5`. -/
theorem allocatePeerIP_first_unused_witness :
    (∃ k, 2 ≤ k ∧ k ≤ 254 ∧ dottedQuad 10 100 5 k ∉ peerAddresses examplePeers) ∧
    (∃ n, 2 ≤ n ∧ n ≤ 254 ∧ dottedQuad 10 100 5 n ∉ peerAddresses examplePeers ∧
      (∀ m, 2 ≤ m → m < n → dottedQuad 10 100 5 m ∈ peerAddresses examplePeers) ∧
      allocatePeerIP (fun _ => .ok examplePeers) 1 (serverCIDR 10 100 5)
        = .ok (dottedQuad 10 100 5 n)) ∧
    serverCIDR 10 100 5 = lit "10.100.5.1/24" ∧
    allocatePeerIP (fun _ => .ok examplePeers) 1 (lit "10.100.5.1/24") = .ok (lit "10.100.5.4") :=
  ⟨⟨4, by decide⟩, allocatePeerIP_first_unused 10 100 5 1 examplePeers ⟨4, by decide⟩,
    by decide, by decide⟩

/-- Witness of C2: two additions, a removal and an addition on `10.100.5.1/24`. -/
theorem peer_ip_uniqueness_witness :
    exampleCatalog.firstServer false 7 = some exampleServer ∧
    exampleServer.WgAddress = serverCIDR 10 100 5 ∧
    (exampleCatalog.peerAddresses exampleServer.ID).Nodup ∧
    dottedQuad 10 100 5 1 ∉ exampleCatalog.peerAddresses exampleServer.ID ∧
    (((runPeerOps 7 exampleCatalog exampleOps).1.peerAddresses exampleServer.ID).Nodup ∧
      dottedQuad 10 100 5 1 ∉ (runPeerOps 7 exampleCatalog exampleOps).1.peerAddresses
        exampleServer.ID ∧
      ∀ p, PeerOpResult.add (.created p) ∈ (runPeerOps 7 exampleCatalog exampleOps).2 →
        ∃ n, 2 ≤ n ∧ n ≤ 254 ∧ p.PeerAddress = dottedQuad 10 100 5 n) ∧
    (runPeerOps 7 exampleCatalog exampleOps).1.peerAddresses exampleServer.ID =
      [lit "10.100.5.3", lit "10.100.5.2"] :=
  ⟨by decide, by decide, by decide, by decide,
    peer_ip_uniqueness 10 100 5 7 exampleServer exampleCatalog (by decide) (by decide)
      (by decide) (by decide) exampleOps,
    by decide⟩

/-- Witness of C4: 253 additions with an empty `allowed_ips`, then one more. -/
theorem subnet_exhaustion_witness :
    exampleCatalog.peerAddresses exampleServer.ID = [] ∧
    (List.replicate 253 (exampleRequest, okEffects)).length = 253 ∧
    okEffects.succeeds = true ∧
    ((∀ k, k < 253 → ∃ p,
      (runPeerOps 7 exampleCatalog ((List.replicate 253 (exampleRequest, okEffects)).map
        (fun c => PeerOp.add (some c.1) c.2))).2[k]? = some (.add (.created p)) ∧
        p.PeerAddress = dottedQuad 10 100 5 (k + 2)) ∧
    AddPeer (runPeerOps 7 exampleCatalog ((List.replicate 253 (exampleRequest, okEffects)).map
        (fun c => PeerOp.add (some c.1) c.2))).1 7 (some exampleRequest) okEffects =
      ((runPeerOps 7 exampleCatalog ((List.replicate 253 (exampleRequest, okEffects)).map
        (fun c => PeerOp.add (some c.1) c.2))).1, .allocateFailed .noAvailableIP,
        [.GenerateKeys])) :=
  ⟨by decide, List.length_replicate _ _, by decide,
    subnet_exhaustion 10 100 5 7 exampleServer exampleCatalog (by decide) (by decide) (by decide)
      (List.replicate 253 (exampleRequest, okEffects)) (List.length_replicate _ _)
      (fun c hc => by
        rw [List.eq_of_mem_replicate hc]
        decide)
      exampleRequest okEffects (by decide)⟩

/-- Witness of C5 (amended): an address without `/`. -/
theorem allocatePeerIP_invalid_address_witness :
    ((lit "10.100.5.1").count slash ≠ 1 ∨
      ((lit "10.100.5.1").takeWhile (fun b => b != slash)).count dot ≠ 3) ∧
    (allocatePeerIP (fun _ => .ok []) 1 (lit "10.100.5.1") = .error .invalidServerAddressFormat ∨
      allocatePeerIP (fun _ => .ok []) 1 (lit "10.100.5.1") = .error .invalidIPAddressFormat) :=
  ⟨by decide, allocatePeerIP_invalid_address (fun _ => .ok []) 1 (lit "10.100.5.1") (by decide)⟩

/-- Witness of C6: scenario S1, user `a1b2c3d4`, base subnet `10.200`, base port `51820`. -/
theorem ProvisionUserNetwork_derivation_witness :
    6 ≤ exampleUser.UserUID.length ∧
    (-(2 ^ 63) ≤ exampleService.basePort ∧ exampleService.basePort + 9999 < 2 ^ 63) ∧
    (ProvisionUserNetwork exampleService exampleUser exampleProvisionEffects).1
      = .ok exampleDescriptor ∧
    exampleDescriptor.Namespace = lit "wg_" ++ exampleUser.UserUID ∧
    exampleDescriptor.WgPort = exampleService.basePort + (fnv1a32 exampleUser.UserUID : Int) % 10000 ∧
    exampleDescriptor.WgAddress =
      lit "10.100." ++ formatInt ((fnv1a32 exampleUser.UserUID : Int) % 254 + 1) ++ lit ".1/24" :=
  have h := ProvisionUserNetwork_derivation exampleService exampleUser exampleProvisionEffects
    exampleDescriptor (by decide) (by decide) (by decide)
  ⟨by decide, by decide, by decide, h.1, h.2.2.1, h.2.2.2.1⟩

/-- Witness of C8 (amended): an interface line of three fields. -/
theorem parseWireguardDump_short_interface_line_witness :
    TrimSpace "PRIV\tPUB\t51820".toList ≠ [] ∧
    (Fields ((splitLines (TrimSpace "PRIV\tPUB\t51820".toList)).getD 0 [])).length < 4 ∧
    ∃ stats, parseWireguardDump "PRIV\tPUB\t51820".toList "wg0".toList = .ok stats ∧
      stats.PublicKey = [] ∧ stats.ListenPort = 0 :=
  ⟨by decide, by decide,
    parseWireguardDump_short_interface_line "PRIV\tPUB\t51820".toList "wg0".toList (by decide)
      (by decide)⟩

/-- Witness of C10: the dump text of scenario S4, one peer with 1024 and 2048 bytes. -/
theorem parseWireguardDump_totals_witness :
    parseWireguardDump exampleDump "wg0".toList = .ok exampleParsed ∧
    exampleParsed.PeerCount = exampleParsed.Peers.length ∧
    exampleParsed.TotalRx = sumInt64 (exampleParsed.Peers.map (fun p => p.TransferRx)) ∧
    exampleParsed.TotalTx = sumInt64 (exampleParsed.Peers.map (fun p => p.TransferTx)) :=
  ⟨by decide, parseWireguardDump_totals exampleDump "wg0".toList exampleParsed (by decide)⟩

/-- Witness of C13: scenario S6, an empty `allowed_ips` on the server `10.100.5.1/24`
without peers. -/
theorem AddPeer_created_witness :
    AddPeer exampleCatalog 7 (some exampleRequest) okEffects =
      ({ exampleCatalog with
          peers := [{ peerAt (lit "10.100.5.2") with
            ID := 1, PublicKey := lit "PEERPUB", PrivateKey := lit "PEERPRIV",
            AllowedIPs := lit "10.100.5.2/32", PersistentKeepalive := 25,
            Comment := lit "laptop" }],
          nextPeerID := 2 },
        .created { peerAt (lit "10.100.5.2") with
            ID := 1, PublicKey := lit "PEERPUB", PrivateKey := lit "PEERPRIV",
            AllowedIPs := lit "10.100.5.2/32", PersistentKeepalive := 25,
            Comment := lit "laptop" },
        [.GenerateKeys,
          .AddPeer (lit "wg_a1b2c3d4") (lit "wg0") (lit "PEERPUB") (lit "10.100.5.2/32") []]) ∧
    ∃ req wgServer peerIP,
      some exampleRequest = some req ∧ exampleCatalog.firstServer false 7 = some wgServer ∧
      allocatePeerIP (exampleCatalog.findPeers none) wgServer.ID wgServer.WgAddress
        = .ok peerIP ∧
      lit "10.100.5.2" = peerIP ∧
      lit "10.100.5.2/32" = (if req.AllowedIPs = [] then peerIP ++ lit "/32" else req.AllowedIPs) :=
  have h := AddPeer_created exampleCatalog _ 7 (some exampleRequest) okEffects _ _
    (by decide : AddPeer exampleCatalog 7 (some exampleRequest) okEffects =
      ({ exampleCatalog with
          peers := [{ peerAt (lit "10.100.5.2") with
            ID := 1, PublicKey := lit "PEERPUB", PrivateKey := lit "PEERPRIV",
            AllowedIPs := lit "10.100.5.2/32", PersistentKeepalive := 25,
            Comment := lit "laptop" }],
          nextPeerID := 2 },
        .created { peerAt (lit "10.100.5.2") with
            ID := 1, PublicKey := lit "PEERPUB", PrivateKey := lit "PEERPRIV",
            AllowedIPs := lit "10.100.5.2/32", PersistentKeepalive := 25,
            Comment := lit "laptop" },
        [.GenerateKeys,
          .AddPeer (lit "wg_a1b2c3d4") (lit "wg0") (lit "PEERPUB") (lit "10.100.5.2/32") []]))
  ⟨by decide, by
    obtain ⟨req, wgServer, peerIP, h1, h2, h3, h4, h5, _⟩ := h
    exact ⟨req, wgServer, peerIP, h1, h2, h3, h4, h5⟩⟩

/-- Witness of C15 (amended): the third rule of the port publishing failing (action 20 of
the run) during the provisioning of the example user. -/
theorem ProvisionUserNetwork_rollback_witness :
    Run.ProvisionUserNetwork exampleService exampleWireguardService (failingAt 20) []
        exampleUser =
      (.setupPortForwardingFailed "failed to add FORWARD rule", publishFailureRun) ∧
    ProvisionResult.setupPortForwardingFailed "failed to add FORWARD rule" ≠ .panic ∧
    (∀ d, ProvisionResult.setupPortForwardingFailed "failed to add FORWARD rule" ≠ .ok d) ∧
    ∃ pre : Log,
      publishFailureRun =
        pre ++ [(.exec [lit "ip", lit "netns", lit "delete",
          generateNamespaceName exampleUser.UserUID], (failingAt 20).answers pre.length)] :=
  have h := ProvisionUserNetwork_rollback exampleService exampleWireguardService (failingAt 20)
    [] exampleUser (.setupPortForwardingFailed "failed to add FORWARD rule") publishFailureRun
    (by rfl) (by decide) (fun _ hd => ProvisionResult.noConfusion hd)
  ⟨by rfl, by decide, fun _ hd => ProvisionResult.noConfusion hd,
    (h.resolve_left (fun ⟨_, he, _⟩ => ProvisionResult.noConfusion he)).imp (fun _ hp => hp.1)⟩

/-- Witness of C17: the example user provisioned with no failure, then destroyed on a host
where the second deletion fails. -/
theorem DestroyUserNetwork_mirrors_provision_witness :
    slash ∉ exampleService.baseSubnet ∧
    (∀ a b c : ByteString, neverFailing.pathJoin [neverFailing.pathJoin [a, b], c]
      = neverFailing.pathJoin [a, b, c]) ∧
    Run.ProvisionUserNetwork exampleService exampleWireguardService neverFailing []
        exampleUser = (.ok provisionedDescriptor, provisionedRun) ∧
    ∃ (nsIP path content : ByteString) (pre : List Action),
      provisionedRun.actions = pre ++
        [.writeFile path content 0o600,
          .exec [lit "ip", lit "netns", lit "exec", provisionedDescriptor.Namespace,
            lit "wg-quick", lit "up", path]]
        ++ (portForwardingRules (lit "-A") exampleService.outInterface
              provisionedDescriptor.WgPort nsIP provisionedDescriptor.WgPort
              (lit "udp")).map Action.exec ∧
      (Run.DestroyUserNetwork exampleService exampleWireguardService
          { answers := (failingAt 1).answers, pathJoin := neverFailing.pathJoin } []
          provisionedDescriptor exampleUser.UserUID).2.actions =
        Log.actions [] ++
          (portForwardingRules (lit "-D") exampleService.outInterface
              provisionedDescriptor.WgPort nsIP provisionedDescriptor.WgPort
              (lit "udp")).map Action.exec ++
          [.exec [lit "ip", lit "netns", lit "exec", provisionedDescriptor.Namespace,
              lit "wg-quick", lit "down", path],
            .exec [lit "ip", lit "netns", lit "delete", provisionedDescriptor.Namespace]] :=
  have hjoin : ∀ a b c : ByteString, neverFailing.pathJoin [neverFailing.pathJoin [a, b], c]
      = neverFailing.pathJoin [a, b, c] := by
    intro a b c
    simp [neverFailing, List.intercalate, List.intersperse]
  ⟨by decide, hjoin, by rfl,
    DestroyUserNetwork_mirrors_provision exampleService exampleWireguardService neverFailing []
      exampleUser provisionedDescriptor provisionedRun (failingAt 1).answers [] (by decide) hjoin
      (by rfl)⟩

/-- Witness of C19 (amended): the removal of the routed peer on a host where the route
deletion (action 2 of the run) fails. -/
theorem DeletePeer_removal_authoritative_witness :
    routedCatalog.firstServer noFaults.serverQueryFails 7 = some exampleServer ∧
    routedCatalog.firstPeer noFaults.peerQueryFails 1 = some routedPeer ∧
    routedPeer.ServerID = exampleServer.ID ∧
    Run.DeletePeer (failingAt 2) noFaults routedCatalog [] 7 (some 1) =
      ({ routedCatalog with peers := [] }, .deleted,
        answered (failingAt 2) 0
          [.exec [lit "ip", lit "netns", lit "exec", lit "wg_a1b2c3d4", lit "iptables", lit "-D",
             lit "FORWARD", lit "-d", lit "10.0.0.0/24", lit "-j", lit "ACCEPT"],
           .exec [lit "ip", lit "netns", lit "exec", lit "wg_a1b2c3d4", lit "iptables", lit "-D",
             lit "FORWARD", lit "-s", lit "10.0.0.0/24", lit "-j", lit "ACCEPT"],
           .exec [lit "ip", lit "netns", lit "exec", lit "wg_a1b2c3d4", lit "ip", lit "route",
             lit "del", lit "10.0.0.0/24", lit "dev", lit "wg0"],
           .exec [lit "ip", lit "netns", lit "exec", lit "wg_a1b2c3d4", lit "wg", lit "set",
             lit "wg0", lit "peer", lit "PEERPUB", lit "remove"]]) ∧
    ∃ k, k ≤ (ipRanges routedPeer.AllowedIPs).length ∧
      (Run.DeletePeer (failingAt 2) noFaults routedCatalog [] 7 (some 1)).2.2 =
        [] ++ answered (failingAt 2) ([] : Log).length
          (((ipRanges routedPeer.AllowedIPs).map
              (forwardRuleCommands (lit "-D") exampleServer.Namespace)).flatten.map Action.exec ++
            ((ipRanges routedPeer.AllowedIPs).take k).map (fun ipRange =>
              Action.exec [lit "ip", lit "netns", lit "exec", exampleServer.Namespace, lit "ip",
                lit "route", lit "del", ipRange, lit "dev", exampleServer.WgInterface]) ++
            [.exec [lit "ip", lit "netns", lit "exec", exampleServer.Namespace, lit "wg",
              lit "set", exampleServer.WgInterface, lit "peer", routedPeer.PublicKey,
              lit "remove"]]) :=
  ⟨by decide, by decide, by decide, by rfl,
    (DeletePeer_removal_authoritative (failingAt 2) noFaults routedCatalog [] 7 1 exampleServer
      routedPeer (by decide) (by decide) (by decide)).imp
      (fun _ hk => ⟨hk.1, hk.2.1⟩)⟩

/-- Witness of C20: the configuration written for the example user. -/
theorem CreateConfig_postdown_mirrors_postup_witness :
    newline ∉ exampleConfig.PrivateKey ∧ newline ∉ exampleConfig.Address ∧
    newline ∉ exampleConfig.VethInterface ∧ newline ∉ exampleConfig.OutInterface ∧
    commandsOf (lit "PostUp") (configContent exampleConfig)
      = lit "sysctl -w net.ipv4.ip_forward=1" :: mirroredRules (lit "-A") exampleConfig ∧
    commandsOf (lit "PostDown") (configContent exampleConfig)
      = mirroredRules (lit "-D") exampleConfig ∧
    mirroredRules (lit "-D") exampleConfig =
      [lit "iptables -D FORWARD -i %i -o veth-ns-a1b2c3 -j ACCEPT",
       lit "iptables -D FORWARD -i veth-ns-a1b2c3 -o %i -j ACCEPT",
       lit "iptables -D FORWARD -i veth-ns-a1b2c3 -o eth0 -j ACCEPT",
       lit "iptables -D FORWARD -i eth0 -o veth-ns-a1b2c3 -j ACCEPT",
       lit "iptables -t nat -D POSTROUTING -s 10.100.2.1/24 -o veth-ns-a1b2c3 -j MASQUERADE",
       lit "iptables -t nat -D POSTROUTING -o eth0 -j MASQUERADE"] :=
  have h := CreateConfig_postdown_mirrors_postup exampleConfig (by decide) (by decide)
    (by decide) (by decide)
  ⟨by decide, by decide, by decide, by decide, h.1, h.2.1, by decide⟩

/-- Witness of C30: the provisioning of scenario S1, subnet id 2. -/
theorem allocatePeerIP_on_derived_address_witness :
    (ProvisionUserNetwork exampleService exampleUser exampleProvisionEffects).1
      = .ok exampleDescriptor ∧
    exampleDescriptor.WgAddress = lit "10.100.2.1/24" ∧
    fnv1a32 exampleUser.UserUID % 254 + 1 = 2 ∧
    allocatePeerIP (fun _ => .ok []) 1 exampleDescriptor.WgAddress =
      .ok (lit "10.100." ++ formatNat (fnv1a32 exampleUser.UserUID % 254 + 1) ++ lit ".2") ∧
    allocatePeerIP (fun _ => .ok []) 1 (lit "10.100.2.1/24") = .ok (lit "10.100.2.2") :=
  have h := allocatePeerIP_on_derived_address exampleService exampleUser exampleProvisionEffects
    exampleDescriptor (by decide)
  ⟨by decide, by decide, by decide, h.2.2.2.1 1, by decide⟩

/-- Witness of C29: the dump of scenario S4 and the same dump with the private key `OTHER`
and the preshared key `PSK`. -/
theorem parseWireguardDump_ignores_secrets_witness :
    exampleDump ≠ exampleDumpOtherSecrets ∧
    blankSecrets (dumpLines exampleDump) = blankSecrets (dumpLines exampleDumpOtherSecrets) ∧
    parseWireguardDump exampleDump "wg0".toList
      = parseWireguardDump exampleDumpOtherSecrets "wg0".toList ∧
    parseWireguardDump exampleDumpOtherSecrets "wg0".toList = .ok exampleParsed :=
  ⟨by decide, by decide,
    parseWireguardDump_ignores_secrets exampleDump exampleDumpOtherSecrets "wg0".toList
      (by decide),
    by decide⟩

/-- Witness of C25 (amended): the output `wg_a (id: 0)`, `wg_b` and the name `wg_a`. -/
theorem NamespaceExists_iff_witness :
    ((printingHost (lit "wg_a (id: 0)\nwg_b\n")).answers ([] : Log).length).failed = false ∧
    NetnsService.NamespaceExists (printingHost (lit "wg_a (id: 0)\nwg_b\n")) [] (lit "wg_a") =
      (.ok true, [(.exec [lit "ip", lit "netns", lit "list"],
        { failed := false, output := lit "wg_a (id: 0)\nwg_b\n" })]) ∧
    ∃ found : Bool,
      NetnsService.NamespaceExists (printingHost (lit "wg_a (id: 0)\nwg_b\n")) [] (lit "wg_a") =
        (.ok found, [] ++ [(.exec [lit "ip", lit "netns", lit "list"],
          (printingHost (lit "wg_a (id: 0)\nwg_b\n")).answers ([] : Log).length)]) ∧
      (found = true ↔
        ∃ line ∈ Split ((printingHost (lit "wg_a (id: 0)\nwg_b\n")).answers
            ([] : Log).length).output newline,
          trimSpaceBytes (line.takeWhile (fun b => b != space)) = lit "wg_a") :=
  ⟨rfl, by decide,
    (NamespaceExists_iff (printingHost (lit "wg_a (id: 0)\nwg_b\n")) [] (lit "wg_a") rfl).imp
      (fun _ h => ⟨h.1, h.2.1⟩)⟩

/-- Witness of C22 (amended): the identifiers `a1b2c3d4` and `00000057` on a host where
nothing fails. -/
theorem ProvisionUserNetwork_ignores_collision_witness :
    (∀ n, (neverFailing.answers n).failed = false) ∧
    6 ≤ exampleUser.UserUID.length ∧ 6 ≤ collidingUser.UserUID.length ∧
    hashUserUID exampleUser.UserUID % 254 = hashUserUID collidingUser.UserUID % 254 ∧
    ∃ d1 d2,
      (Run.ProvisionUserNetwork exampleService exampleWireguardService neverFailing []
        exampleUser).1 = .ok d1 ∧
      (Run.ProvisionUserNetwork exampleService exampleWireguardService neverFailing
        (Run.ProvisionUserNetwork exampleService exampleWireguardService neverFailing []
          exampleUser).2 collidingUser).1 = .ok d2 ∧
      d1.WgAddress = d2.WgAddress :=
  ⟨fun _ => rfl, by decide, by decide, by decide,
    (ProvisionUserNetwork_ignores_collision exampleService exampleWireguardService neverFailing
      (fun _ => rfl) [] exampleUser collidingUser (by decide) (by decide) (by decide)).imp
      (fun _ h => h.imp (fun _ h2 => ⟨h2.1, h2.2.1, h2.2.2.1⟩))⟩

set_option maxRecDepth 4000 in
/-- Witness of C21: the forwarding peer `10.100.5.2` of the example server, the public
address `203.0.113.5`. -/
theorem GetPeerConfig_content_witness :
    forwardingCatalog.firstServer noFaults.serverQueryFails 7 = some exampleServer ∧
    forwardingCatalog.firstPeer noFaults.peerQueryFails 1 = some forwardingPeer ∧
    forwardingPeer.ServerID = exampleServer.ID ∧
    newline ∉ forwardingPeer.PrivateKey ∧ newline ∉ forwardingPeer.PeerAddress ∧
    newline ∉ forwardingPeer.ForwardInterface ∧ newline ∉ exampleServer.WgPublicKey ∧
    newline ∉ lit "203.0.113.5" ∧
    GetPeerConfig (lit "203.0.113.5") noFaults forwardingCatalog 7 (some 1) =
      .success (lit "[Interface]\nPrivateKey = PEERPRIV\nAddress = 10.100.5.2/32\nDNS = 1.1.1.1, 8.8.8.8\nPostUp = iptables -t nat -A POSTROUTING -o eth0 -j MASQUERADE; iptables -A FORWARD -i %i -j ACCEPT; iptables -A FORWARD -o %i -j ACCEPT\nPreDown = iptables -t nat -D POSTROUTING -o eth0 -j MASQUERADE; iptables -D FORWARD -i %i -j ACCEPT; iptables -D FORWARD -o %i -j ACCEPT\n\n[Peer]\nPublicKey = SERVERPUB\nEndpoint = 203.0.113.5:57401\nAllowedIPs = 0.0.0.0/0, ::/0\nPersistentKeepalive = 25\n") ∧
    ∃ config,
      GetPeerConfig (lit "203.0.113.5") noFaults forwardingCatalog 7 (some 1) = .success config ∧
      (commandsOf (lit "PostUp") config ≠ [] ↔
        forwardingPeer.EnableForwarding = true ∧ forwardingPeer.ForwardInterface ≠ []) :=
  ⟨by decide, by decide, by decide, by decide, by decide, by decide, by decide, by decide,
    by rfl,
    (GetPeerConfig_content (lit "203.0.113.5") noFaults forwardingCatalog 7 1 exampleServer
      forwardingPeer (by decide) (by decide) (by decide) (by decide) (by decide) (by decide)
      (by decide) (by decide)).imp (fun _ h => ⟨h.1, h.2.2.1⟩)⟩

/-- Witness of C24 (amended): the identifiers `a1b2c3d4` and `a1b2c3d5`. -/
theorem ProvisionUserNetwork_names_witness :
    6 ≤ exampleUser.UserUID.length ∧ 6 ≤ neighbourUser.UserUID.length ∧
    exampleProvisionEffects.createNamespace = none ∧
    exampleUser.UserUID.take 6 = neighbourUser.UserUID.take 6 ∧
    ∃ nsName1 vethHost1 vethNs1 nsIP1 hostIP1 nsName2 vethHost2 vethNs2 nsIP2 hostIP2,
      (ProvisionUserNetwork exampleService exampleUser exampleProvisionEffects).2.take 2 =
        [.CreateNamespace nsName1, .CreateVethPair vethHost1 vethNs1 nsName1 nsIP1 hostIP1] ∧
      (ProvisionUserNetwork exampleService neighbourUser exampleProvisionEffects).2.take 2 =
        [.CreateNamespace nsName2, .CreateVethPair vethHost2 vethNs2 nsName2 nsIP2 hostIP2] ∧
      (nsName1 = nsName2 ↔ exampleUser.UserUID = neighbourUser.UserUID) ∧
      (vethHost1 = vethHost2 ↔ exampleUser.UserUID.take 6 = neighbourUser.UserUID.take 6) ∧
      (vethNs1 = vethNs2 ↔ exampleUser.UserUID.take 6 = neighbourUser.UserUID.take 6) :=
  ⟨by decide, by decide, rfl, by decide,
    ProvisionUserNetwork_names exampleService exampleUser neighbourUser exampleProvisionEffects
      exampleProvisionEffects (by decide) (by decide) rfl rfl⟩

/-- Witness of C26: scenario S1, base port 51820, subnet id 2, port 57401. -/
theorem ProvisionUserNetwork_ranges_witness :
    (-(2 ^ 63) ≤ exampleService.basePort ∧ exampleService.basePort + 9999 < 2 ^ 63) ∧
    (ProvisionUserNetwork exampleService exampleUser exampleProvisionEffects).1
      = .ok exampleDescriptor ∧
    exampleDescriptor.WgPort = 57401 ∧
    ∃ sid : Int, sid = (fnv1a32 exampleUser.UserUID : Int) % 254 + 1 ∧ 1 ≤ sid ∧ sid ≤ 254 ∧
      exampleService.basePort ≤ exampleDescriptor.WgPort ∧
      exampleDescriptor.WgPort ≤ exampleService.basePort + 9999 :=
  ⟨by decide, by decide, by decide,
    (ProvisionUserNetwork_ranges exampleService exampleUser exampleProvisionEffects
      exampleDescriptor (by decide) (by decide)).imp
      (fun _ h => ⟨h.1, h.2.1, h.2.2.1, h.2.2.2.1, h.2.2.2.2.1⟩)⟩

/-- Witness of C28: the provisioning of the example user with a failing port publishing. -/
theorem ProvisionUserNetwork_compensation_witness :
    6 ≤ exampleUser.UserUID.length ∧ firstFailure publishFailureEffects = 6 ∧
    ProvisionUserNetwork exampleService exampleUser publishFailureEffects =
      (.setupPortForwardingFailed "failed to add DNAT rule",
        sagaSteps exampleService exampleUser publishFailureEffects ++
          [.StopWireguardInNamespace (lit "wg_a1b2c3d4") (lit "/etc/wireguard/a1b2c3d4/wg0.conf"),
            .DeleteNamespace (lit "wg_a1b2c3d4")]) ∧
    (ProvisionUserNetwork exampleService exampleUser publishFailureEffects).2 =
      (sagaSteps exampleService exampleUser publishFailureEffects).take
          (firstFailure publishFailureEffects + 1) ++
        compensation exampleUser publishFailureEffects (firstFailure publishFailureEffects) :=
  ⟨by decide, by decide, by decide,
    (ProvisionUserNetwork_compensation exampleService exampleUser publishFailureEffects
      (by decide)).1⟩

end WireguardManager
